import Mathlib

/-!
Verification development for the Alignment Engine of the ankify repository.

The repository file src/lib/alignments.ts contains two revisions of the
engine under the same exported name:

* revision 1 (the first document in the file, called V1 below): processes
  all slides of a lecture in a single Promise.allSettled wave, collects all
  alignment and gap rows in memory, resolves card concepts centrally in bulk
  and persists everything at the very end in bulk inserts;
* revision 2 (the second document, called V2 below): processes slides in
  parallel batches of 3 with a cooperative cancellation check before each
  batch, a per-slide progress update, a rate-limit retry loop, and a fatal
  quota short-circuit, and persists each slide's alignment rows immediately
  inside processSlideAlignment.

Both revisions are embedded here.  The backing store (Supabase tables) is a
pure record of table contents plus an append-only event trace; the external
collaborators (candidate retrieval RPC, the OpenAI classification call, the
gap-analysis call, and the external actor that may cancel the job) are
oracles supplied through an environment record.  JavaScript concurrency
inside a batch (Promise.all / Promise.allSettled) is modelled as sequential
execution of the batch members, which is one admissible interleaving of the
single-threaded event loop.  setTimeout delays are recorded as sleep events.
JavaScript numbers used for progress are modelled with exact natural-number
arithmetic (Math.floor ((c / t) * 90) becomes 90 * c / t).
-/

/-- Alignment categories returned by the relevance classifier
(src/lib/openai.ts, matchCardsToSlide). -/
inductive AlignmentType
  | directly_aligned
  | deeper_than_lecture
  | too_shallow
  | not_aligned
deriving DecidableEq, Repr

/-- One row of the raw_cards table (deck ingestion output; read-only here). -/
structure RawCardRow where
  deck_id : Nat
  card_id : Nat
  front : String
  back : String
  tags : List String
deriving DecidableEq, Repr

/-- One row of the card_concepts table (lazily created deck-scoped wrapper
around an external card id). -/
structure ConceptRow where
  id : Nat
  deck_id : Nat
  card_id : Nat
deriving DecidableEq, Repr

/-- One row of the card_alignments table (the primary output). -/
structure AlignmentRow where
  lecture_id : Nat
  slide_concept_id : Nat
  card_concept_id : Nat
  alignment_type : AlignmentType
  similarity_score : Rat
  llm_reasoning : String
deriving DecidableEq, Repr

/-- One row of the coverage_gaps table. -/
structure GapRow where
  lecture_id : Nat
  slide_concept_id : Nat
  gap_description : String
deriving DecidableEq, Repr

/-- One row of the slide_concepts table. -/
structure SlideRow where
  id : Nat
  lecture_id : Nat
  slide_number : Nat
  concept_summary : String
deriving DecidableEq, Repr

/-- Status values of a processing_jobs row. -/
inductive JobStatus
  | pending
  | processing
  | completed
  | failed
deriving DecidableEq, Repr

/-- The processing_jobs row for (lecture, alignment_generation): the job
control and progress-reporting surface. -/
structure Job where
  status : JobStatus
  progress : Nat
  error_message : Option String
deriving DecidableEq, Repr

/-- Observable store operations, recorded in chronological order.  Events
carry enough data to state the temporal claims (which calls were issued,
which sleeps happened, which writes were bulk and which were per row). -/
inductive Event
  | clearAlignments (lecture : Nat)
  | clearGaps (lecture : Nat)
  | progressUpdate (p : Nat)
  | statusUpdate (s : JobStatus) (p : Option Nat)
  | statusCheck (s : JobStatus)
  | retrieveCall (slide : Nat)
  | classifyCall (slide : Nat) (attempt : Nat)
  | gapCall (slide : Nat)
  | sleep (ms : Nat)
  | gapInsert (slide : Nat)
  | alignInsert (slide : Nat) (n : Nat)
  | alignBulkInsert (n : Nat)
  | gapBulkInsert (n : Nat)
  | conceptRead (card : Nat)
  | conceptWrite (card : Nat)
  | conceptBulkRead (cards : List Nat)
  | rawBulkRead (cards : List Nat)
  | conceptBulkWrite (cards : List Nat)
deriving DecidableEq, Repr

/-- The backing store: table contents, the job row, a fresh-id counter for
inserted card_concepts rows, and the event trace. -/
structure Store where
  raw_cards : List RawCardRow
  card_concepts : List ConceptRow
  card_alignments : List AlignmentRow
  coverage_gaps : List GapRow
  slide_concepts : List SlideRow
  job : Job
  nextConceptId : Nat
  events : List Event
deriving DecidableEq, Repr

/-- Append one event to the trace. -/
def Store.log (st : Store) (e : Event) : Store :=
  { st with events := st.events ++ [e] }

/-- A candidate card returned by the find_candidate_cards RPC. -/
structure Candidate where
  card_id : Nat
  front : String
  back : String
  tags : List String
  similarity : Rat
deriving DecidableEq, Repr

/-- One classifier match (matchCardsToSlide output item). -/
structure CardMatch where
  card_id : Nat
  alignment_type : AlignmentType
  reasoning : String
  relevance_score : Rat
deriving DecidableEq, Repr

/-- The duck-typed error shape inspected by alignments.ts: code, HTTP
status, type, the nested error object's code and type, and message. -/
structure ClassifyError where
  code : Option String
  status : Option Nat
  etype : Option String
  errCode : Option String
  errType : Option String
  message : Option String
deriving DecidableEq, Repr

/-- Outcome of one call to matchCardsToSlide, as seen by alignments.ts. -/
inductive ClassifyResult
  | ok (matchList : List CardMatch)
  | err (e : ClassifyError)
deriving DecidableEq, Repr

/-- Outcome of the candidate retrieval RPC for one slide, after the V2
retryWithBackoff wrapper has run (the database-timeout retry loop is folded
into this oracle: no claim depends on it). -/
inductive RetrieveResult
  | ok (candidates : List Candidate)
  | err (message : Option String)
deriving DecidableEq, Repr

/-- Outcome of one analyzeGap call as seen by alignments.ts: a thrown error
(swallowed by the caller), or a gap description / explicit no-gap signal. -/
inductive GapResult
  | ok (gap : Option String)
  | err
deriving DecidableEq, Repr

/-- The external world: retrieval keyed by slide id, classification keyed by
slide id and attempt number (0 is the initial call, 1..3 the rate-limit
retries), gap analysis keyed by slide id, and the external actor that may
overwrite the job status before a given batch index (the cancellation
interface). -/
structure Env where
  retrieve : Nat → RetrieveResult
  classify : Nat → Nat → ClassifyResult
  gapAnalyze : Nat → GapResult
  externalWrite : Nat → Option JobStatus

/-- Character-list test: does the first list start with the second? -/
def charsStartWith : List Char → List Char → Bool
  | _, [] => true
  | [], _ :: _ => false
  | h :: t, p :: ps => h == p && charsStartWith t ps

/-- Character-list substring search. -/
def charsIncludes : List Char → List Char → Bool
  | [], pin => pin.isEmpty
  | h :: t, pin => charsStartWith (h :: t) pin || charsIncludes t pin

/-- JavaScript substring test s.includes pat. -/
def strIncludes (s pat : String) : Bool :=
  charsIncludes s.data pat.data

/-- err?.message?.includes of a possibly missing message. -/
def optIncludes (m : Option String) (pat : String) : Bool :=
  match m with
  | none => false
  | some s => strIncludes s pat

/-- The quota detection of alignments.ts: code / error.code / type /
error.type equal to insufficient_quota, or the message contains quota. -/
def isQuotaError (e : ClassifyError) : Bool :=
  e.code == some "insufficient_quota" ||
  e.errCode == some "insufficient_quota" ||
  e.etype == some "insufficient_quota" ||
  e.errType == some "insufficient_quota" ||
  optIncludes e.message "quota"

/-- The rate-limit detection of alignments.ts: HTTP status 429 and not a
quota error. -/
def isRateLimit (e : ClassifyError) : Bool :=
  e.status == some 429 && !(isQuotaError e)

/-- The fatal message thrown by processSlideAlignment on quota exhaustion. -/
def fatalQuotaMessage : String :=
  "OpenAI API billing quota exceeded. Please check your OpenAI billing and plan limits. Alignment cannot continue without API access."

/-- The Error object thrown by processSlideAlignment on quota exhaustion:
a fresh Error whose only populated field is the message. -/
def fatalQuotaError : ClassifyError :=
  { code := none, status := none, etype := none, errCode := none,
    errType := none, message := some fatalQuotaMessage }

/-- JS truncation s.slice(0, n). -/
def jsSlice (s : String) (n : Nat) : String :=
  s.take n

/-- The searchText computation: trim, then slice to 1000 characters when
longer. -/
def searchTextOf (s : String) : String :=
  let raw := s.trim
  if raw.length > 1000 then jsSlice raw 1000 else raw

/-- A JSON value, as produced by JSON.parse.  Strings are modelled without
escape sequences (the subset the claims exercise). -/
inductive Json
  | nullJ
  | boolJ (b : Bool)
  | numJ (n : Int)
  | strJ (s : String)
  | arrJ (xs : List Json)
  | objJ (fields : List (String × Json))

/-- Whitespace skipping for the JSON reader. -/
def skipWs : List Char → List Char
  | [] => []
  | c :: cs => if c = ' ' || c = '\n' || c = '\t' || c = '\r' then skipWs cs else c :: cs

/-- Read the characters of a JSON string literal up to the closing quote.
Escape sequences are not supported (they make the reader fail). -/
def readStr : List Char → Option (String × List Char)
  | [] => none
  | c :: cs =>
    if c = '\"' then some ("", cs)
    else if c = '\\' then none
    else match readStr cs with
      | some (s, rest) => some (String.mk [c] ++ s, rest)
      | none => none

/-- Read a run of decimal digits. -/
def readDigits : List Char → (List Char × List Char)
  | [] => ([], [])
  | c :: cs =>
    if c.isDigit then
      let (ds, rest) := readDigits cs
      (c :: ds, rest)
    else ([], c :: cs)

/-- Digits to a natural number. -/
def digitsToNat (ds : List Char) : Nat :=
  ds.foldl (fun acc c => acc * 10 + (c.toNat - 48)) 0

mutual

/-- Fuel-bounded recursive-descent JSON reader: one value. -/
def readVal : Nat → List Char → Option (Json × List Char)
  | 0, _ => none
  | Nat.succ fuel, input =>
    match skipWs input with
    | [] => none
    | c :: cs =>
      if c = 'n' then
        match cs with
        | 'u' :: 'l' :: 'l' :: rest => some (Json.nullJ, rest)
        | _ => none
      else if c = 't' then
        match cs with
        | 'r' :: 'u' :: 'e' :: rest => some (Json.boolJ true, rest)
        | _ => none
      else if c = 'f' then
        match cs with
        | 'a' :: 'l' :: 's' :: 'e' :: rest => some (Json.boolJ false, rest)
        | _ => none
      else if c = '\"' then
        match readStr cs with
        | some (s, rest) => some (Json.strJ s, rest)
        | none => none
      else if c = '-' then
        match readDigits cs with
        | ([], _) => none
        | (ds, rest) => some (Json.numJ (-(digitsToNat ds : Int)), rest)
      else if c.isDigit then
        match readDigits (c :: cs) with
        | ([], _) => none
        | (ds, rest) => some (Json.numJ (digitsToNat ds : Int), rest)
      else if c = '\x5b' then
        match skipWs cs with
        | ']' :: rest => some (Json.arrJ [], rest)
        | other =>
          match readArrItems fuel other with
          | some (xs, rest) => some (Json.arrJ xs, rest)
          | none => none
      else if c = '\x7b' then
        match skipWs cs with
        | '\x7d' :: rest => some (Json.objJ [], rest)
        | other =>
          match readObjItems fuel other with
          | some (fs, rest) => some (Json.objJ fs, rest)
          | none => none
      else none

/-- Fuel-bounded JSON reader: array items after the opening bracket. -/
def readArrItems : Nat → List Char → Option (List Json × List Char)
  | 0, _ => none
  | Nat.succ fuel, input =>
    match readVal fuel input with
    | none => none
    | some (v, rest) =>
      match skipWs rest with
      | ',' :: more =>
        match readArrItems fuel more with
        | some (xs, rest2) => some (v :: xs, rest2)
        | none => none
      | ']' :: more => some ([v], more)
      | _ => none

/-- Fuel-bounded JSON reader: object fields after the opening brace. -/
def readObjItems : Nat → List Char → Option (List (String × Json) × List Char)
  | 0, _ => none
  | Nat.succ fuel, input =>
    match skipWs input with
    | '\"' :: cs =>
      match readStr cs with
      | none => none
      | some (k, rest) =>
        match skipWs rest with
        | ':' :: rest2 =>
          match readVal fuel rest2 with
          | none => none
          | some (v, rest3) =>
            match skipWs rest3 with
            | ',' :: more =>
              match readObjItems fuel more with
              | some (fs, rest4) => some ((k, v) :: fs, rest4)
              | none => none
            | '\x7d' :: more => some ([(k, v)], more)
            | _ => none
        | _ => none
    | _ => none

end

/-- JSON.parse: reads one value and requires only whitespace to remain;
returns none where JSON.parse would throw a SyntaxError. -/
def jsonParse (s : String) : Option Json :=
  match readVal (s.length + 1) s.data with
  | some (v, rest) => if skipWs rest = [] then some v else none
  | none => none

/-- JavaScript truthiness of a JSON value (undefined is handled by the
callers through Option). -/
def jsTruthy : Json → Bool
  | Json.nullJ => false
  | Json.boolJ b => b
  | Json.numJ n => n != 0
  | Json.strJ s => s != ""
  | Json.arrJ _ => true
  | Json.objJ _ => true

/-- Property access parsed.k with JavaScript object semantics: duplicate
keys resolve to the last one; access on a non-object primitive yields
undefined (none). -/
def objGet (v : Json) (k : String) : Option Json :=
  match v with
  | Json.objJ fs => fs.foldl (fun acc p => if p.1 == k then some p.2 else acc) none
  | _ => none

/-- The expression parsed.gap || null of analyzeGap, including the
TypeError on a null parse result. -/
def gapField (v : Json) : Except String (Option String) :=
  match v with
  | Json.nullJ => Except.error "TypeError: Cannot read properties of null"
  | Json.objJ fs =>
    match objGet (Json.objJ fs) "gap" with
    | none => Except.ok none
    | some j =>
      Except.ok (if jsTruthy j then
        (match j with
         | Json.strJ s => some s
         | _ => some "")
      else none)
  | _ => Except.ok none

/-- The analyzeGap function of src/lib/openai.ts.  The respond argument is
the reasoning service: it yields the message content of the chat response
(possibly absent).  The second component counts how many times the service
was invoked.  On an empty matched-card list the function returns a fixed
gap string immediately, without any service call. -/
def analyzeGap (respond : String → List String → Option String)
    (slideConcept : String) (matchedCardConcepts : List String) :
    Except String (Option String) × Nat :=
  if matchedCardConcepts.length = 0 then
    (Except.ok (some ("No flashcards found covering: " ++ slideConcept)), 0)
  else
    let content := (respond slideConcept matchedCardConcepts).getD "\x7b\x7d"
    match jsonParse content with
    | none => (Except.error "SyntaxError: Unexpected token in JSON", 1)
    | some v => (gapField v, 1)

/-- MATCH_COUNT of alignments.ts: top candidate count requested from the
find_candidate_cards RPC. -/
def MATCH_COUNT : Nat := 50

/-- MAX_CARDS_PER_AI_CALL of alignments.ts: cap on cards per classifier
call. -/
def MAX_CARDS_PER_AI_CALL : Nat := 30

/-- PARALLEL_BATCH_SIZE of revision 2 of alignments.ts. -/
def PARALLEL_BATCH_SIZE : Nat := 3

/-- Insert one coverage_gaps row (with its trace event). -/
def Store.insertGap (st : Store) (g : GapRow) : Store :=
  { st with coverage_gaps := st.coverage_gaps ++ [g],
            events := st.events ++ [Event.gapInsert g.slide_concept_id] }

/-- Update the job progress (processing_jobs update with a progress value). -/
def updateProgress (st : Store) (p : Nat) : Store :=
  { st with job := { st.job with progress := p },
            events := st.events ++ [Event.progressUpdate p] }

/-- Mark the job completed with progress 100 (terminal update of both
revisions). -/
def markCompleted (st : Store) : Store :=
  { st with
      job := { status := JobStatus.completed,
               progress := 100,
               error_message := st.job.error_message },
      events := st.events ++ [Event.statusUpdate JobStatus.completed (some 100)] }

/-- Mark the job failed with an error message (catch block of both
revisions; no progress value is written). -/
def markFailed (st : Store) (msg : String) : Store :=
  { st with
      job := { st.job with
                 status := JobStatus.failed,
                 error_message := some msg },
      events := st.events ++ [Event.statusUpdate JobStatus.failed none] }

/-- Outcome of processSlideAlignment: normal return, or a thrown error. -/
inductive SlideOutcome
  | done (st : Store)
  | fatal (e : ClassifyError) (st : Store)
deriving Repr

/-- PHASE 3 loop of processSlideAlignment (revision 2): for each classifier
match, find the raw candidate (skipping unknown card ids), resolve or
create the card_concepts row for (deck, card) with one read and possibly
one write per match, and build the alignment row with score divided by 100;
directly aligned matches additionally contribute a truncated front text to
the gap-analysis input list. -/
def buildAlignmentsV2 (lec deck : Nat) (slide : SlideRow) (cta : List Candidate) :
    List CardMatch → Store → (List AlignmentRow × List String × Store)
  | [], st => ([], [], st)
  | m :: ms, st =>
    match cta.find? (fun c => c.card_id == m.card_id) with
    | none => buildAlignmentsV2 lec deck slide cta ms st
    | some rawCard =>
      let st1 := st.log (Event.conceptRead m.card_id)
      let resolved : Nat × Store :=
        match st1.card_concepts.find? (fun c => c.deck_id == deck && c.card_id == m.card_id) with
        | some c => (c.id, st1)
        | none =>
          let row : ConceptRow :=
            { id := st1.nextConceptId, deck_id := deck, card_id := m.card_id }
          (st1.nextConceptId,
           { st1 with card_concepts := st1.card_concepts ++ [row],
                      nextConceptId := st1.nextConceptId + 1,
                      events := st1.events ++ [Event.conceptWrite m.card_id] })
      let a : AlignmentRow :=
        { lecture_id := lec,
          slide_concept_id := slide.id,
          card_concept_id := resolved.1,
          alignment_type := m.alignment_type,
          similarity_score := m.relevance_score / 100,
          llm_reasoning := m.reasoning }
      let rec_ := buildAlignmentsV2 lec deck slide cta ms resolved.2
      let direct2 := if m.alignment_type == AlignmentType.directly_aligned
        then (jsSlice rawCard.front 100 ++ "...") :: rec_.2.1
        else rec_.2.1
      (a :: rec_.1, direct2, rec_.2.2)

/-- The tail of processSlideAlignment once a classifier result is in hand:
the zero-match gap, the per-slide alignment insert, and the conditional
gap-analysis call (whose own errors are swallowed). -/
def finishSlideV2 (env : Env) (lec deck : Nat) (slide : SlideRow)
    (cta : List Candidate) (matchList : List CardMatch) (st : Store) : Store :=
  if matchList.length = 0 then
    st.insertGap { lecture_id := lec,
                   slide_concept_id := slide.id,
                   gap_description := "AI found no relevant cards among " ++ toString cta.length
                     ++ " candidates for: " ++ jsSlice slide.concept_summary 100 ++ "..." }
  else
    let built := buildAlignmentsV2 lec deck slide cta matchList st
    let aligns := built.1
    let direct := built.2.1
    let st1 := built.2.2
    let st2 := if aligns.length > 0 then
        { st1 with card_alignments := st1.card_alignments ++ aligns,
                   events := st1.events ++ [Event.alignInsert slide.id aligns.length] }
      else st1
    if direct.length > 0 && direct.length < 3 then
      let st3 := st2.log (Event.gapCall slide.id)
      match env.gapAnalyze slide.id with
      | GapResult.ok (some g) =>
        st3.insertGap { lecture_id := lec,
                        slide_concept_id := slide.id,
                        gap_description := g }
      | GapResult.ok none => st3
      | GapResult.err => st3
    else st2

/-- The rate-limit retry loop of processSlideAlignment: while retries <
maxRetries, sleep 2^retries seconds, retry the classification call; a
success breaks out with the matches, the final failure records the
rate-limit gap.  The fuel argument equals maxRetries - retries and makes
the while loop structurally recursive. -/
def rateLimitRetry (env : Env) (lec : Nat) (slide : SlideRow)
    (maxRetries : Nat) : Nat → Nat → Store → (Store × Option (List CardMatch))
  | _, 0, st => (st, none)
  | retries, Nat.succ fuel, st =>
    let delay := Nat.pow 2 retries * 1000
    let st1 := (st.log (Event.sleep delay)).log (Event.classifyCall slide.id (retries + 1))
    match env.classify slide.id (retries + 1) with
    | ClassifyResult.ok ms => (st1, some ms)
    | ClassifyResult.err re =>
      if retries + 1 ≥ maxRetries then
        (st1.insertGap { lecture_id := lec,
                         slide_concept_id := slide.id,
                         gap_description := "AI matching failed due to rate limits: "
                           ++ (re.message.getD "Unknown error") }, none)
      else rateLimitRetry env lec slide maxRetries (retries + 1) fuel st1

/-- processSlideAlignment of revision 2: retrieval (search-failed and
no-candidate gaps), the initial classification call with its quota /
rate-limit / other error triage, the retry loop, and the per-slide
persistence via finishSlideV2.  Only the quota branch throws. -/
def processSlideAlignment (env : Env) (slide : SlideRow) (lec deck : Nat)
    (matchCount maxCards : Nat) (st : Store) : SlideOutcome :=
  let searchText := searchTextOf slide.concept_summary
  let st0 := st.log (Event.retrieveCall slide.id)
  match env.retrieve slide.id with
  | RetrieveResult.err m =>
    let errorMessage := m.getD "timeout"
    SlideOutcome.done (st0.insertGap
      { lecture_id := lec,
        slide_concept_id := slide.id,
        gap_description := "Search failed for: " ++ jsSlice slide.concept_summary 100
          ++ "... (" ++ errorMessage ++ ")" })
  | RetrieveResult.ok rawCandidates =>
    if rawCandidates.length = 0 then
      let hasCards := (st0.raw_cards.filter (fun r => r.deck_id == deck)).length > 0
      let gapDescription := if hasCards then
          "Text search returned no candidates for: " ++ jsSlice slide.concept_summary 100 ++ "..."
        else
          "No cards found in deck for: " ++ jsSlice slide.concept_summary 100 ++ "..."
      SlideOutcome.done (st0.insertGap
        { lecture_id := lec,
          slide_concept_id := slide.id,
          gap_description := gapDescription })
    else
      let cta := rawCandidates.take maxCards
      let st1 := st0.log (Event.classifyCall slide.id 0)
      match env.classify slide.id 0 with
      | ClassifyResult.ok ms => SlideOutcome.done (finishSlideV2 env lec deck slide cta ms st1)
      | ClassifyResult.err e =>
        if isQuotaError e then
          SlideOutcome.fatal fatalQuotaError st1
        else if isRateLimit e then
          match rateLimitRetry env lec slide 3 0 3 st1 with
          | (st2, some ms) => SlideOutcome.done (finishSlideV2 env lec deck slide cta ms st2)
          | (st2, none) => SlideOutcome.done st2
        else
          SlideOutcome.done (st1.insertGap
            { lecture_id := lec,
              slide_concept_id := slide.id,
              gap_description := "AI matching failed: " ++ (e.message.getD "Unknown error") })

/-- Outcome of one batch (or of one wrapped slide inside a batch). -/
inductive BatchResult
  | ok (st : Store) (pc : Nat)
  | fatal (e : ClassifyError) (st : Store)
deriving Repr

/-- The per-slide wrapper inside the batch loop of revision 2: on normal
return increment the shared counter and write the per-slide progress 5 +
floor(90 * completed / total); on a thrown error re-throw when it is a
quota error, otherwise count the slide and continue. -/
def processSlideWrapped (env : Env) (lec deck total : Nat) (slide : SlideRow)
    (pc : Nat) (st : Store) : BatchResult :=
  match processSlideAlignment env slide lec deck MATCH_COUNT MAX_CARDS_PER_AI_CALL st with
  | SlideOutcome.done st1 =>
    let pc1 := pc + 1
    let progress := 5 + pc1 * 90 / total
    BatchResult.ok (updateProgress st1 progress) pc1
  | SlideOutcome.fatal e st1 =>
    if isQuotaError e then BatchResult.fatal e st1
    else BatchResult.ok st1 (pc + 1)

/-- One batch of slides (Promise.all modelled as sequential execution of
the batch members). -/
def processBatch (env : Env) (lec deck total : Nat) :
    List SlideRow → Nat → Store → BatchResult
  | [], pc, st => BatchResult.ok st pc
  | slide :: rest, pc, st =>
    match processSlideWrapped env lec deck total slide pc st with
    | BatchResult.fatal e st1 => BatchResult.fatal e st1
    | BatchResult.ok st1 pc1 => processBatch env lec deck total rest pc1 st1

/-- Outcome of the batch loop. -/
inductive RunOutcome
  | finished (st : Store)
  | cancelled (st : Store)
  | fatal (e : ClassifyError) (st : Store)
deriving Repr

/-- The batch loop of revision 2: before each batch an external actor may
have overwritten the job status (the cancellation interface); the
orchestrator re-reads the status and stops when it is terminal; otherwise
it processes the next batch of PARALLEL_BATCH_SIZE slides and sleeps 2
seconds when more slides remain.  Every iteration consumes at least one
slide, so the loop is driven by a fuel argument that the caller sets to the
slide count; the fuel-exhausted branch is unreachable for such calls. -/
def runBatchesV2 (env : Env) (lec deck total : Nat) :
    Nat → Nat → Nat → List SlideRow → Store → RunOutcome
  | _, _, _, [], st => RunOutcome.finished st
  | 0, _, _, _ :: _, st => RunOutcome.finished st
  | Nat.succ fuel, b, pc, slide :: rest, st =>
    let stE := match env.externalWrite b with
      | some s2 => { st with job := { st.job with status := s2 } }
      | none => st
    let st1 := stE.log (Event.statusCheck stE.job.status)
    if stE.job.status == JobStatus.failed || stE.job.status == JobStatus.completed then
      RunOutcome.cancelled st1
    else
      let batch := (slide :: rest).take PARALLEL_BATCH_SIZE
      match processBatch env lec deck total batch pc st1 with
      | BatchResult.fatal e st2 => RunOutcome.fatal e st2
      | BatchResult.ok st2 pc2 =>
        let rest2 := (slide :: rest).drop PARALLEL_BATCH_SIZE
        let st3 := if rest2.length > 0 then st2.log (Event.sleep 2000) else st2
        runBatchesV2 env lec deck total fuel (b + 1) pc2 rest2 st3

/-- Insertion of one slide row by ascending slide_number. -/
def insertBySlideNumber (x : SlideRow) : List SlideRow → List SlideRow
  | [] => [x]
  | y :: ys => if x.slide_number ≤ y.slide_number then x :: y :: ys
               else y :: insertBySlideNumber x ys

/-- Insertion sort by slide_number (the order by slide_number ascending of
the slide_concepts query). -/
def sortBySlideNumber : List SlideRow → List SlideRow
  | [] => []
  | x :: xs => insertBySlideNumber x (sortBySlideNumber xs)

/-- The slide_concepts rows of one lecture, ordered by slide number. -/
def lectureSlides (st : Store) (lec : Nat) : List SlideRow :=
  sortBySlideNumber (st.slide_concepts.filter (fun s => s.lecture_id == lec))

/-- The destructive entry of both revisions: delete the lecture's prior
card_alignments and coverage_gaps rows and write progress 5. -/
def clearedStore (st : Store) (lectureId : Nat) : Store :=
  let stA := Store.log
    { st with card_alignments := st.card_alignments.filter (fun a => !(a.lecture_id == lectureId)) }
    (Event.clearAlignments lectureId)
  let stB := Store.log
    { stA with coverage_gaps := stA.coverage_gaps.filter (fun g => !(g.lecture_id == lectureId)) }
    (Event.clearGaps lectureId)
  updateProgress stB 5

/-- generateAlignmentsInBackground, revision 2 (the batched engine): clear
prior rows for the lecture, set progress 5, load the lecture slides, run
the batch loop, and finish with the terminal job update (completed, or
failed with the propagated message; an externally cancelled run is left
untouched). -/
def generateAlignmentsInBackgroundV2 (env : Env) (lectureId deckId userId : Nat)
    (st : Store) : Store :=
  let stC := clearedStore st lectureId
  let slides := lectureSlides stC lectureId
  if slides.length = 0 then markFailed stC "No slide concepts found"
  else
    match runBatchesV2 env lectureId deckId slides.length slides.length 0 0 slides stC with
    | RunOutcome.finished st4 => markCompleted st4
    | RunOutcome.cancelled st4 => st4
    | RunOutcome.fatal e st4 => markFailed st4 (e.message.getD "Unknown error")

/-- An alignment candidate of revision 1, stored temporarily with the
external card_id before concept resolution. -/
structure PendingAlignment where
  lecture_id : Nat
  slide_concept_id : Nat
  card_id : Nat
  alignment_type : AlignmentType
  similarity_score : Rat
  llm_reasoning : String
  tags : List String
deriving DecidableEq, Repr

/-- The value returned by the per-slide lambda of revision 1. -/
structure SlideResultV1 where
  slideId : Nat
  slideNumber : Nat
  gap : Option GapRow
  alignments : List PendingAlignment
  cardIds : List Nat
deriving DecidableEq, Repr

/-- The match loop of revision 1: build one pending alignment per match
whose card id occurs among the analyzed candidates (others are skipped),
with score divided by 100, and collect the truncated fronts of directly
aligned matches. -/
def buildPendingV1 (lec : Nat) (slide : SlideRow) (cta : List Candidate) :
    List CardMatch → (List PendingAlignment × List String)
  | [] => ([], [])
  | m :: ms =>
    match cta.find? (fun c => c.card_id == m.card_id) with
    | none => buildPendingV1 lec slide cta ms
    | some rawCard =>
      let p : PendingAlignment :=
        { lecture_id := lec,
          slide_concept_id := slide.id,
          card_id := m.card_id,
          alignment_type := m.alignment_type,
          similarity_score := m.relevance_score / 100,
          llm_reasoning := m.reasoning,
          tags := rawCard.tags }
      let rest := buildPendingV1 lec slide cta ms
      let direct := if m.alignment_type == AlignmentType.directly_aligned
        then (jsSlice rawCard.front 100 ++ "...") :: rest.2
        else rest.2
      (p :: rest.1, direct)

/-- The per-slide lambda of revision 1: retrieval, classification (every
classification error becomes a gap: this revision has no quota or
rate-limit handling), the match loop, and the conditional gap-analysis
call.  No table rows are written; only call events are traced and the
result is returned for central aggregation. -/
def slideResultV1 (env : Env) (lec deck : Nat) (hasCards : Bool)
    (slide : SlideRow) (st : Store) : Store × SlideResultV1 :=
  let searchText := searchTextOf slide.concept_summary
  let st0 := st.log (Event.retrieveCall slide.id)
  match env.retrieve slide.id with
  | RetrieveResult.err m =>
    let errorMessage := m.getD "timeout"
    (st0,
     { slideId := slide.id, slideNumber := slide.slide_number,
       gap := some { lecture_id := lec,
                     slide_concept_id := slide.id,
                     gap_description := "Search failed for: "
                       ++ jsSlice slide.concept_summary 100 ++ "... ("
                       ++ errorMessage ++ ")" },
       alignments := [], cardIds := [] })
  | RetrieveResult.ok rawCandidates =>
    if rawCandidates.length = 0 then
      let gapDescription := if hasCards then
          "Text search returned no candidates for: "
            ++ jsSlice slide.concept_summary 100 ++ "..."
        else
          "No cards found in deck for: "
            ++ jsSlice slide.concept_summary 100 ++ "..."
      (st0,
       { slideId := slide.id, slideNumber := slide.slide_number,
         gap := some { lecture_id := lec,
                       slide_concept_id := slide.id,
                       gap_description := gapDescription },
         alignments := [], cardIds := [] })
    else
      let cta := rawCandidates.take MAX_CARDS_PER_AI_CALL
      let st1 := st0.log (Event.classifyCall slide.id 0)
      match env.classify slide.id 0 with
      | ClassifyResult.err e =>
        (st1,
         { slideId := slide.id, slideNumber := slide.slide_number,
           gap := some { lecture_id := lec,
                         slide_concept_id := slide.id,
                         gap_description := "AI matching failed: "
                           ++ (e.message.getD "Unknown error") },
           alignments := [], cardIds := [] })
      | ClassifyResult.ok matchList =>
        if matchList.length = 0 then
          (st1,
           { slideId := slide.id, slideNumber := slide.slide_number,
             gap := some { lecture_id := lec,
                           slide_concept_id := slide.id,
                           gap_description := "AI found no relevant cards among "
                             ++ toString cta.length ++ " candidates for: "
                             ++ jsSlice slide.concept_summary 100 ++ "..." },
             alignments := [], cardIds := [] })
        else
          let built := buildPendingV1 lec slide cta matchList
          let directlyAlignedCards := built.2
          if directlyAlignedCards.length > 0 && directlyAlignedCards.length < 3 then
            let st2 := st1.log (Event.gapCall slide.id)
            let gap := match env.gapAnalyze slide.id with
              | GapResult.ok (some g) =>
                  some { lecture_id := lec,
                         slide_concept_id := slide.id,
                         gap_description := g }
              | GapResult.ok none => none
              | GapResult.err => none
            (st2,
             { slideId := slide.id, slideNumber := slide.slide_number,
               gap := gap, alignments := built.1,
               cardIds := matchList.map (fun m => m.card_id) })
          else
            (st1,
             { slideId := slide.id, slideNumber := slide.slide_number,
               gap := none, alignments := built.1,
               cardIds := matchList.map (fun m => m.card_id) })

/-- The Promise.allSettled wave of revision 1, modelled sequentially: every
lambda fulfils (no branch throws), so allSettled yields one result per
slide in slide order. -/
def processAllSlidesV1 (env : Env) (lec deck : Nat) (hasCards : Bool) :
    List SlideRow → Store → Store × List SlideResultV1
  | [], st => (st, [])
  | slide :: rest, st =>
    let r := slideResultV1 env lec deck hasCards slide st
    let rs := processAllSlidesV1 env lec deck hasCards rest r.1
    (rs.1, r.2 :: rs.2)

/-- Append an element to a deduplicating accumulator (JS Set.add). -/
def addUnique (acc : List Nat) (x : Nat) : List Nat :=
  if x ∈ acc then acc else acc ++ [x]

/-- The contents of the cardIdsToCheck set after aggregation: every match
card id of every fulfilled slide result, deduplicated in encounter order. -/
def collectCardIds (results : List SlideResultV1) : List Nat :=
  results.foldl (fun acc r => r.cardIds.foldl addUnique acc) []

/-- Association-list update with JavaScript Map.set semantics for lookups
(a later set for the same key wins). -/
def mapSet (m : List (Nat × Nat)) (k v : Nat) : List (Nat × Nat) :=
  (k, v) :: m.filter (fun p => !(p.1 == k))

/-- JavaScript Map.get. -/
def mapGet (m : List (Nat × Nat)) (k : Nat) : Option Nat :=
  (m.find? (fun p => p.1 == k)).map (fun p => p.2)

/-- PHASE 3 of revision 1, the Concept Resolver: one bulk read of existing
card_concepts rows for the deck and the referenced card ids, one bulk read
of the raw_cards rows for the ids still missing, and one bulk insert of the
new card_concepts rows; returns the card id to concept id map. -/
def resolveConceptsV1 (deck : Nat) (cardIds : List Nat) (st : Store) :
    List (Nat × Nat) × Store :=
  let st1 := st.log (Event.conceptBulkRead cardIds)
  let existingConcepts := st1.card_concepts.filter
    (fun c => c.deck_id == deck && c.card_id ∈ cardIds)
  let conceptMap := existingConcepts.foldl (fun m c => mapSet m c.card_id c.id) []
  let cardsToCreate := cardIds.filter (fun k => !(mapGet conceptMap k).isSome)
  if cardsToCreate.length > 0 then
    let st2 := st1.log (Event.rawBulkRead cardsToCreate)
    let rawCardsData := st2.raw_cards.filter
      (fun r => r.deck_id == deck && r.card_id ∈ cardsToCreate)
    let newConcepts := (List.range rawCardsData.length).zip rawCardsData |>.map
      (fun p => ({ id := st2.nextConceptId + p.1, deck_id := deck,
                   card_id := p.2.card_id } : ConceptRow))
    let st3 :=
      { st2 with card_concepts := st2.card_concepts ++ newConcepts,
                 nextConceptId := st2.nextConceptId + newConcepts.length,
                 events := st2.events ++ [Event.conceptBulkWrite (newConcepts.map (fun c => c.card_id))] }
    let conceptMap2 := newConcepts.foldl (fun m c => mapSet m c.card_id c.id) conceptMap
    (conceptMap2, st3)
  else
    (conceptMap, st1)

/-- PHASE 4 of revision 1: resolve each pending alignment through the
concept map, dropping the ones with no concept (console.warn branch). -/
def finalAlignmentsV1 (conceptMap : List (Nat × Nat))
    (allAlignments : List PendingAlignment) : List AlignmentRow :=
  allAlignments.filterMap (fun a =>
    match mapGet conceptMap a.card_id with
    | none => none
    | some cardConceptId => some
      { lecture_id := a.lecture_id,
        slide_concept_id := a.slide_concept_id,
        card_concept_id := cardConceptId,
        alignment_type := a.alignment_type,
        similarity_score := a.similarity_score,
        llm_reasoning := a.llm_reasoning })

/-- generateAlignmentsInBackground, revision 1 (the collect-then-flush
engine): clear prior rows, set progress 5, process every slide of the
lecture in one wave collecting results in memory, set progress 80, resolve
card concepts centrally in bulk, then bulk-insert all alignments and gaps
and mark the job completed.  Nothing after the slide wave can throw, so the
failed branch is reachable only when the lecture has no slides. -/
def generateAlignmentsInBackgroundV1 (env : Env) (lectureId deckId userId : Nat)
    (st : Store) : Store :=
  let stC := clearedStore st lectureId
  let slides := lectureSlides stC lectureId
  if slides.length = 0 then markFailed stC "No slide concepts found"
  else
    let hasCards := (stC.raw_cards.filter (fun r => r.deck_id == deckId)).length > 0
    let wave := processAllSlidesV1 env lectureId deckId hasCards slides stC
    let stD := updateProgress wave.1 80
    let results := wave.2
    let allGaps := results.filterMap (fun r => r.gap)
    let allAlignments := results.foldl (fun acc r => acc ++ r.alignments) []
    let cardIdsToCheck := collectCardIds results
    let resolved := resolveConceptsV1 deckId cardIdsToCheck stD
    let conceptMap := resolved.1
    let stE := resolved.2
    let finals := finalAlignmentsV1 conceptMap allAlignments
    let stF := if finals.length > 0 then
        { stE with card_alignments := stE.card_alignments ++ finals,
                   events := stE.events ++ [Event.alignBulkInsert finals.length] }
      else stE
    let stG := if allGaps.length > 0 then
        { stF with coverage_gaps := stF.coverage_gaps ++ allGaps,
                   events := stF.events ++ [Event.gapBulkInsert allGaps.length] }
      else stF
    markCompleted stG

/-- Event classifier: a classification call. -/
def isClassifyEvent : Event → Bool
  | Event.classifyCall _ _ => true
  | _ => false

/-- Event classifier: a candidate retrieval call. -/
def isRetrieveEvent : Event → Bool
  | Event.retrieveCall _ => true
  | _ => false

/-- Event classifier: a per-slide card_alignments insert (revision 2). -/
def isAlignInsertEvent : Event → Bool
  | Event.alignInsert _ _ => true
  | _ => false

/-- Event classifier: the bulk card_alignments insert (revision 1). -/
def isAlignBulkEvent : Event → Bool
  | Event.alignBulkInsert _ => true
  | _ => false

/-- Event classifier: a single-card card_concepts select (revision 2). -/
def isConceptReadEvent : Event → Bool
  | Event.conceptRead _ => true
  | _ => false

/-- Event classifier: a single-card card_concepts insert (revision 2). -/
def isConceptWriteEvent : Event → Bool
  | Event.conceptWrite _ => true
  | _ => false

/-- Event classifier: the bulk card_concepts select (revision 1). -/
def isConceptBulkReadEvent : Event → Bool
  | Event.conceptBulkRead _ => true
  | _ => false

/-- Event classifier: the bulk raw_cards select (revision 1). -/
def isRawBulkReadEvent : Event → Bool
  | Event.rawBulkRead _ => true
  | _ => false

/-- Event classifier: the bulk card_concepts insert (revision 1). -/
def isConceptBulkWriteEvent : Event → Bool
  | Event.conceptBulkWrite _ => true
  | _ => false

/-- Event classifier: a terminal job-status write by the engine. -/
def isTerminalWrite : Event → Bool
  | Event.statusUpdate s _ => s == JobStatus.completed || s == JobStatus.failed
  | _ => false

/-- Event classifier: the cancellation re-read of the job status. -/
def isStatusCheckEvent : Event → Bool
  | Event.statusCheck _ => true
  | _ => false

/-- The progress value carried by a job write, when any. -/
def progressOf : Event → Option Nat
  | Event.progressUpdate p => some p
  | Event.statusUpdate _ (some p) => some p
  | _ => none

/-- The sequence of progress values written during a trace. -/
def progressWrites (es : List Event) : List Nat :=
  es.filterMap progressOf

/-- The slide a store event belongs to, when it is slide-local. -/
def eventSlideId : Event → Option Nat
  | Event.retrieveCall s => some s
  | Event.classifyCall s _ => some s
  | Event.gapCall s => some s
  | Event.gapInsert s => some s
  | Event.alignInsert s _ => some s
  | _ => none

/-- Event classifier: a classification call for a given slide. -/
def isClassifyFor (sid : Nat) : Event → Bool
  | Event.classifyCall s _ => s == sid
  | _ => false

/-- Event classifier: a retrieval call for a given slide. -/
def isRetrieveFor (sid : Nat) : Event → Bool
  | Event.retrieveCall s => s == sid
  | _ => false

/-- C10: analyzeGap with an empty matched-card list returns the fixed
non-null gap string (the slide concept appended to a fixed lead-in) with
zero invocations of the reasoning service, and in particular never returns
the explicit no-gap signal on empty input. -/
theorem c10_analyzeGap_empty_short_circuit
    (respond : String → List String → Option String) (slideConcept : String) :
    analyzeGap respond slideConcept [] =
      (Except.ok (some ("No flashcards found covering: " ++ slideConcept)), 0) ∧
    (analyzeGap respond slideConcept []).1 ≠ Except.ok none := by
  refine ⟨rfl, ?_⟩
  intro h
  simp [analyzeGap] at h

/-- Demo slide 1 of lecture 1. -/
def slideA : SlideRow :=
  { id := 11, lecture_id := 1, slide_number := 1, concept_summary := "alpha" }

/-- Demo slide 2 of lecture 1. -/
def slideB : SlideRow :=
  { id := 12, lecture_id := 1, slide_number := 2, concept_summary := "beta" }

/-- Demo raw card 101 of deck 2. -/
def rawCardA : RawCardRow :=
  { deck_id := 2, card_id := 101, front := "frontA", back := "backA", tags := [] }

/-- Demo raw card 102 of deck 2. -/
def rawCardB : RawCardRow :=
  { deck_id := 2, card_id := 102, front := "frontB", back := "backB", tags := [] }

/-- A job row in the processing state. -/
def processingJob : Job :=
  { status := JobStatus.processing, progress := 0, error_message := none }

/-- Demo store: lecture 1 with two slides, deck 2 with two raw cards, no
prior alignment data, job processing. -/
def storeTwoSlides : Store :=
  { raw_cards := [rawCardA, rawCardB],
    card_concepts := [], card_alignments := [], coverage_gaps := [],
    slide_concepts := [slideA, slideB],
    job := processingJob, nextConceptId := 500, events := [] }

/-- Demo store with only the first slide. -/
def storeOneSlide : Store :=
  { storeTwoSlides with slide_concepts := [slideA] }

/-- Retrieval candidate for card 101. -/
def candA : Candidate :=
  { card_id := 101, front := "frontA", back := "backA", tags := [], similarity := 1 }

/-- Retrieval candidate for card 102. -/
def candB : Candidate :=
  { card_id := 102, front := "frontB", back := "backB", tags := [], similarity := 1 }

/-- A classifier match for card 101. -/
def matchA : CardMatch :=
  { card_id := 101, alignment_type := AlignmentType.not_aligned,
    reasoning := "rA", relevance_score := 50 }

/-- A classifier match for card 102. -/
def matchB : CardMatch :=
  { card_id := 102, alignment_type := AlignmentType.not_aligned,
    reasoning := "rB", relevance_score := 40 }

/-- A quota-exhaustion error as OpenAI reports it: code insufficient_quota
with HTTP status 429. -/
def quotaErr : ClassifyError :=
  { code := some "insufficient_quota", status := some 429, etype := none,
    errCode := none, errType := none,
    message := some "You exceeded your current quota" }

/-- A plain rate-limit error: HTTP status 429, no quota marker. -/
def rateErr : ClassifyError :=
  { code := none, status := some 429, etype := none, errCode := none,
    errType := none, message := some "Rate limit reached" }

/-- Environment for the C1 counterexample: slide 11 classifies to one
match, slide 12 fails with quota exhaustion on its initial call. -/
def envC1 : Env :=
  { retrieve := fun sid => if sid == 11 then RetrieveResult.ok [candA]
      else RetrieveResult.ok [candB],
    classify := fun sid _ => if sid == 11 then ClassifyResult.ok [matchA]
      else ClassifyResult.err quotaErr,
    gapAnalyze := fun _ => GapResult.ok none,
    externalWrite := fun _ => none }

/-- C1 counterexample: in the batched revision, a two-slide run in which
the second slide hits the fatal quota error still leaves the first slide's
alignment row persisted (a classification call occurs after an alignment
insert, the run ends failed, and one alignment row is in the store), so
alignment rows are not persisted in one bulk write after all batches and
partial rows are visible while the run is in progress. -/
theorem c1_counterexample :
    ((generateAlignmentsInBackgroundV2 envC1 1 2 0 storeTwoSlides).events.dropWhile
        (fun e => !(isAlignInsertEvent e))).any isClassifyEvent = true ∧
    (generateAlignmentsInBackgroundV2 envC1 1 2 0 storeTwoSlides).job.status = JobStatus.failed ∧
    (generateAlignmentsInBackgroundV2 envC1 1 2 0 storeTwoSlides).card_alignments.length = 1 :=
  ⟨rfl, rfl, rfl⟩

/-- Environment for the C2 counterexample: the initial classification call
is rate-limited, every retry fails with a quota-exhaustion error. -/
def envC2 : Env :=
  { retrieve := fun _ => RetrieveResult.ok [candA],
    classify := fun _ attempt => if attempt == 0 then ClassifyResult.err rateErr
      else ClassifyResult.err quotaErr,
    gapAnalyze := fun _ => GapResult.ok none,
    externalWrite := fun _ => none }

/-- C2 counterexample: a run in which a classification call (the first
rate-limit retry) fails with a quota-exhaustion error, yet nothing
propagates: the retry loop absorbs it into a rate-limit gap and the job
finishes completed instead of failed. -/
theorem c2_counterexample :
    envC2.classify 11 1 = ClassifyResult.err quotaErr ∧
    isQuotaError quotaErr = true ∧
    Event.classifyCall 11 1 ∈ (generateAlignmentsInBackgroundV2 envC2 1 2 0 storeOneSlide).events ∧
    (generateAlignmentsInBackgroundV2 envC2 1 2 0 storeOneSlide).job.status = JobStatus.completed ∧
    ({ lecture_id := 1, slide_concept_id := 11,
       gap_description := "AI matching failed due to rate limits: You exceeded your current quota" } : GapRow)
      ∈ (generateAlignmentsInBackgroundV2 envC2 1 2 0 storeOneSlide).coverage_gaps := by
  refine ⟨rfl, rfl, by decide, rfl, by decide⟩

/-- Environment for the C3 counterexample: both slides retrieve both cards
and the classifier matches both cards on each slide. -/
def envC3 : Env :=
  { retrieve := fun _ => RetrieveResult.ok [candA, candB],
    classify := fun _ _ => ClassifyResult.ok [matchA, matchB],
    gapAnalyze := fun _ => GapResult.ok none,
    externalWrite := fun _ => none }

/-- C3 counterexample: in the batched revision a two-slide run with two
shared matched cards issues four single-card card_concepts reads and two
single-card writes (one round trip per match), and a classification call
still happens after the first concept read, so resolution is neither bulk
nor central nor after all classification. -/
theorem c3_counterexample :
    (generateAlignmentsInBackgroundV2 envC3 1 2 0 storeTwoSlides).events.countP isConceptReadEvent = 4 ∧
    (generateAlignmentsInBackgroundV2 envC3 1 2 0 storeTwoSlides).events.countP isConceptWriteEvent = 2 ∧
    ((generateAlignmentsInBackgroundV2 envC3 1 2 0 storeTwoSlides).events.dropWhile
        (fun e => !(isConceptReadEvent e))).any isClassifyEvent = true := by
  refine ⟨rfl, rfl, rfl⟩

/-- The store carried by a batch-loop outcome. -/
def RunOutcome.store : RunOutcome → Store
  | RunOutcome.finished st => st
  | RunOutcome.cancelled st => st
  | RunOutcome.fatal _ st => st

@[simp] theorem log_events (st : Store) (e : Event) :
    (st.log e).events = st.events ++ [e] := rfl

@[simp] theorem log_job (st : Store) (e : Event) : (st.log e).job = st.job := rfl

@[simp] theorem log_raw_cards (st : Store) (e : Event) :
    (st.log e).raw_cards = st.raw_cards := rfl

@[simp] theorem log_slide_concepts (st : Store) (e : Event) :
    (st.log e).slide_concepts = st.slide_concepts := rfl

@[simp] theorem log_card_concepts (st : Store) (e : Event) :
    (st.log e).card_concepts = st.card_concepts := rfl

@[simp] theorem log_card_alignments (st : Store) (e : Event) :
    (st.log e).card_alignments = st.card_alignments := rfl

@[simp] theorem log_coverage_gaps (st : Store) (e : Event) :
    (st.log e).coverage_gaps = st.coverage_gaps := rfl

@[simp] theorem insertGap_events (st : Store) (g : GapRow) :
    (st.insertGap g).events = st.events ++ [Event.gapInsert g.slide_concept_id] := rfl

@[simp] theorem insertGap_job (st : Store) (g : GapRow) :
    (st.insertGap g).job = st.job := rfl

@[simp] theorem insertGap_raw_cards (st : Store) (g : GapRow) :
    (st.insertGap g).raw_cards = st.raw_cards := rfl

@[simp] theorem insertGap_slide_concepts (st : Store) (g : GapRow) :
    (st.insertGap g).slide_concepts = st.slide_concepts := rfl

@[simp] theorem insertGap_card_concepts (st : Store) (g : GapRow) :
    (st.insertGap g).card_concepts = st.card_concepts := rfl

@[simp] theorem insertGap_card_alignments (st : Store) (g : GapRow) :
    (st.insertGap g).card_alignments = st.card_alignments := rfl

@[simp] theorem insertGap_coverage_gaps (st : Store) (g : GapRow) :
    (st.insertGap g).coverage_gaps = st.coverage_gaps ++ [g] := rfl

@[simp] theorem updateProgress_events (st : Store) (p : Nat) :
    (updateProgress st p).events = st.events ++ [Event.progressUpdate p] := rfl

@[simp] theorem updateProgress_status (st : Store) (p : Nat) :
    (updateProgress st p).job.status = st.job.status := rfl

@[simp] theorem updateProgress_error (st : Store) (p : Nat) :
    (updateProgress st p).job.error_message = st.job.error_message := rfl

@[simp] theorem updateProgress_progress (st : Store) (p : Nat) :
    (updateProgress st p).job.progress = p := rfl

@[simp] theorem updateProgress_raw_cards (st : Store) (p : Nat) :
    (updateProgress st p).raw_cards = st.raw_cards := rfl

@[simp] theorem updateProgress_slide_concepts (st : Store) (p : Nat) :
    (updateProgress st p).slide_concepts = st.slide_concepts := rfl

@[simp] theorem updateProgress_card_concepts (st : Store) (p : Nat) :
    (updateProgress st p).card_concepts = st.card_concepts := rfl

@[simp] theorem updateProgress_card_alignments (st : Store) (p : Nat) :
    (updateProgress st p).card_alignments = st.card_alignments := rfl

@[simp] theorem updateProgress_coverage_gaps (st : Store) (p : Nat) :
    (updateProgress st p).coverage_gaps = st.coverage_gaps := rfl

/-- Does the initial classification call of this slide get reached and fail
with a quota error?  This is exactly the condition under which
processSlideAlignment throws. -/
def initialQuota (env : Env) (slide : SlideRow) : Bool :=
  match env.retrieve slide.id with
  | RetrieveResult.err _ => false
  | RetrieveResult.ok cs =>
    if cs.length = 0 then false
    else match env.classify slide.id 0 with
      | ClassifyResult.ok _ => false
      | ClassifyResult.err e => isQuotaError e

/-- processSlideAlignment throws exactly the descriptive quota Error, from
the state right after the retrieval and initial classification events, when
the initial classification call fails with a quota error. -/
theorem processSlide_fatal_of_initialQuota (env : Env) (slide : SlideRow)
    (lec deck mc maxc : Nat) (st : Store) (h : initialQuota env slide = true) :
    processSlideAlignment env slide lec deck mc maxc st =
      SlideOutcome.fatal fatalQuotaError
        ((st.log (Event.retrieveCall slide.id)).log (Event.classifyCall slide.id 0)) := by
  unfold initialQuota at h
  cases hr : env.retrieve slide.id with
  | err m => simp only [hr] at h; exact absurd h (by decide)
  | ok cs =>
    simp only [hr] at h
    by_cases hcs : cs.length = 0
    · simp only [if_pos hcs] at h; exact absurd h (by decide)
    · simp only [if_neg hcs] at h
      cases hc : env.classify slide.id 0 with
      | ok ms => simp only [hc] at h; exact absurd h (by decide)
      | err e =>
        simp only [hc] at h
        simp only [processSlideAlignment, hr, hc]
        simp [hcs, h]

/-- processSlideAlignment returns normally whenever the initial
classification call does not fail with a quota error: every other error is
absorbed at the slide boundary. -/
theorem processSlide_done_of_not_initialQuota (env : Env) (slide : SlideRow)
    (lec deck mc maxc : Nat) (st : Store) (h : initialQuota env slide = false) :
    ∃ st2, processSlideAlignment env slide lec deck mc maxc st = SlideOutcome.done st2 := by
  unfold initialQuota at h
  cases hr : env.retrieve slide.id with
  | err m =>
    exact ⟨_, by simp only [processSlideAlignment, hr]; try rfl⟩
  | ok cs =>
    simp only [hr] at h
    by_cases hcs : cs.length = 0
    · exact ⟨_, by simp only [processSlideAlignment, hr]; simp [hcs]; try rfl⟩
    · simp only [if_neg hcs] at h
      cases hc : env.classify slide.id 0 with
      | ok ms =>
        exact ⟨_, by simp only [processSlideAlignment, hr, hc]; simp [hcs]; try rfl⟩
      | err e =>
        simp only [hc] at h
        by_cases hrl : isRateLimit e = true
        · rcases hp : rateLimitRetry env lec slide 3 0 3
              ((st.log (Event.retrieveCall slide.id)).log (Event.classifyCall slide.id 0)) with ⟨st2, om⟩
          cases om with
          | some ms =>
            exact ⟨_, by simp only [processSlideAlignment, hr, hc]; simp [hcs, h, hrl, hp]; try rfl⟩
          | none =>
            exact ⟨st2, by simp only [processSlideAlignment, hr, hc]; simp [hcs, h, hrl, hp]; try rfl⟩
        · simp only [Bool.not_eq_true] at hrl
          exact ⟨_, by simp only [processSlideAlignment, hr, hc]; simp [hcs, h, hrl]; try rfl⟩

/-- An event that can be emitted while one slide is being processed: no
progress value, no terminal status write, no cancellation check, and any
slide-local payload belongs to the given slide. -/
def SlideLocal (sid : Nat) (e : Event) : Bool :=
  progressOf e == none && !(isTerminalWrite e) && !(isStatusCheckEvent e) &&
  (match eventSlideId e with
   | none => true
   | some i => i == sid)

/-- The store after processing one slide extends the store before it: the
job row and the read-only tables are untouched and the trace grows only by
slide-local events of that slide. -/
def SlideExtends (sid : Nat) (st st2 : Store) : Prop :=
  st2.job = st.job ∧ st2.slide_concepts = st.slide_concepts ∧
  st2.raw_cards = st.raw_cards ∧
  ∃ es, st2.events = st.events ++ es ∧ ∀ e ∈ es, SlideLocal sid e = true

theorem slideExtends_refl (sid : Nat) (st : Store) : SlideExtends sid st st :=
  ⟨rfl, rfl, rfl, [], (List.append_nil _).symm, by intro e he; cases he⟩

theorem slideExtends_trans {sid : Nat} {st1 st2 st3 : Store}
    (h12 : SlideExtends sid st1 st2) (h23 : SlideExtends sid st2 st3) :
    SlideExtends sid st1 st3 := by
  obtain ⟨hj12, hs12, hr12, es12, he12, hl12⟩ := h12
  obtain ⟨hj23, hs23, hr23, es23, he23, hl23⟩ := h23
  refine ⟨hj23.trans hj12, hs23.trans hs12, hr23.trans hr12, es12 ++ es23, ?_, ?_⟩
  · rw [he23, he12, List.append_assoc]
  · intro e he
    rcases List.mem_append.mp he with h | h
    · exact hl12 e h
    · exact hl23 e h

theorem slideExtends_log {sid : Nat} {e : Event} (st : Store)
    (he : SlideLocal sid e = true) : SlideExtends sid st (st.log e) :=
  ⟨rfl, rfl, rfl, [e], rfl, by
    intro x hx
    rcases List.mem_singleton.mp hx with rfl
    exact he⟩

theorem slideExtends_insertGap {sid : Nat} (st : Store) {g : GapRow}
    (hg : g.slide_concept_id = sid) : SlideExtends sid st (st.insertGap g) :=
  ⟨rfl, rfl, rfl, [Event.gapInsert g.slide_concept_id], rfl, by
    intro x hx
    rcases List.mem_singleton.mp hx with rfl
    simp [SlideLocal, progressOf, isTerminalWrite, isStatusCheckEvent, eventSlideId, hg]⟩

theorem buildAlignmentsV2_extends (lec deck : Nat) (slide : SlideRow)
    (cta : List Candidate) :
    ∀ (ms : List CardMatch) (st : Store),
      SlideExtends slide.id st (buildAlignmentsV2 lec deck slide cta ms st).2.2 := by
  intro ms
  induction ms with
  | nil => intro st; exact slideExtends_refl _ _
  | cons m rest ih =>
    intro st
    simp only [buildAlignmentsV2]
    cases hfind : cta.find? (fun c => c.card_id == m.card_id) with
    | none => exact ih st
    | some rawCard =>
      simp only []
      cases hconc : (st.log (Event.conceptRead m.card_id)).card_concepts.find?
          (fun c => c.deck_id == deck && c.card_id == m.card_id) with
      | some c =>
        simp only [hconc]
        refine slideExtends_trans ?_ (ih _)
        exact @slideExtends_log slide.id (Event.conceptRead m.card_id) st rfl
      | none =>
        simp only [hconc]
        refine slideExtends_trans ?_ (ih _)
        refine slideExtends_trans
          (@slideExtends_log slide.id (Event.conceptRead m.card_id) st rfl) ?_
        exact ⟨rfl, rfl, rfl, [Event.conceptWrite m.card_id], rfl, by
          intro x hx
          rcases List.mem_singleton.mp hx with rfl
          rfl⟩

theorem finishSlideV2_extends (env : Env) (lec deck : Nat) (slide : SlideRow)
    (cta : List Candidate) (ms : List CardMatch) (st : Store) :
    SlideExtends slide.id st (finishSlideV2 env lec deck slide cta ms st) := by
  unfold finishSlideV2
  by_cases hz : ms.length = 0
  · simp only [if_pos hz]
    exact slideExtends_insertGap st rfl
  · simp only [if_neg hz]
    have hbuild := buildAlignmentsV2_extends lec deck slide cta ms st
    rcases hsplit : buildAlignmentsV2 lec deck slide cta ms st with ⟨aligns, direct, st1⟩
    rw [hsplit] at hbuild
    simp only []
    have hstep2 : SlideExtends slide.id st1
        (if aligns.length > 0 then
          { st1 with card_alignments := st1.card_alignments ++ aligns,
                     events := st1.events ++ [Event.alignInsert slide.id aligns.length] }
         else st1) := by
      by_cases ha : aligns.length > 0
      · simp only [if_pos ha]
        exact ⟨rfl, rfl, rfl, [Event.alignInsert slide.id aligns.length], rfl, by
          intro x hx
          rcases List.mem_singleton.mp hx with rfl
          simp [SlideLocal, progressOf, isTerminalWrite, isStatusCheckEvent, eventSlideId]⟩
      · simp only [if_neg ha]
        exact slideExtends_refl _ _
    refine slideExtends_trans hbuild ?_
    by_cases hd : direct.length > 0 && direct.length < 3
    · simp only [hd, if_pos]
      cases hga : env.gapAnalyze slide.id with
      | ok og =>
        cases og with
        | some g =>
          refine slideExtends_trans hstep2 ?_
          refine slideExtends_trans (slideExtends_log _ ?_) (slideExtends_insertGap _ rfl)
          simp [SlideLocal, progressOf, isTerminalWrite, isStatusCheckEvent, eventSlideId]
        | none =>
          refine slideExtends_trans hstep2 ?_
          refine slideExtends_log _ ?_
          simp [SlideLocal, progressOf, isTerminalWrite, isStatusCheckEvent, eventSlideId]
      | err =>
        refine slideExtends_trans hstep2 ?_
        refine slideExtends_log _ ?_
        simp [SlideLocal, progressOf, isTerminalWrite, isStatusCheckEvent, eventSlideId]
    · simp only [hd, if_neg, Bool.false_eq_true, if_false]
      exact hstep2

theorem rateLimitRetry_extends (env : Env) (lec : Nat) (slide : SlideRow)
    (maxRetries : Nat) :
    ∀ (fuel retries : Nat) (st : Store),
      SlideExtends slide.id st (rateLimitRetry env lec slide maxRetries retries fuel st).1 := by
  intro fuel
  induction fuel with
  | zero => intro retries st; exact slideExtends_refl _ _
  | succ fuel ih =>
    intro retries st
    simp only [rateLimitRetry]
    have hsleep : SlideExtends slide.id st
        ((st.log (Event.sleep (Nat.pow 2 retries * 1000))).log
          (Event.classifyCall slide.id (retries + 1))) := by
      refine slideExtends_trans (slideExtends_log _ ?_) (slideExtends_log _ ?_)
      · simp [SlideLocal, progressOf, isTerminalWrite, isStatusCheckEvent, eventSlideId]
      · simp [SlideLocal, progressOf, isTerminalWrite, isStatusCheckEvent, eventSlideId]
    cases hc : env.classify slide.id (retries + 1) with
    | ok ms => exact hsleep
    | err re =>
      by_cases hmax : retries + 1 ≥ maxRetries
      · simp only [if_pos hmax]
        exact slideExtends_trans hsleep (slideExtends_insertGap _ rfl)
      · simp only [if_neg hmax]
        exact slideExtends_trans hsleep (ih _ _)

/-- processSlideAlignment extends the store reached right after its leading
retrieval event only with slide-local events of its own slide, leaving the
job row, the slide list and the raw cards untouched, in both the normal and
the thrown outcome. -/
theorem processSlide_extendsRetr (env : Env) (slide : SlideRow)
    (lec deck mc maxc : Nat) (st : Store) :
    (∀ st2, processSlideAlignment env slide lec deck mc maxc st = SlideOutcome.done st2 →
      SlideExtends slide.id (st.log (Event.retrieveCall slide.id)) st2) ∧
    (∀ e st2, processSlideAlignment env slide lec deck mc maxc st = SlideOutcome.fatal e st2 →
      SlideExtends slide.id (st.log (Event.retrieveCall slide.id)) st2) := by
  set st0 := st.log (Event.retrieveCall slide.id) with hst0
  have hcls : SlideExtends slide.id st0 (st0.log (Event.classifyCall slide.id 0)) := by
    refine slideExtends_log _ ?_
    simp [SlideLocal, progressOf, isTerminalWrite, isStatusCheckEvent, eventSlideId]
  unfold processSlideAlignment
  rw [← hst0]
  cases hr : env.retrieve slide.id with
  | err m =>
    constructor
    · intro st2 h2
      cases h2
      exact slideExtends_insertGap _ rfl
    · intro e st2 h2
      cases h2
  | ok cs =>
    by_cases hcs : cs.length = 0
    · simp only [if_pos hcs]
      constructor
      · intro st2 h2
        cases h2
        exact slideExtends_insertGap _ rfl
      · intro e st2 h2
        cases h2
    · simp only [if_neg hcs]
      cases hc : env.classify slide.id 0 with
      | ok ms =>
        constructor
        · intro st2 h2
          cases h2
          exact slideExtends_trans hcls (finishSlideV2_extends env lec deck slide _ ms _)
        · intro e st2 h2
          cases h2
      | err e0 =>
        by_cases hq : isQuotaError e0 = true
        · simp only [hq, if_pos, if_true]
          constructor
          · intro st2 h2
            cases h2
          · intro e st2 h2
            cases h2
            exact hcls
        · simp only [Bool.not_eq_true] at hq
          simp only [hq, Bool.false_eq_true, if_false]
          by_cases hrl : isRateLimit e0 = true
          · simp only [hrl, if_pos, if_true]
            have hrle := rateLimitRetry_extends env lec slide 3 3 0
              (st0.log (Event.classifyCall slide.id 0))
            rcases hp : rateLimitRetry env lec slide 3 0 3
                (st0.log (Event.classifyCall slide.id 0)) with ⟨stR, om⟩
            rw [hp] at hrle
            cases om with
            | some ms2 =>
              constructor
              · intro st2 h2
                cases h2
                exact slideExtends_trans (slideExtends_trans hcls hrle)
                  (finishSlideV2_extends env lec deck slide _ ms2 _)
              · intro e st2 h2
                cases h2
            | none =>
              constructor
              · intro st2 h2
                cases h2
                exact slideExtends_trans hcls hrle
              · intro e st2 h2
                cases h2
          · simp only [Bool.not_eq_true] at hrl
            simp only [hrl, Bool.false_eq_true, if_false]
            constructor
            · intro st2 h2
              cases h2
              exact slideExtends_trans hcls (slideExtends_insertGap _ rfl)
            · intro e st2 h2
              cases h2

/-- processSlideAlignment only extends the store with slide-local events of
its own slide and leaves the job row, the slide list and the raw cards
untouched, in both the normal and the thrown outcome. -/
theorem processSlide_extends (env : Env) (slide : SlideRow)
    (lec deck mc maxc : Nat) (st : Store) :
    (∀ st2, processSlideAlignment env slide lec deck mc maxc st = SlideOutcome.done st2 →
      SlideExtends slide.id st st2) ∧
    (∀ e st2, processSlideAlignment env slide lec deck mc maxc st = SlideOutcome.fatal e st2 →
      SlideExtends slide.id st st2) := by
  have hretr : SlideExtends slide.id st (st.log (Event.retrieveCall slide.id)) := by
    refine slideExtends_log _ ?_
    simp [SlideLocal, progressOf, isTerminalWrite, isStatusCheckEvent, eventSlideId]
  constructor
  · intro st2 h2
    exact slideExtends_trans hretr
      ((processSlide_extendsRetr env slide lec deck mc maxc st).1 st2 h2)
  · intro e st2 h2
    exact slideExtends_trans hretr
      ((processSlide_extendsRetr env slide lec deck mc maxc st).2 e st2 h2)

/-- Every outcome of processSlideAlignment carries the slide's retrieval
event in its trace. -/
theorem processSlide_retrieve_mem (env : Env) (slide : SlideRow)
    (lec deck mc maxc : Nat) (st : Store) :
    (∀ st2, processSlideAlignment env slide lec deck mc maxc st = SlideOutcome.done st2 →
      Event.retrieveCall slide.id ∈ st2.events) ∧
    (∀ e st2, processSlideAlignment env slide lec deck mc maxc st = SlideOutcome.fatal e st2 →
      Event.retrieveCall slide.id ∈ st2.events) := by
  constructor
  · intro st2 h2
    obtain ⟨-, -, -, es, hev, -⟩ :=
      (processSlide_extendsRetr env slide lec deck mc maxc st).1 st2 h2
    rw [hev]
    simp [Store.log]
  · intro e st2 h2
    obtain ⟨-, -, -, es, hev, -⟩ :=
      (processSlide_extendsRetr env slide lec deck mc maxc st).2 e st2 h2
    rw [hev]
    simp [Store.log]

set_option maxHeartbeats 2000000 in
/-- The thrown quota Error satisfies the orchestrator's quota detection
(its message contains the word quota). -/
theorem isQuotaError_fatal : isQuotaError fatalQuotaError = true := by decide

/-- The per-slide progress values written while completed slides go from
pc + 1 to pc + k out of total. -/
def consecProg (total pc k : Nat) : List Nat :=
  (List.range k).map (fun i => 5 + (pc + i + 1) * 90 / total)

theorem consecProg_append (total pc k k2 : Nat) :
    consecProg total pc k ++ consecProg total (pc + k) k2 = consecProg total pc (k + k2) := by
  induction k2 with
  | zero => simp [consecProg]
  | succ n ih =>
    have l1 : consecProg total (pc + k) (n + 1)
        = consecProg total (pc + k) n ++ [5 + (pc + k + n + 1) * 90 / total] := by
      simp [consecProg, List.range_succ]
    have l2 : consecProg total pc (k + (n + 1))
        = consecProg total pc (k + n) ++ [5 + (pc + (k + n) + 1) * 90 / total] := by
      have hx : k + (n + 1) = (k + n) + 1 := by omega
      rw [hx]
      simp [consecProg, List.range_succ]
    rw [l1, l2, ← List.append_assoc, ih]
    have hy : pc + k + n + 1 = pc + (k + n) + 1 := by omega
    rw [hy]

/-- One round of the batch loop from one store to another: the job status
and error message are preserved, the slide list and raw cards are
untouched, the trace grows only by non-terminal events whose slide-local
payloads belong to the given slides, and the progress writes are exactly
the per-slide values for completions pc + 1 .. pc + k. -/
structure LoopStep (ids : List Nat) (total pc k : Nat) (st st2 : Store) : Prop where
  status_eq : st2.job.status = st.job.status
  error_eq : st2.job.error_message = st.job.error_message
  slides_eq : st2.slide_concepts = st.slide_concepts
  raw_eq : st2.raw_cards = st.raw_cards
  trace : ∃ es, st2.events = st.events ++ es ∧
    (∀ e ∈ es, isTerminalWrite e = false ∧ ∀ i, eventSlideId e = some i → i ∈ ids) ∧
    progressWrites es = consecProg total pc k

theorem loopStep_refl (ids : List Nat) (total pc : Nat) (st : Store) :
    LoopStep ids total pc 0 st st := by
  refine ⟨rfl, rfl, rfl, rfl, [], (List.append_nil _).symm, ?_, ?_⟩
  · intro e he; cases he
  · simp [progressWrites, consecProg]

theorem loopStep_trans {ids : List Nat} {total pc k k2 : Nat} {st st2 st3 : Store}
    (h12 : LoopStep ids total pc k st st2)
    (h23 : LoopStep ids total (pc + k) k2 st2 st3) :
    LoopStep ids total pc (k + k2) st st3 := by
  obtain ⟨es12, he12, hl12, hp12⟩ := h12.trace
  obtain ⟨es23, he23, hl23, hp23⟩ := h23.trace
  refine ⟨h23.status_eq.trans h12.status_eq, h23.error_eq.trans h12.error_eq,
    h23.slides_eq.trans h12.slides_eq, h23.raw_eq.trans h12.raw_eq,
    es12 ++ es23, ?_, ?_, ?_⟩
  · rw [he23, he12, List.append_assoc]
  · intro e he
    rcases List.mem_append.mp he with h | h
    · exact hl12 e h
    · exact hl23 e h
  · rw [progressWrites, List.filterMap_append, ← progressWrites, ← progressWrites,
      hp12, hp23, consecProg_append]

theorem loopStep_mono {ids ids' : List Nat} {total pc k : Nat} {st st2 : Store}
    (hsub : ids ⊆ ids') (h : LoopStep ids total pc k st st2) :
    LoopStep ids' total pc k st st2 := by
  obtain ⟨es, he, hl, hp⟩ := h.trace
  exact ⟨h.status_eq, h.error_eq, h.slides_eq, h.raw_eq, es, he,
    fun e hm => ⟨(hl e hm).1, fun i hi => hsub ((hl e hm).2 i hi)⟩, hp⟩

theorem loopStep_events_mono {ids : List Nat} {total pc k : Nat} {st st2 : Store}
    (h : LoopStep ids total pc k st st2) {e : Event} (he : e ∈ st.events) :
    e ∈ st2.events := by
  obtain ⟨es, hev, -, -⟩ := h.trace
  rw [hev]
  exact List.mem_append.mpr (Or.inl he)

theorem slideLocal_props {sid : Nat} {e : Event} (h : SlideLocal sid e = true) :
    progressOf e = none ∧ isTerminalWrite e = false ∧
    (∀ i, eventSlideId e = some i → i = sid) := by
  simp only [SlideLocal, Bool.and_eq_true, beq_iff_eq, Bool.not_eq_true'] at h
  refine ⟨h.1.1.1, h.1.1.2, ?_⟩
  intro i hi
  have h2 := h.2
  rw [hi] at h2
  simpa using h2

theorem slideExtends_toLoopStep {sid : Nat} {ids : List Nat} {st st2 : Store}
    (total pc : Nat) (hsid : sid ∈ ids) (h : SlideExtends sid st st2) :
    LoopStep ids total pc 0 st st2 := by
  obtain ⟨hj, hs, hr, es, hev, hl⟩ := h
  refine ⟨by rw [hj], by rw [hj], hs, hr, es, hev, ?_, ?_⟩
  · intro e hm
    obtain ⟨-, hterm, hsl⟩ := slideLocal_props (hl e hm)
    exact ⟨hterm, fun i hi => (hsl i hi) ▸ hsid⟩
  · have : ∀ e ∈ es, progressOf e = none := fun e hm => (slideLocal_props (hl e hm)).1
    simp only [progressWrites, consecProg, List.range_zero, List.map_nil]
    exact List.filterMap_eq_nil_iff.mpr this

theorem loopStep_updateProgress (ids : List Nat) (total pc : Nat) (st : Store) :
    LoopStep ids total pc 1 st (updateProgress st (5 + (pc + 1) * 90 / total)) := by
  refine ⟨rfl, rfl, rfl, rfl, [Event.progressUpdate (5 + (pc + 1) * 90 / total)], rfl, ?_, ?_⟩
  · intro e he
    rcases List.mem_singleton.mp he with rfl
    exact ⟨rfl, by intro i hi; cases hi⟩
  · simp [progressWrites, progressOf, consecProg, List.range_succ]

/-- The per-slide wrapper on a slide whose initial classification is not a
quota failure: the slide completes, the counter advances by one, and the
single progress write is the per-slide formula value. -/
theorem processSlideWrapped_ok (env : Env) (lec deck total : Nat) (slide : SlideRow)
    (pc : Nat) (st : Store) (h : initialQuota env slide = false) :
    ∃ st2, processSlideWrapped env lec deck total slide pc st = BatchResult.ok st2 (pc + 1) ∧
      LoopStep [slide.id] total pc 1 st st2 ∧
      Event.retrieveCall slide.id ∈ st2.events := by
  obtain ⟨stD, hD⟩ := processSlide_done_of_not_initialQuota env slide lec deck
    MATCH_COUNT MAX_CARDS_PER_AI_CALL st h
  have hext := (processSlide_extends env slide lec deck MATCH_COUNT MAX_CARDS_PER_AI_CALL st).1 stD hD
  have hmem := (processSlide_retrieve_mem env slide lec deck MATCH_COUNT MAX_CARDS_PER_AI_CALL st).1 stD hD
  refine ⟨updateProgress stD (5 + (pc + 1) * 90 / total), ?_, ?_, ?_⟩
  · unfold processSlideWrapped
    rw [hD]
  · have h1 : LoopStep [slide.id] total pc 0 st stD :=
      slideExtends_toLoopStep total pc (by simp) hext
    have h2 : LoopStep [slide.id] total (pc + 0) 1 stD
        (updateProgress stD (5 + ((pc + 0) + 1) * 90 / total)) :=
      loopStep_updateProgress [slide.id] total (pc + 0) stD
    have h3 := loopStep_trans h1 h2
    simpa using h3
  · simp only [updateProgress_events]
    exact List.mem_append.mpr (Or.inl hmem)

/-- The per-slide wrapper on a slide whose initial classification fails
with a quota error: the quota Error is re-thrown and no progress is
written. -/
theorem processSlideWrapped_fatal (env : Env) (lec deck total : Nat) (slide : SlideRow)
    (pc : Nat) (st : Store) (h : initialQuota env slide = true) :
    processSlideWrapped env lec deck total slide pc st =
      BatchResult.fatal fatalQuotaError
        ((st.log (Event.retrieveCall slide.id)).log (Event.classifyCall slide.id 0)) ∧
    LoopStep [slide.id] total pc 0 st
      ((st.log (Event.retrieveCall slide.id)).log (Event.classifyCall slide.id 0)) ∧
    Event.retrieveCall slide.id ∈
      ((st.log (Event.retrieveCall slide.id)).log (Event.classifyCall slide.id 0)).events := by
  have hf := processSlide_fatal_of_initialQuota env slide lec deck
    MATCH_COUNT MAX_CARDS_PER_AI_CALL st h
  have hext := (processSlide_extends env slide lec deck MATCH_COUNT MAX_CARDS_PER_AI_CALL st).2
    fatalQuotaError _ hf
  have hmem := (processSlide_retrieve_mem env slide lec deck MATCH_COUNT MAX_CARDS_PER_AI_CALL st).2
    fatalQuotaError _ hf
  refine ⟨?_, slideExtends_toLoopStep total pc (by simp) hext, hmem⟩
  unfold processSlideWrapped
  rw [hf]
  simp [isQuotaError_fatal]

/-- A batch all of whose slides pass the initial classification without a
quota failure returns normally: the counter advances by the batch length,
the progress writes are the consecutive per-slide values, and each slide's
retrieval event is in the trace. -/
theorem processBatch_ok (env : Env) (lec deck total : Nat) :
    ∀ (batch : List SlideRow) (pc : Nat) (st : Store),
      (∀ s ∈ batch, initialQuota env s = false) →
      ∃ st2, processBatch env lec deck total batch pc st = BatchResult.ok st2 (pc + batch.length) ∧
        LoopStep (batch.map SlideRow.id) total pc batch.length st st2 ∧
        ∀ s ∈ batch, Event.retrieveCall s.id ∈ st2.events := by
  intro batch
  induction batch with
  | nil =>
    intro pc st _
    exact ⟨st, rfl, loopStep_refl _ total pc st, by intro s hs; cases hs⟩
  | cons s rest ih =>
    intro pc st h
    obtain ⟨st1, hw, hls, hmem⟩ :=
      processSlideWrapped_ok env lec deck total s pc st (h s (by simp))
    obtain ⟨st2, hb, hls2, hmem2⟩ := ih (pc + 1) st1 (fun q hq => h q (by simp [hq]))
    have harith : pc + 1 + rest.length = pc + (s :: rest).length := by
      simp [List.length_cons]; omega
    refine ⟨st2, ?_, ?_, ?_⟩
    · simp only [processBatch, hw, hb, harith]
    · have hm1 : LoopStep ((s :: rest).map SlideRow.id) total pc 1 st st1 :=
        loopStep_mono (by intro x hx; simp at hx; simp [hx]) hls
      have hm2 : LoopStep ((s :: rest).map SlideRow.id) total (pc + 1) rest.length st1 st2 :=
        loopStep_mono (by intro x hx; simp at hx; simp [hx]) hls2
      have := loopStep_trans hm1 hm2
      simpa [List.length_cons, Nat.add_comm] using this
    · intro q hq
      rcases List.mem_cons.mp hq with rfl | hq2
      · exact loopStep_events_mono hls2 hmem
      · exact hmem2 q hq2

/-- A batch whose first quota-failing slide is s (everything before s
passes) throws the quota Error: the slides before s complete with their
progress writes, s contributes its retrieval and initial classification
events, and nothing after s runs. -/
theorem processBatch_fatal (env : Env) (lec deck total : Nat) :
    ∀ (bpre : List SlideRow) (s : SlideRow) (bpost : List SlideRow) (pc : Nat) (st : Store),
      (∀ q ∈ bpre, initialQuota env q = false) → initialQuota env s = true →
      ∃ st2, processBatch env lec deck total (bpre ++ s :: bpost) pc st =
          BatchResult.fatal fatalQuotaError st2 ∧
        LoopStep ((bpre ++ [s]).map SlideRow.id) total pc bpre.length st st2 ∧
        ∀ q ∈ bpre, Event.retrieveCall q.id ∈ st2.events := by
  intro bpre
  induction bpre with
  | nil =>
    intro s bpost pc st _ hs
    obtain ⟨hw, hls, hmem⟩ := processSlideWrapped_fatal env lec deck total s pc st hs
    refine ⟨(st.log (Event.retrieveCall s.id)).log (Event.classifyCall s.id 0), ?_, ?_, ?_⟩
    · simp only [List.nil_append, processBatch, hw]
    · simpa using hls
    · intro q hq; cases hq
  | cons p rest ih =>
    intro s bpost pc st h hs
    obtain ⟨st1, hw, hls, hmem⟩ :=
      processSlideWrapped_ok env lec deck total p pc st (h p (by simp))
    obtain ⟨st2, hb, hls2, hmem2⟩ := ih s bpost (pc + 1) st1 (fun q hq => h q (by simp [hq])) hs
    refine ⟨st2, ?_, ?_, ?_⟩
    · simp only [List.cons_append, processBatch, hw]
      exact hb
    · have hm1 : LoopStep (((p :: rest) ++ [s]).map SlideRow.id) total pc 1 st st1 :=
        loopStep_mono (by intro x hx; simp at hx; simp [hx]) hls
      have hm2 : LoopStep (((p :: rest) ++ [s]).map SlideRow.id) total (pc + 1) rest.length st1 st2 :=
        loopStep_mono (by intro x hx; simp at hx; simp [hx]) hls2
      have := loopStep_trans hm1 hm2
      simpa [List.length_cons, Nat.add_comm] using this
    · intro q hq
      rcases List.mem_cons.mp hq with rfl | hq2
      · exact loopStep_events_mono hls2 hmem
      · exact hmem2 q hq2

theorem statusCheck_loopStep (ids : List Nat) (total pc : Nat) (st : Store) (s : JobStatus) :
    LoopStep ids total pc 0 st (st.log (Event.statusCheck s)) := by
  refine ⟨rfl, rfl, rfl, rfl, [Event.statusCheck s], rfl, ?_, ?_⟩
  · intro e he
    rcases List.mem_singleton.mp he with rfl
    exact ⟨rfl, by intro i hi; cases hi⟩
  · simp [progressWrites, progressOf, consecProg]

theorem sleep_loopStep (ids : List Nat) (total pc ms : Nat) (st : Store) :
    LoopStep ids total pc 0 st (st.log (Event.sleep ms)) := by
  refine ⟨rfl, rfl, rfl, rfl, [Event.sleep ms], rfl, ?_, ?_⟩
  · intro e he
    rcases List.mem_singleton.mp he with rfl
    exact ⟨rfl, by intro i hi; cases hi⟩
  · simp [progressWrites, progressOf, consecProg]

theorem take_drop_length_split (l : List SlideRow) (n : Nat) :
    (l.take n).length + (l.drop n).length = l.length := by
  simp [List.length_take, List.length_drop]; omega


theorem loopStep_cast {ids : List Nat} {total pc pc' k k' : Nat} {st st2 : Store}
    (hpc : pc = pc') (hk : k = k') (h : LoopStep ids total pc k st st2) :
    LoopStep ids total pc' k' st st2 := by
  subst hpc; subst hk; exact h

/-- A batch loop with no external cancellation and no quota failure runs to
the finished outcome, the progress writes are the consecutive per-slide
values for all slides, and every slide's retrieval event is traced. -/
theorem runBatches_ok (env : Env) (lec deck total : Nat) :
    ∀ (fuel : Nat) (slides : List SlideRow) (b pc : Nat) (st : Store),
      slides.length ≤ fuel →
      (∀ b2, env.externalWrite b2 = none) →
      st.job.status = JobStatus.processing →
      (∀ s ∈ slides, initialQuota env s = false) →
      ∃ st2, runBatchesV2 env lec deck total fuel b pc slides st = RunOutcome.finished st2 ∧
        LoopStep (slides.map SlideRow.id) total pc slides.length st st2 ∧
        (∀ s ∈ slides, Event.retrieveCall s.id ∈ st2.events) := by
  intro fuel
  induction fuel with
  | zero =>
    intro slides b pc st hlen _ _ _
    have hnil : slides = [] := List.eq_nil_of_length_eq_zero (Nat.le_zero.mp hlen)
    subst hnil
    exact ⟨st, rfl, loopStep_refl _ total pc st, by intro s hs; cases hs⟩
  | succ fuel ih =>
    intro slides b pc st hlen hext hstat hq
    cases slides with
    | nil => exact ⟨st, rfl, loopStep_refl _ total pc st, by intro s hs; cases hs⟩
    | cons slide rest =>
      have hcheckLS : LoopStep ((slide :: rest).map SlideRow.id) total pc 0 st
          (st.log (Event.statusCheck JobStatus.processing)) :=
        statusCheck_loopStep _ total pc st _
      have hbatchIQ : ∀ s ∈ (slide :: rest).take PARALLEL_BATCH_SIZE, initialQuota env s = false :=
        fun s hs => hq s (List.take_subset _ _ hs)
      obtain ⟨st2, hb, hls2, hmem2⟩ := processBatch_ok env lec deck total
        ((slide :: rest).take PARALLEL_BATCH_SIZE) pc
        (st.log (Event.statusCheck JobStatus.processing)) hbatchIQ
      have hlen2 : ((slide :: rest).drop PARALLEL_BATCH_SIZE).length ≤ fuel := by
        simp only [List.length_drop, List.length_cons, PARALLEL_BATCH_SIZE]
        simp only [List.length_cons] at hlen
        omega
      have hstat2 : st2.job.status = JobStatus.processing := by
        rw [hls2.status_eq, log_job, hstat]
      have hsleepLS : LoopStep ((slide :: rest).map SlideRow.id) total
          (pc + ((slide :: rest).take PARALLEL_BATCH_SIZE).length) 0 st2
          (if ((slide :: rest).drop PARALLEL_BATCH_SIZE).length > 0
           then st2.log (Event.sleep 2000) else st2) := by
        by_cases hr : ((slide :: rest).drop PARALLEL_BATCH_SIZE).length > 0
        · rw [if_pos hr]; exact sleep_loopStep _ total _ 2000 st2
        · rw [if_neg hr]; exact loopStep_refl _ total _ st2
      have hstat3 : (if ((slide :: rest).drop PARALLEL_BATCH_SIZE).length > 0
           then st2.log (Event.sleep 2000) else st2).job.status = JobStatus.processing := by
        rw [hsleepLS.status_eq, hstat2]
      obtain ⟨st4, hrun, hls4, hmem4⟩ := ih ((slide :: rest).drop PARALLEL_BATCH_SIZE) (b + 1)
        (pc + ((slide :: rest).take PARALLEL_BATCH_SIZE).length)
        (if ((slide :: rest).drop PARALLEL_BATCH_SIZE).length > 0
         then st2.log (Event.sleep 2000) else st2)
        hlen2 hext hstat3 (fun s hs => hq s (List.drop_subset _ _ hs))
      refine ⟨st4, ?_, ?_, ?_⟩
      · simp only [runBatchesV2, hext b, hstat]
        rw [if_neg (by decide)]
        rw [hb]
        exact hrun
      · have hsub1 : ((slide :: rest).take PARALLEL_BATCH_SIZE).map SlideRow.id ⊆
            (slide :: rest).map SlideRow.id := by
          intro x hx
          obtain ⟨s, hs, rfl⟩ := List.mem_map.mp hx
          exact List.mem_map.mpr ⟨s, List.take_subset _ _ hs, rfl⟩
        have hsub2 : ((slide :: rest).drop PARALLEL_BATCH_SIZE).map SlideRow.id ⊆
            (slide :: rest).map SlideRow.id := by
          intro x hx
          obtain ⟨s, hs, rfl⟩ := List.mem_map.mp hx
          exact List.mem_map.mpr ⟨s, List.drop_subset _ _ hs, rfl⟩
        have c1 := loopStep_trans hcheckLS (loopStep_cast (by omega) rfl (loopStep_mono hsub1 hls2))
        have c2 := loopStep_trans c1 (loopStep_cast (by omega) rfl hsleepLS)
        have c3 := loopStep_trans c2 (loopStep_cast (by omega) rfl (loopStep_mono hsub2 hls4))
        refine loopStep_cast rfl ?_ c3
        have := take_drop_length_split (slide :: rest) PARALLEL_BATCH_SIZE
        omega
      · intro s hs
        have hsplit : s ∈ (slide :: rest).take PARALLEL_BATCH_SIZE ∨
            s ∈ (slide :: rest).drop PARALLEL_BATCH_SIZE := by
          have := List.take_append_drop PARALLEL_BATCH_SIZE (slide :: rest)
          rw [← this] at hs
          exact List.mem_append.mp hs
        rcases hsplit with hs1 | hs2
        · exact loopStep_events_mono hls4 (loopStep_events_mono hsleepLS (hmem2 s hs1))
        · exact hmem4 s hs2

/-- A batch loop whose first quota-failing slide is s (all slides before s
pass) throws the quota Error to the caller: the slides before s complete
with their progress writes, and every traced event belongs to s or an
earlier slide, so no later slide is retrieved or classified. -/
theorem runBatches_fatal (env : Env) (lec deck total : Nat) (s : SlideRow) (post : List SlideRow) :
    ∀ (fuel : Nat) (pre : List SlideRow) (b pc : Nat) (st : Store),
      (pre ++ s :: post).length ≤ fuel →
      (∀ b2, env.externalWrite b2 = none) →
      st.job.status = JobStatus.processing →
      (∀ q ∈ pre, initialQuota env q = false) →
      initialQuota env s = true →
      ∃ st2, runBatchesV2 env lec deck total fuel b pc (pre ++ s :: post) st =
          RunOutcome.fatal fatalQuotaError st2 ∧
        LoopStep ((pre ++ [s]).map SlideRow.id) total pc pre.length st st2 := by
  intro fuel
  induction fuel with
  | zero =>
    intro pre b pc st hlen _ _ _ _
    exfalso
    simp [List.length_append] at hlen
  | succ fuel ih =>
    intro pre b pc st hlen hext hstat hpre hs
    by_cases hshort : pre.length < PARALLEL_BATCH_SIZE
    · -- the quota slide is inside the first batch
      have htake : (pre ++ s :: post).take PARALLEL_BATCH_SIZE =
          pre ++ s :: post.take (PARALLEL_BATCH_SIZE - pre.length - 1) := by
        rw [List.take_append_eq_append_take,
          List.take_of_length_le (Nat.le_of_lt hshort)]
        congr 1
        have hm : PARALLEL_BATCH_SIZE - pre.length = (PARALLEL_BATCH_SIZE - pre.length - 1) + 1 := by
          simp only [PARALLEL_BATCH_SIZE] at hshort ⊢
          omega
        rw [hm]
        rfl
      obtain ⟨st2, hbf, hls2, -⟩ := processBatch_fatal env lec deck total pre s
        (post.take (PARALLEL_BATCH_SIZE - pre.length - 1)) pc
        (st.log (Event.statusCheck JobStatus.processing)) hpre hs
      refine ⟨st2, ?_, ?_⟩
      · rcases pre with _ | ⟨p, pre'⟩
        · simp only [List.nil_append] at htake hbf ⊢
          simp only [runBatchesV2, hext b, hstat]
          rw [if_neg (by decide)]
          rw [htake, hbf]
        · simp only [List.cons_append] at htake hbf ⊢
          simp only [runBatchesV2, hext b, hstat]
          rw [if_neg (by decide)]
          rw [htake, hbf]
      · exact loopStep_cast rfl (by omega)
          (loopStep_trans (statusCheck_loopStep _ total pc st _) hls2)
    · -- the whole first batch precedes the quota slide
      push_neg at hshort
      rcases pre with _ | ⟨p, pre2⟩
      · exfalso; simp [PARALLEL_BATCH_SIZE] at hshort
      have htake : ((p :: pre2) ++ s :: post).take PARALLEL_BATCH_SIZE =
          (p :: pre2).take PARALLEL_BATCH_SIZE :=
        List.take_append_of_le_length hshort
      have hdrop : ((p :: pre2) ++ s :: post).drop PARALLEL_BATCH_SIZE =
          (p :: pre2).drop PARALLEL_BATCH_SIZE ++ s :: post :=
        List.drop_append_of_le_length hshort
      simp only [List.cons_append] at htake hdrop
      have hbatchIQ : ∀ q ∈ (p :: pre2).take PARALLEL_BATCH_SIZE, initialQuota env q = false :=
        fun q hq => hpre q (List.take_subset _ _ hq)
      obtain ⟨st2, hbok, hls2, -⟩ := processBatch_ok env lec deck total
        ((p :: pre2).take PARALLEL_BATCH_SIZE) pc
        (st.log (Event.statusCheck JobStatus.processing)) hbatchIQ
      have hlen2 : ((p :: pre2).drop PARALLEL_BATCH_SIZE ++ s :: post).length ≤ fuel := by
        simp only [List.length_append, List.length_drop, List.length_cons,
          PARALLEL_BATCH_SIZE] at hlen ⊢
        simp only [PARALLEL_BATCH_SIZE] at hshort
        omega
      have hstat2 : st2.job.status = JobStatus.processing := by
        rw [hls2.status_eq, log_job, hstat]
      have hstat3 : (st2.log (Event.sleep 2000)).job.status = JobStatus.processing := by
        rw [log_job, hstat2]
      obtain ⟨st4, hrun, hls4⟩ := ih ((p :: pre2).drop PARALLEL_BATCH_SIZE) (b + 1)
        (pc + ((p :: pre2).take PARALLEL_BATCH_SIZE).length) (st2.log (Event.sleep 2000))
        hlen2 hext hstat3 (fun q hq => hpre q (List.drop_subset _ _ hq)) hs
      refine ⟨st4, ?_, ?_⟩
      · simp only [List.cons_append]
        simp only [runBatchesV2, hext b, hstat]
        rw [if_neg (by decide)]
        rw [htake, hbok]
        show runBatchesV2 env lec deck total fuel (b + 1)
            (pc + (((p :: pre2)).take PARALLEL_BATCH_SIZE).length)
            (List.drop PARALLEL_BATCH_SIZE (p :: (pre2 ++ s :: post)))
            (if (List.drop PARALLEL_BATCH_SIZE (p :: (pre2 ++ s :: post))).length > 0
             then st2.log (Event.sleep 2000) else st2) = RunOutcome.fatal fatalQuotaError st4
        rw [hdrop]
        rw [if_pos (show ((p :: pre2).drop PARALLEL_BATCH_SIZE ++ s :: post).length > 0 by
          simp [List.length_append])]
        exact hrun
      · have hsub1 : ((p :: pre2).take PARALLEL_BATCH_SIZE).map SlideRow.id ⊆
            (((p :: pre2) ++ [s]).map SlideRow.id) := by
          intro x hx
          obtain ⟨q, hq, rfl⟩ := List.mem_map.mp hx
          exact List.mem_map.mpr ⟨q, List.mem_append.mpr (Or.inl (List.take_subset _ _ hq)), rfl⟩
        have hsub2 : (((p :: pre2).drop PARALLEL_BATCH_SIZE ++ [s]).map SlideRow.id) ⊆
            (((p :: pre2) ++ [s]).map SlideRow.id) := by
          intro x hx
          obtain ⟨q, hq, rfl⟩ := List.mem_map.mp hx
          rcases List.mem_append.mp hq with h1 | h1
          · exact List.mem_map.mpr ⟨q, List.mem_append.mpr (Or.inl (List.drop_subset _ _ h1)), rfl⟩
          · exact List.mem_map.mpr ⟨q, List.mem_append.mpr (Or.inr h1), rfl⟩
        have c1 : LoopStep (((p :: pre2) ++ [s]).map SlideRow.id) total pc
            (0 + ((p :: pre2).take PARALLEL_BATCH_SIZE).length) st st2 :=
          loopStep_trans (statusCheck_loopStep _ total pc st JobStatus.processing)
            (loopStep_cast (by omega) rfl (loopStep_mono hsub1 hls2))
        have c2 : LoopStep (((p :: pre2) ++ [s]).map SlideRow.id) total pc
            (0 + ((p :: pre2).take PARALLEL_BATCH_SIZE).length + 0) st
            (st2.log (Event.sleep 2000)) :=
          loopStep_trans c1 (loopStep_cast (by omega) rfl
            (sleep_loopStep _ total (pc + ((p :: pre2).take PARALLEL_BATCH_SIZE).length) 2000 st2))
        have c3 : LoopStep (((p :: pre2) ++ [s]).map SlideRow.id) total pc
            (0 + ((p :: pre2).take PARALLEL_BATCH_SIZE).length + 0 +
              ((p :: pre2).drop PARALLEL_BATCH_SIZE).length) st st4 :=
          loopStep_trans c2 (loopStep_cast (by omega) rfl (loopStep_mono hsub2 hls4))
        refine loopStep_cast rfl ?_ c3
        have hsplit := take_drop_length_split (p :: pre2) PARALLEL_BATCH_SIZE
        omega

/-- A batch loop that is externally cancelled before batch B (the job
status is overwritten to a terminal value between batches) stops at that
boundary with the cancelled outcome: the externally written status is left
in place, every batch before B completes fully (each of its slides is
retrieved), no terminal status is written by the engine, and no event
belongs to any slide of batch B or later. -/
theorem runBatches_cancel (env : Env) (lec deck total : Nat) (B : Nat) (t : JobStatus)
    (ht : t = JobStatus.failed ∨ t = JobStatus.completed) :
    ∀ (fuel : Nat) (slides : List SlideRow) (b pc : Nat) (st : Store),
      slides.length ≤ fuel →
      (∀ b2, b ≤ b2 → b2 < B → env.externalWrite b2 = none) →
      env.externalWrite B = some t →
      st.job.status = JobStatus.processing →
      (∀ s ∈ slides, initialQuota env s = false) →
      b ≤ B →
      PARALLEL_BATCH_SIZE * (B - b) < slides.length →
      ∃ st2, runBatchesV2 env lec deck total fuel b pc slides st = RunOutcome.cancelled st2 ∧
        st2.job.status = t ∧
        (∃ es, st2.events = st.events ++ es ∧
          (∀ e ∈ es, isTerminalWrite e = false ∧
            ∀ i, eventSlideId e = some i →
              i ∈ (slides.take (PARALLEL_BATCH_SIZE * (B - b))).map SlideRow.id) ∧
          progressWrites es = consecProg total pc (PARALLEL_BATCH_SIZE * (B - b))) ∧
        (∀ s ∈ slides.take (PARALLEL_BATCH_SIZE * (B - b)),
          Event.retrieveCall s.id ∈ st2.events) := by
  intro fuel
  induction fuel with
  | zero =>
    intro slides b pc st hlen _ _ _ _ _ hB2
    exfalso
    have : slides.length = 0 := Nat.le_zero.mp hlen
    omega
  | succ fuel ih =>
    intro slides b pc st hlen hnone hB hstat hq hbB hB2
    cases slides with
    | nil => exfalso; simp at hB2
    | cons slide rest =>
      by_cases hbeq : b = B
      · -- cancellation observed at this batch boundary
        subst hbeq
        have hterm : ((t == JobStatus.failed || t == JobStatus.completed) = true) := by
          rcases ht with rfl | rfl <;> decide
        refine ⟨({ st with job := { st.job with status := t } }).log (Event.statusCheck t),
          ?_, ?_, ?_, ?_⟩
        · simp only [runBatchesV2, hB]
          simp only [Store.log]
          rw [if_pos hterm]
        · simp [Store.log]
        · refine ⟨[Event.statusCheck t], by simp [Store.log], ?_, ?_⟩
          · intro e he
            rcases List.mem_singleton.mp he with rfl
            exact ⟨rfl, by intro i hi; cases hi⟩
          · simp [progressWrites, progressOf, consecProg]
        · intro s hs
          simp at hs
      · -- an earlier batch: process it fully, then recurse
        have hblt : b < B := Nat.lt_of_le_of_ne hbB hbeq
        have hBb1 : 1 ≤ B - b := by omega
        have htakeAdd : (slide :: rest).take (PARALLEL_BATCH_SIZE * (B - b)) =
            (slide :: rest).take PARALLEL_BATCH_SIZE ++
            ((slide :: rest).drop PARALLEL_BATCH_SIZE).take
              (PARALLEL_BATCH_SIZE * (B - b) - PARALLEL_BATCH_SIZE) := by
          have hsum : PARALLEL_BATCH_SIZE * (B - b) =
              PARALLEL_BATCH_SIZE + (PARALLEL_BATCH_SIZE * (B - b) - PARALLEL_BATCH_SIZE) := by
            simp only [PARALLEL_BATCH_SIZE]
            omega
          nth_rewrite 1 [hsum]
          exact List.take_add _ _ _
        have hBeq2 : PARALLEL_BATCH_SIZE * (B - b) - PARALLEL_BATCH_SIZE =
            PARALLEL_BATCH_SIZE * (B - (b + 1)) := by
          simp only [PARALLEL_BATCH_SIZE]
          omega
        rw [hBeq2] at htakeAdd
        have hbatchIQ : ∀ s ∈ (slide :: rest).take PARALLEL_BATCH_SIZE, initialQuota env s = false :=
          fun s hs => hq s (List.take_subset _ _ hs)
        obtain ⟨st2, hbok, hls2, hmem2⟩ := processBatch_ok env lec deck total
          ((slide :: rest).take PARALLEL_BATCH_SIZE) pc
          (st.log (Event.statusCheck JobStatus.processing)) hbatchIQ
        have hstat2 : st2.job.status = JobStatus.processing := by
          rw [hls2.status_eq, log_job, hstat]
        have hrestlen : PARALLEL_BATCH_SIZE * (B - (b + 1)) <
            ((slide :: rest).drop PARALLEL_BATCH_SIZE).length := by
          simp only [List.length_drop, PARALLEL_BATCH_SIZE] at hB2 ⊢
          omega
        have hrestpos : ((slide :: rest).drop PARALLEL_BATCH_SIZE).length > 0 := by
          omega
        have hlen2 : ((slide :: rest).drop PARALLEL_BATCH_SIZE).length ≤ fuel := by
          simp only [List.length_drop, List.length_cons, PARALLEL_BATCH_SIZE] at hlen ⊢
          omega
        have hstat3 : (st2.log (Event.sleep 2000)).job.status = JobStatus.processing := by
          rw [log_job, hstat2]
        obtain ⟨st4, hrun, hstat4, ⟨es2, hev2, hl2, hp2⟩, hmem4⟩ :=
          ih ((slide :: rest).drop PARALLEL_BATCH_SIZE) (b + 1)
            (pc + ((slide :: rest).take PARALLEL_BATCH_SIZE).length)
            (st2.log (Event.sleep 2000)) hlen2
            (fun b2 h1 h2 => hnone b2 (by omega) h2) hB hstat3
            (fun s hs => hq s (List.drop_subset _ _ hs)) (by omega) hrestlen
        -- the LoopStep prefix up to the sleep
        have hpre : LoopStep (((slide :: rest).take (PARALLEL_BATCH_SIZE * (B - b))).map SlideRow.id)
            total pc ((slide :: rest).take PARALLEL_BATCH_SIZE).length st
            (st2.log (Event.sleep 2000)) := by
          have hsub1 : ((slide :: rest).take PARALLEL_BATCH_SIZE).map SlideRow.id ⊆
              ((slide :: rest).take (PARALLEL_BATCH_SIZE * (B - b))).map SlideRow.id := by
            intro x hx
            obtain ⟨q, hqm, rfl⟩ := List.mem_map.mp hx
            refine List.mem_map.mpr ⟨q, ?_, rfl⟩
            rw [htakeAdd]
            exact List.mem_append.mpr (Or.inl hqm)
          have c1 : LoopStep (((slide :: rest).take (PARALLEL_BATCH_SIZE * (B - b))).map SlideRow.id)
              total pc (0 + ((slide :: rest).take PARALLEL_BATCH_SIZE).length) st st2 :=
            loopStep_trans (statusCheck_loopStep _ total pc st JobStatus.processing)
              (loopStep_cast (by omega) rfl (loopStep_mono hsub1 hls2))
          have c2 : LoopStep (((slide :: rest).take (PARALLEL_BATCH_SIZE * (B - b))).map SlideRow.id)
              total pc (0 + ((slide :: rest).take PARALLEL_BATCH_SIZE).length + 0) st
              (st2.log (Event.sleep 2000)) :=
            loopStep_trans c1 (loopStep_cast (by omega) rfl
              (sleep_loopStep _ total (pc + ((slide :: rest).take PARALLEL_BATCH_SIZE).length) 2000 st2))
          exact loopStep_cast rfl (by omega) c2
        obtain ⟨esA, hevA, hlA, hpA⟩ := hpre.trace
        refine ⟨st4, ?_, hstat4, ⟨esA ++ es2, ?_, ?_, ?_⟩, ?_⟩
        · simp only [runBatchesV2, hnone b (by omega) hblt, hstat]
          rw [if_neg (by decide)]
          rw [hbok]
          show runBatchesV2 env lec deck total fuel (b + 1)
              (pc + ((slide :: rest).take PARALLEL_BATCH_SIZE).length)
              ((slide :: rest).drop PARALLEL_BATCH_SIZE)
              (if ((slide :: rest).drop PARALLEL_BATCH_SIZE).length > 0
               then st2.log (Event.sleep 2000) else st2) = RunOutcome.cancelled st4
          rw [if_pos hrestpos]
          exact hrun
        · rw [hev2, hevA, List.append_assoc]
        · intro e he
          rcases List.mem_append.mp he with h1 | h1
          · exact hlA e h1
          · refine ⟨(hl2 e h1).1, ?_⟩
            intro i hi
            have := (hl2 e h1).2 i hi
            obtain ⟨q, hqm, rfl⟩ := List.mem_map.mp this
            refine List.mem_map.mpr ⟨q, ?_, rfl⟩
            rw [htakeAdd]
            exact List.mem_append.mpr (Or.inr hqm)
        · rw [progressWrites, List.filterMap_append, ← progressWrites, ← progressWrites,
            hpA, hp2]
          have hbl3 : ((slide :: rest).take PARALLEL_BATCH_SIZE).length = PARALLEL_BATCH_SIZE := by
            simp only [List.length_take, PARALLEL_BATCH_SIZE] at hB2 ⊢
            simp only [List.length_cons] at hB2 ⊢
            omega
          rw [hbl3]
          have := consecProg_append total pc PARALLEL_BATCH_SIZE
            (PARALLEL_BATCH_SIZE * (B - (b + 1)))
          rw [this]
          congr 1
          simp only [PARALLEL_BATCH_SIZE]
          omega
        · intro s hs
          rw [htakeAdd] at hs
          rcases List.mem_append.mp hs with h1 | h1
          · -- processed in this batch: event present after the batch, preserved
            have h1m := hmem2 s h1
            have hin3 : Event.retrieveCall s.id ∈ (st2.log (Event.sleep 2000)).events := by
              simp only [log_events]
              exact List.mem_append.mpr (Or.inl h1m)
            rw [hev2]
            exact List.mem_append.mpr (Or.inl hin3)
          · exact hmem4 s h1

/-- One batch, whatever the environment does: either every slide completes
(counter advances by the batch length, progress writes are the full
consecutive values) or a quota failure throws after m completed slides. -/
theorem processBatch_master (env : Env) (lec deck total : Nat) :
    ∀ (batch : List SlideRow) (pc : Nat) (st : Store),
      (∃ st2, processBatch env lec deck total batch pc st = BatchResult.ok st2 (pc + batch.length) ∧
        LoopStep (batch.map SlideRow.id) total pc batch.length st st2) ∨
      (∃ st2 m, m < batch.length ∧
        processBatch env lec deck total batch pc st = BatchResult.fatal fatalQuotaError st2 ∧
        LoopStep (batch.map SlideRow.id) total pc m st st2) := by
  intro batch
  induction batch with
  | nil => intro pc st; exact Or.inl ⟨st, rfl, loopStep_refl _ total pc st⟩
  | cons s rest ih =>
    intro pc st
    by_cases hq : initialQuota env s = true
    · obtain ⟨hw, hls, -⟩ := processSlideWrapped_fatal env lec deck total s pc st hq
      refine Or.inr ⟨(st.log (Event.retrieveCall s.id)).log (Event.classifyCall s.id 0),
        0, by simp, ?_, ?_⟩
      · simp only [processBatch, hw]
      · refine loopStep_mono ?_ hls
        intro x hx
        rcases List.mem_singleton.mp hx with rfl
        simp
    · simp only [Bool.not_eq_true] at hq
      obtain ⟨st1, hw, hls, -⟩ := processSlideWrapped_ok env lec deck total s pc st hq
      have hsub1 : [s.id] ⊆ (s :: rest).map SlideRow.id := by
        intro x hx
        rcases List.mem_singleton.mp hx with rfl
        simp
      have hsub2 : rest.map SlideRow.id ⊆ (s :: rest).map SlideRow.id := by
        intro x hx
        obtain ⟨q, hqm, rfl⟩ := List.mem_map.mp hx
        exact List.mem_map.mpr ⟨q, by simp [hqm], rfl⟩
      rcases ih (pc + 1) st1 with ⟨st2, hok, hls2⟩ | ⟨st2, m, hm, hfat, hls2⟩
      · refine Or.inl ⟨st2, ?_, ?_⟩
        · simp only [processBatch, hw, hok]
          congr 1
          simp [List.length_cons]
          omega
        · have c : LoopStep ((s :: rest).map SlideRow.id) total pc (1 + rest.length) st st2 :=
            loopStep_trans (loopStep_mono hsub1 hls) (loopStep_mono hsub2 hls2)
          refine loopStep_cast rfl ?_ c
          simp [List.length_cons]
          omega
      · refine Or.inr ⟨st2, 1 + m, by simp [List.length_cons]; omega, ?_, ?_⟩
        · simp only [processBatch, hw, hfat]
        · exact loopStep_trans (loopStep_mono hsub1 hls) (loopStep_mono hsub2 hls2)

theorem progressWrites_nil : progressWrites [] = [] := rfl

theorem progressWrites_append (es1 es2 : List Event) :
    progressWrites (es1 ++ es2) = progressWrites es1 ++ progressWrites es2 := by
  simp [progressWrites, List.filterMap_append]

theorem progressWrites_cons_none {e : Event} (h : progressOf e = none) (es : List Event) :
    progressWrites (e :: es) = progressWrites es := by
  simp [progressWrites, List.filterMap_cons, h]

/-- The batch loop, whatever the environment does (cancellation, quota
failures, anything): the engine writes no terminal status inside the loop,
and the progress writes are an initial segment of the consecutive
per-slide values for at most all slides. -/
theorem runBatches_master (env : Env) (lec deck total : Nat) :
    ∀ (fuel : Nat) (slides : List SlideRow) (b pc : Nat) (st : Store),
      ∃ es k, (runBatchesV2 env lec deck total fuel b pc slides st).store.events = st.events ++ es ∧
        (∀ e ∈ es, isTerminalWrite e = false) ∧
        progressWrites es = consecProg total pc k ∧ k ≤ slides.length := by
  intro fuel
  induction fuel with
  | zero =>
    intro slides b pc st
    refine ⟨[], 0, ?_, ?_, ?_, ?_⟩
    · cases slides with
      | nil => simp [runBatchesV2, RunOutcome.store]
      | cons s rest => simp [runBatchesV2, RunOutcome.store]
    · intro e he; cases he
    · simp [progressWrites, consecProg]
    · omega
  | succ fuel ih =>
    intro slides b pc st
    cases slides with
    | nil =>
      refine ⟨[], 0, ?_, ?_, ?_, ?_⟩
      · simp [runBatchesV2, RunOutcome.store]
      · intro e he; cases he
      · simp [progressWrites, consecProg]
      · omega
    | cons slide rest =>
      suffices h : ∀ stE : Store, stE.events = st.events →
          ∃ es k, (RunOutcome.store
            (if (stE.job.status == JobStatus.failed || stE.job.status == JobStatus.completed) = true
             then RunOutcome.cancelled (stE.log (Event.statusCheck stE.job.status))
             else match processBatch env lec deck total ((slide :: rest).take PARALLEL_BATCH_SIZE) pc
                 (stE.log (Event.statusCheck stE.job.status)) with
               | BatchResult.fatal e st2 => RunOutcome.fatal e st2
               | BatchResult.ok st2 pc2 =>
                 runBatchesV2 env lec deck total fuel (b + 1) pc2
                   ((slide :: rest).drop PARALLEL_BATCH_SIZE)
                   (if ((slide :: rest).drop PARALLEL_BATCH_SIZE).length > 0
                    then st2.log (Event.sleep 2000) else st2))).events = st.events ++ es ∧
            (∀ e ∈ es, isTerminalWrite e = false) ∧
            progressWrites es = consecProg total pc k ∧ k ≤ (slide :: rest).length by
        rcases hx : env.externalWrite b with - | t2
        · have hh := h st rfl
          simpa only [runBatchesV2, hx] using hh
        · have hh := h { st with job := { st.job with status := t2 } } rfl
          simpa only [runBatchesV2, hx] using hh
      intro stE hev
      have hsplitlen := take_drop_length_split (slide :: rest) PARALLEL_BATCH_SIZE
      by_cases hterm : (stE.job.status == JobStatus.failed ||
          stE.job.status == JobStatus.completed) = true
      · rw [if_pos hterm]
        refine ⟨[Event.statusCheck stE.job.status], 0, ?_, ?_, ?_, by omega⟩
        · simp [RunOutcome.store, hev]
        · intro e he
          rcases List.mem_singleton.mp he with rfl
          rfl
        · simp [progressWrites, progressOf, consecProg]
      · rw [if_neg hterm]
        rcases processBatch_master env lec deck total ((slide :: rest).take PARALLEL_BATCH_SIZE)
            pc (stE.log (Event.statusCheck stE.job.status)) with
          ⟨st2, hok, hls2⟩ | ⟨st2, m, hm, hfat, hls2⟩
        · simp only [hok]
          obtain ⟨esB, hevB, hlB, hpB⟩ := hls2.trace
          by_cases hsl : ((slide :: rest).drop PARALLEL_BATCH_SIZE).length > 0
          · rw [if_pos hsl]
            obtain ⟨es2, k2, hev2, hterm2, hp2, hk2⟩ :=
              ih ((slide :: rest).drop PARALLEL_BATCH_SIZE) (b + 1)
                (pc + ((slide :: rest).take PARALLEL_BATCH_SIZE).length)
                (st2.log (Event.sleep 2000))
            refine ⟨Event.statusCheck stE.job.status :: (esB ++ ([Event.sleep 2000] ++ es2)),
              ((slide :: rest).take PARALLEL_BATCH_SIZE).length + k2, ?_, ?_, ?_, ?_⟩
            · rw [hev2, log_events, hevB, log_events, hev]
              simp [List.append_assoc]
            · intro e he
              rcases List.mem_cons.mp he with rfl | he2
              · rfl
              · rcases List.mem_append.mp he2 with h1 | h1
                · exact (hlB e h1).1
                · rcases List.mem_append.mp h1 with h2 | h2
                  · rcases List.mem_singleton.mp h2 with rfl
                    rfl
                  · exact hterm2 e h2
            · rw [@progressWrites_cons_none (Event.statusCheck stE.job.status) rfl,
                progressWrites_append, hpB, progressWrites_append,
                @progressWrites_cons_none (Event.sleep 2000) rfl, progressWrites_nil,
                List.nil_append, hp2, consecProg_append]
            · simp only [List.length_drop] at hk2
              simp only [List.length_take] at hsplitlen ⊢
              omega
          · rw [if_neg hsl]
            obtain ⟨es2, k2, hev2, hterm2, hp2, hk2⟩ :=
              ih ((slide :: rest).drop PARALLEL_BATCH_SIZE) (b + 1)
                (pc + ((slide :: rest).take PARALLEL_BATCH_SIZE).length) st2
            refine ⟨Event.statusCheck stE.job.status :: (esB ++ es2),
              ((slide :: rest).take PARALLEL_BATCH_SIZE).length + k2, ?_, ?_, ?_, ?_⟩
            · rw [hev2, hevB, log_events, hev]
              simp [List.append_assoc]
            · intro e he
              rcases List.mem_cons.mp he with rfl | he2
              · rfl
              · rcases List.mem_append.mp he2 with h1 | h1
                · exact (hlB e h1).1
                · exact hterm2 e h1
            · rw [@progressWrites_cons_none (Event.statusCheck stE.job.status) rfl,
                progressWrites_append, hpB, hp2, consecProg_append]
            · simp only [List.length_drop] at hk2
              simp only [List.length_take] at hsplitlen ⊢
              omega
        · simp only [hfat]
          obtain ⟨esB, hevB, hlB, hpB⟩ := hls2.trace
          refine ⟨Event.statusCheck stE.job.status :: esB, m, ?_, ?_, ?_, ?_⟩
          · simp only [RunOutcome.store]
            rw [hevB, log_events, hev]
            simp [List.append_assoc]
          · intro e he
            rcases List.mem_cons.mp he with rfl | he2
            · rfl
            · exact (hlB e he2).1
          · rw [@progressWrites_cons_none (Event.statusCheck stE.job.status) rfl, hpB]
          · simp only [List.length_take] at hm ⊢
            simp only [List.length_take] at hsplitlen
            omega

/-- With no external cancellation and a job in the processing state, the
batch loop never takes the cancelled exit. -/
theorem runBatches_not_cancelled (env : Env) (lec deck total : Nat)
    (hext : ∀ b2, env.externalWrite b2 = none) :
    ∀ (fuel : Nat) (slides : List SlideRow) (b pc : Nat) (st : Store),
      st.job.status = JobStatus.processing →
      ∀ st2, runBatchesV2 env lec deck total fuel b pc slides st ≠ RunOutcome.cancelled st2 := by
  intro fuel
  induction fuel with
  | zero =>
    intro slides b pc st hstat st2
    cases slides <;> simp [runBatchesV2]
  | succ fuel ih =>
    intro slides b pc st hstat st2
    cases slides with
    | nil => simp [runBatchesV2]
    | cons slide rest =>
      simp only [runBatchesV2, hext b, hstat]
      rw [if_neg (by decide)]
      rcases processBatch_master env lec deck total ((slide :: rest).take PARALLEL_BATCH_SIZE) pc
          (st.log (Event.statusCheck JobStatus.processing)) with
        ⟨stB, hok, hls⟩ | ⟨stB, m, hm, hfat, hls⟩
      · rw [hok]
        show runBatchesV2 env lec deck total fuel (b + 1)
            (pc + ((slide :: rest).take PARALLEL_BATCH_SIZE).length)
            ((slide :: rest).drop PARALLEL_BATCH_SIZE)
            (if ((slide :: rest).drop PARALLEL_BATCH_SIZE).length > 0
             then stB.log (Event.sleep 2000) else stB) ≠ RunOutcome.cancelled st2
        have hstB : stB.job.status = JobStatus.processing := by
          rw [hls.status_eq, log_job, hstat]
        apply ih
        by_cases hsl : ((slide :: rest).drop PARALLEL_BATCH_SIZE).length > 0
        · rw [if_pos hsl, log_job, hstB]
        · rw [if_neg hsl, hstB]
      · rw [hfat]
        show RunOutcome.fatal fatalQuotaError stB ≠ RunOutcome.cancelled st2
        simp

/-- C6: rate-limit retry policy.  When a slide retrieves candidates and its
initial classification call fails rate-limited (HTTP 429 that is not quota
exhaustion) and all retries fail as well, processSlideAlignment sleeps
exactly 1s, 2s and 4s, issues exactly the three retry calls (attempts 1 to
3), records one rate-limited coverage gap for the slide carrying the last
retry error message, persists no alignment rows for the slide, and returns
normally, so the run continues with the remaining slides. -/
theorem c6_rate_limit_retry (env : Env) (slide : SlideRow) (lec deck mc maxc : Nat)
    (st : Store) (cands : List Candidate) (e0 e1 e2 e3 : ClassifyError)
    (hr : env.retrieve slide.id = RetrieveResult.ok cands)
    (hne : ¬cands.length = 0)
    (h0 : env.classify slide.id 0 = ClassifyResult.err e0)
    (hrl : isRateLimit e0 = true)
    (h1 : env.classify slide.id 1 = ClassifyResult.err e1)
    (h2 : env.classify slide.id 2 = ClassifyResult.err e2)
    (h3 : env.classify slide.id 3 = ClassifyResult.err e3) :
    ∃ st2, processSlideAlignment env slide lec deck mc maxc st = SlideOutcome.done st2 ∧
      st2.events = st.events ++ [Event.retrieveCall slide.id, Event.classifyCall slide.id 0,
        Event.sleep 1000, Event.classifyCall slide.id 1, Event.sleep 2000,
        Event.classifyCall slide.id 2, Event.sleep 4000, Event.classifyCall slide.id 3,
        Event.gapInsert slide.id] ∧
      st2.coverage_gaps = st.coverage_gaps ++
        [{ lecture_id := lec, slide_concept_id := slide.id,
           gap_description := "AI matching failed due to rate limits: "
             ++ (e3.message.getD "Unknown error") }] ∧
      st2.card_alignments = st.card_alignments ∧
      st2.job = st.job := by
  have hq0 : isQuotaError e0 = false := by
    simp only [isRateLimit, Bool.and_eq_true, Bool.not_eq_true'] at hrl
    exact hrl.2
  have hretry : rateLimitRetry env lec slide 3 0 3
      ((st.log (Event.retrieveCall slide.id)).log (Event.classifyCall slide.id 0)) =
      (Store.insertGap
        (Store.log (Store.log (Store.log (Store.log (Store.log (Store.log
          ((st.log (Event.retrieveCall slide.id)).log (Event.classifyCall slide.id 0))
          (Event.sleep 1000)) (Event.classifyCall slide.id 1))
          (Event.sleep 2000)) (Event.classifyCall slide.id 2))
          (Event.sleep 4000)) (Event.classifyCall slide.id 3))
        { lecture_id := lec, slide_concept_id := slide.id,
          gap_description := "AI matching failed due to rate limits: "
            ++ (e3.message.getD "Unknown error") }, none) := by
    simp only [rateLimitRetry, h1, h2, h3]
    norm_num
  refine ⟨Store.insertGap
      (Store.log (Store.log (Store.log (Store.log (Store.log (Store.log
        ((st.log (Event.retrieveCall slide.id)).log (Event.classifyCall slide.id 0))
        (Event.sleep 1000)) (Event.classifyCall slide.id 1))
        (Event.sleep 2000)) (Event.classifyCall slide.id 2))
        (Event.sleep 4000)) (Event.classifyCall slide.id 3))
      { lecture_id := lec, slide_concept_id := slide.id,
        gap_description := "AI matching failed due to rate limits: "
          ++ (e3.message.getD "Unknown error") }, ?_, ?_, ?_, ?_, ?_⟩
  · simp only [processSlideAlignment, hr, h0]
    simp only [hne, if_false, hq0, Bool.false_eq_true, hrl, if_true, if_neg, hretry]
  · simp [Store.log, Store.insertGap, List.append_assoc]
  · simp [Store.log, Store.insertGap]
  · simp [Store.log, Store.insertGap]
  · simp [Store.log, Store.insertGap]

/-- Witness for C6 at a concrete environment: the initial call rate-limits
and all three retries fail. -/
theorem c6_rate_limit_retry_witness :
    ∃ st2, processSlideAlignment envC2 slideA 1 2 MATCH_COUNT MAX_CARDS_PER_AI_CALL
        storeOneSlide = SlideOutcome.done st2 ∧
      st2.events = storeOneSlide.events ++ [Event.retrieveCall slideA.id,
        Event.classifyCall slideA.id 0, Event.sleep 1000, Event.classifyCall slideA.id 1,
        Event.sleep 2000, Event.classifyCall slideA.id 2, Event.sleep 4000,
        Event.classifyCall slideA.id 3, Event.gapInsert slideA.id] ∧
      st2.coverage_gaps = storeOneSlide.coverage_gaps ++
        [{ lecture_id := 1, slide_concept_id := slideA.id,
           gap_description := "AI matching failed due to rate limits: "
             ++ (quotaErr.message.getD "Unknown error") }] ∧
      st2.card_alignments = storeOneSlide.card_alignments ∧
      st2.job = storeOneSlide.job :=
  c6_rate_limit_retry envC2 slideA 1 2 MATCH_COUNT MAX_CARDS_PER_AI_CALL storeOneSlide
    [candA] rateErr quotaErr quotaErr quotaErr rfl (by decide) rfl (by decide) rfl rfl rfl

@[simp] theorem clearedStore_events (st : Store) (lec : Nat) :
    (clearedStore st lec).events = st.events ++
      [Event.clearAlignments lec, Event.clearGaps lec, Event.progressUpdate 5] := by
  simp [clearedStore, Store.log, updateProgress, List.append_assoc]

@[simp] theorem clearedStore_status (st : Store) (lec : Nat) :
    (clearedStore st lec).job.status = st.job.status := rfl

@[simp] theorem clearedStore_error (st : Store) (lec : Nat) :
    (clearedStore st lec).job.error_message = st.job.error_message := rfl

@[simp] theorem clearedStore_slide_concepts (st : Store) (lec : Nat) :
    (clearedStore st lec).slide_concepts = st.slide_concepts := rfl

@[simp] theorem clearedStore_raw_cards (st : Store) (lec : Nat) :
    (clearedStore st lec).raw_cards = st.raw_cards := rfl

@[simp] theorem lectureSlides_clearedStore (st : Store) (lec lec2 : Nat) :
    lectureSlides (clearedStore st lec) lec2 = lectureSlides st lec2 := rfl

@[simp] theorem markFailed_events (st : Store) (m : String) :
    (markFailed st m).events = st.events ++ [Event.statusUpdate JobStatus.failed none] := rfl

@[simp] theorem markFailed_status (st : Store) (m : String) :
    (markFailed st m).job.status = JobStatus.failed := rfl

@[simp] theorem markFailed_error (st : Store) (m : String) :
    (markFailed st m).job.error_message = some m := rfl

@[simp] theorem markCompleted_events (st : Store) :
    (markCompleted st).events = st.events ++
      [Event.statusUpdate JobStatus.completed (some 100)] := rfl

@[simp] theorem markCompleted_status (st : Store) :
    (markCompleted st).job.status = JobStatus.completed := rfl

@[simp] theorem markCompleted_progress (st : Store) :
    (markCompleted st).job.progress = 100 := rfl

theorem eventSlideId_of_isClassifyFor {sid : Nat} {e : Event}
    (h : isClassifyFor sid e = true) : eventSlideId e = some sid := by
  cases e <;> simp [isClassifyFor, eventSlideId] at h ⊢ <;> omega

theorem eventSlideId_of_isRetrieveFor {sid : Nat} {e : Event}
    (h : isRetrieveFor sid e = true) : eventSlideId e = some sid := by
  cases e <;> simp [isRetrieveFor, eventSlideId] at h ⊢ <;> omega

/-- Environment in which every slide hits quota exhaustion on its initial
classification call. -/
def envQuota1 : Env :=
  { retrieve := fun _ => RetrieveResult.ok [candA],
    classify := fun _ _ => ClassifyResult.err quotaErr,
    gapAnalyze := fun _ => GapResult.ok none,
    externalWrite := fun _ => none }

/-- C2 (amended): (a) quota exhaustion on the initial classification call
of a slide makes the slide processor throw the descriptive quota error;
(b) any other outcome of the initial call returns normally, the error
absorbed at the slide boundary; (c) in a fresh run whose slides split as
pre ++ s :: post with every pre slide non-quota and s hitting initial
quota, the orchestrator marks the job failed with the descriptive quota
message and no classification or retrieval call is ever issued for any
slide of post.  (Quota errors raised by the backoff retries of a
rate-limited call are excluded: the retry loop absorbs them.) -/
theorem c2_initial_quota_short_circuit_amended :
    (∀ (env : Env) (slide : SlideRow) (lec deck mc maxc : Nat) (st : Store),
      initialQuota env slide = true →
      processSlideAlignment env slide lec deck mc maxc st =
        SlideOutcome.fatal fatalQuotaError
          ((st.log (Event.retrieveCall slide.id)).log (Event.classifyCall slide.id 0)) ∧
      fatalQuotaError.message = some fatalQuotaMessage) ∧
    (∀ (env : Env) (slide : SlideRow) (lec deck mc maxc : Nat) (st : Store),
      initialQuota env slide = false →
      ∃ st2, processSlideAlignment env slide lec deck mc maxc st = SlideOutcome.done st2) ∧
    (∀ (env : Env) (lec deck user : Nat) (st : Store) (pre : List SlideRow) (s : SlideRow)
       (post : List SlideRow),
      lectureSlides st lec = pre ++ s :: post →
      (∀ b2, env.externalWrite b2 = none) →
      st.job.status = JobStatus.processing →
      st.events = [] →
      (∀ q ∈ pre, initialQuota env q = false) →
      initialQuota env s = true →
      ((pre ++ s :: post).map SlideRow.id).Nodup →
      (generateAlignmentsInBackgroundV2 env lec deck user st).job.status = JobStatus.failed ∧
      (generateAlignmentsInBackgroundV2 env lec deck user st).job.error_message =
        some fatalQuotaMessage ∧
      (∀ q ∈ post, ∀ e ∈ (generateAlignmentsInBackgroundV2 env lec deck user st).events,
        isClassifyFor q.id e = false ∧ isRetrieveFor q.id e = false)) := by
  refine ⟨?_, ?_, ?_⟩
  · intro env slide lec deck mc maxc st h
    exact ⟨processSlide_fatal_of_initialQuota env slide lec deck mc maxc st h, rfl⟩
  · intro env slide lec deck mc maxc st h
    exact processSlide_done_of_not_initialQuota env slide lec deck mc maxc st h
  · intro env lec deck user st pre s post hL hext hstat hev0 hpre hs hnodup
    obtain ⟨st2, hrun, hls⟩ := runBatches_fatal env lec deck (pre ++ s :: post).length s post
      (pre ++ s :: post).length pre 0 0 (clearedStore st lec)
      (le_refl _) hext (by rw [clearedStore_status]; exact hstat) hpre hs
    have hgen : generateAlignmentsInBackgroundV2 env lec deck user st =
        markFailed st2 (fatalQuotaError.message.getD "Unknown error") := by
      simp only [generateAlignmentsInBackgroundV2, lectureSlides_clearedStore, hL]
      rw [if_neg (by simp), hrun]
    have hmsg : fatalQuotaError.message.getD "Unknown error" = fatalQuotaMessage := rfl
    have hqnot : ∀ q ∈ post, q.id ∉ (pre ++ [s]).map SlideRow.id := by
      intro q hq hmem
      have h1 : pre ++ s :: post = (pre ++ [s]) ++ post := by simp
      rw [h1, List.map_append] at hnodup
      exact List.disjoint_of_nodup_append hnodup hmem (List.mem_map_of_mem _ hq)
    refine ⟨by rw [hgen]; simp, by rw [hgen, hmsg]; simp, ?_⟩
    intro q hq e he
    rw [hgen] at he
    simp only [markFailed_events, List.mem_append] at he
    obtain ⟨es, hst2ev, hes, -⟩ := hls.trace
    rcases he with he | he
    · rw [hst2ev] at he
      simp only [clearedStore_events, hev0, List.nil_append, List.mem_append] at he
      rcases he with he | he
      · simp only [List.mem_cons, List.not_mem_nil, or_false] at he
        rcases he with rfl | rfl | rfl
        · exact ⟨rfl, rfl⟩
        · exact ⟨rfl, rfl⟩
        · exact ⟨rfl, rfl⟩
      · constructor
        · by_contra hc
          have hc' : isClassifyFor q.id e = true := by
            revert hc; cases isClassifyFor q.id e <;> simp
          exact hqnot q hq ((hes e he).2 q.id (eventSlideId_of_isClassifyFor hc'))
        · by_contra hc
          have hc' : isRetrieveFor q.id e = true := by
            revert hc; cases isRetrieveFor q.id e <;> simp
          exact hqnot q hq ((hes e he).2 q.id (eventSlideId_of_isRetrieveFor hc'))
    · simp only [List.mem_cons, List.not_mem_nil, or_false] at he
      subst he
      exact ⟨rfl, rfl⟩

/-- Witness for C2 at a concrete run: two slides, the first hits initial
quota, and the second is never retrieved or classified. -/
theorem c2_initial_quota_short_circuit_amended_witness :
    (generateAlignmentsInBackgroundV2 envQuota1 1 2 0 storeTwoSlides).job.status =
      JobStatus.failed ∧
    (generateAlignmentsInBackgroundV2 envQuota1 1 2 0 storeTwoSlides).job.error_message =
      some fatalQuotaMessage ∧
    (∀ q ∈ [slideB], ∀ e ∈ (generateAlignmentsInBackgroundV2 envQuota1 1 2 0 storeTwoSlides).events,
      isClassifyFor q.id e = false ∧ isRetrieveFor q.id e = false) :=
  c2_initial_quota_short_circuit_amended.2.2 envQuota1 1 2 0 storeTwoSlides [] slideA [slideB]
    rfl (fun _ => rfl) rfl rfl (by simp) rfl (by decide)

/-- Demo slide 3 of lecture 1. -/
def slideC : SlideRow :=
  { id := 13, lecture_id := 1, slide_number := 3, concept_summary := "gamma" }

/-- Demo slide 4 of lecture 1. -/
def slideD : SlideRow :=
  { id := 14, lecture_id := 1, slide_number := 4, concept_summary := "delta" }

/-- Demo store: lecture 1 with four slides (two batches of the batched
revision). -/
def storeFourSlides : Store :=
  { storeTwoSlides with slide_concepts := [slideA, slideB, slideC, slideD] }

/-- Environment for the C4 witness: classification succeeds everywhere and
an external actor marks the job failed at the status check before the
second batch. -/
def envCancel : Env :=
  { retrieve := fun _ => RetrieveResult.ok [candA],
    classify := fun _ _ => ClassifyResult.ok [matchA],
    gapAnalyze := fun _ => GapResult.ok none,
    externalWrite := fun b => if b == 0 then none else some JobStatus.failed }

/-- C4: cooperative cancellation at batch boundaries.  (i) If an external
actor sets the job to a terminal status at the status check preceding
batch B of a fresh quota-free run, the run stops there: the final status
is the externally written one, the engine itself writes no terminal
status, every slide of the B completed batches was fully processed
(its retrieval call is in the trace), and no slide of any later batch is
ever retrieved or classified.  (ii) Without an external terminal write
the batch loop never observes a cancellation. -/
theorem c4_cancellation_at_batch_boundaries :
    (∀ (env : Env) (lec deck user B : Nat) (t : JobStatus) (st : Store),
      (t = JobStatus.failed ∨ t = JobStatus.completed) →
      (∀ b2, b2 < B → env.externalWrite b2 = none) →
      env.externalWrite B = some t →
      st.job.status = JobStatus.processing →
      st.events = [] →
      (∀ s ∈ lectureSlides st lec, initialQuota env s = false) →
      PARALLEL_BATCH_SIZE * B < (lectureSlides st lec).length →
      ((lectureSlides st lec).map SlideRow.id).Nodup →
      (generateAlignmentsInBackgroundV2 env lec deck user st).job.status = t ∧
      (∀ e ∈ (generateAlignmentsInBackgroundV2 env lec deck user st).events,
        isTerminalWrite e = false) ∧
      (∀ s ∈ (lectureSlides st lec).take (PARALLEL_BATCH_SIZE * B),
        Event.retrieveCall s.id ∈ (generateAlignmentsInBackgroundV2 env lec deck user st).events) ∧
      (∀ q ∈ (lectureSlides st lec).drop (PARALLEL_BATCH_SIZE * B),
        ∀ e ∈ (generateAlignmentsInBackgroundV2 env lec deck user st).events,
          isClassifyFor q.id e = false ∧ isRetrieveFor q.id e = false)) ∧
    (∀ (env : Env) (lec deck total fuel b pc : Nat) (slides : List SlideRow) (st : Store),
      (∀ b2, env.externalWrite b2 = none) →
      st.job.status = JobStatus.processing →
      ∀ st2, runBatchesV2 env lec deck total fuel b pc slides st ≠ RunOutcome.cancelled st2) := by
  constructor
  · intro env lec deck user B t st hterm hlt hB hstat hev0 hq hlen hnodup
    obtain ⟨st2, hrun, hstat2, ⟨es, hev, hes, -⟩, hretr⟩ :=
      runBatches_cancel env lec deck (lectureSlides st lec).length B t hterm
        (lectureSlides st lec).length (lectureSlides st lec) 0 0 (clearedStore st lec)
        (le_refl _) (fun b2 _ h => hlt b2 h) hB
        (by rw [clearedStore_status]; exact hstat) hq (Nat.zero_le B)
        (by simpa using hlen)
    rw [Nat.sub_zero] at hes hretr
    have hgen : generateAlignmentsInBackgroundV2 env lec deck user st = st2 := by
      simp only [generateAlignmentsInBackgroundV2, lectureSlides_clearedStore]
      rw [if_neg (by omega), hrun]
    have hallev : st2.events =
        [Event.clearAlignments lec, Event.clearGaps lec, Event.progressUpdate 5] ++ es := by
      rw [hev, clearedStore_events, hev0, List.nil_append]
    have hqnot : ∀ q ∈ (lectureSlides st lec).drop (PARALLEL_BATCH_SIZE * B),
        q.id ∉ ((lectureSlides st lec).take (PARALLEL_BATCH_SIZE * B)).map SlideRow.id := by
      intro q hq2 hmem
      have h1 : lectureSlides st lec =
          (lectureSlides st lec).take (PARALLEL_BATCH_SIZE * B) ++
            (lectureSlides st lec).drop (PARALLEL_BATCH_SIZE * B) :=
        (List.take_append_drop _ _).symm
      rw [h1, List.map_append] at hnodup
      exact List.disjoint_of_nodup_append hnodup hmem (List.mem_map_of_mem _ hq2)
    refine ⟨by rw [hgen]; exact hstat2, ?_, ?_, ?_⟩
    · intro e he
      rw [hgen, hallev] at he
      rcases List.mem_append.mp he with he | he
      · simp only [List.mem_cons, List.not_mem_nil, or_false] at he
        rcases he with rfl | rfl | rfl <;> rfl
      · exact (hes e he).1
    · intro s hs
      rw [hgen]
      exact hretr s hs
    · intro q hq2 e he
      rw [hgen, hallev] at he
      rcases List.mem_append.mp he with he | he
      · simp only [List.mem_cons, List.not_mem_nil, or_false] at he
        rcases he with rfl | rfl | rfl
        · exact ⟨rfl, rfl⟩
        · exact ⟨rfl, rfl⟩
        · exact ⟨rfl, rfl⟩
      · constructor
        · by_contra hc
          have hc' : isClassifyFor q.id e = true := by
            revert hc; cases isClassifyFor q.id e <;> simp
          exact hqnot q hq2 ((hes e he).2 q.id (eventSlideId_of_isClassifyFor hc'))
        · by_contra hc
          have hc' : isRetrieveFor q.id e = true := by
            revert hc; cases isRetrieveFor q.id e <;> simp
          exact hqnot q hq2 ((hes e he).2 q.id (eventSlideId_of_isRetrieveFor hc'))
  · intro env lec deck total fuel b pc slides st hext hstat st2
    exact runBatches_not_cancelled env lec deck total hext fuel slides b pc st hstat st2

/-- Witness for C4 at a concrete run: four slides, an external failed
write before the second batch; the first three slides complete, the
fourth is never touched; and a write-free loop is never cancelled. -/
theorem c4_cancellation_at_batch_boundaries_witness :
    ((generateAlignmentsInBackgroundV2 envCancel 1 2 0 storeFourSlides).job.status =
        JobStatus.failed ∧
      (∀ e ∈ (generateAlignmentsInBackgroundV2 envCancel 1 2 0 storeFourSlides).events,
        isTerminalWrite e = false) ∧
      (∀ s ∈ (lectureSlides storeFourSlides 1).take (PARALLEL_BATCH_SIZE * 1),
        Event.retrieveCall s.id ∈
          (generateAlignmentsInBackgroundV2 envCancel 1 2 0 storeFourSlides).events) ∧
      (∀ q ∈ (lectureSlides storeFourSlides 1).drop (PARALLEL_BATCH_SIZE * 1),
        ∀ e ∈ (generateAlignmentsInBackgroundV2 envCancel 1 2 0 storeFourSlides).events,
          isClassifyFor q.id e = false ∧ isRetrieveFor q.id e = false)) ∧
    runBatchesV2 envC3 1 2 2 2 0 0 [slideA, slideB] storeTwoSlides ≠
      RunOutcome.cancelled storeTwoSlides :=
  ⟨c4_cancellation_at_batch_boundaries.1 envCancel 1 2 0 1 JobStatus.failed storeFourSlides
      (Or.inl rfl) (fun b2 hb2 => by interval_cases b2; rfl) rfl rfl rfl (by decide)
      (by decide) (by decide),
    c4_cancellation_at_batch_boundaries.2 envC3 1 2 2 2 0 0 [slideA, slideB]
      storeTwoSlides (fun _ => rfl) rfl storeTwoSlides⟩

theorem consecProg_pairwise (total pc k : Nat) :
    (consecProg total pc k).Pairwise (fun a b => a ≤ b) := by
  unfold consecProg
  refine List.Pairwise.map _ (fun a b hab => ?_) (List.pairwise_lt_range k)
  have h : (pc + a + 1) * 90 ≤ (pc + b + 1) * 90 := by
    apply Nat.mul_le_mul_right
    omega
  exact Nat.add_le_add_left (Nat.div_le_div_right h) 5

theorem consecProg_mem_bounds {total pc k : Nat} (hk : pc + k ≤ total) {p : Nat}
    (hp : p ∈ consecProg total pc k) : 5 ≤ p ∧ p ≤ 95 := by
  unfold consecProg at hp
  obtain ⟨i, hi, rfl⟩ := List.mem_map.mp hp
  have hi2 : i < k := List.mem_range.mp hi
  refine ⟨Nat.le_add_right 5 _, ?_⟩
  have h1 : (pc + i + 1) * 90 ≤ total * 90 := by
    apply Nat.mul_le_mul_right
    omega
  have h2 : (pc + i + 1) * 90 / total ≤ total * 90 / total := Nat.div_le_div_right h1
  have h3 : total * 90 / total ≤ 90 := by
    rcases Nat.eq_zero_or_pos total with h | h
    · simp [h]
    · rw [Nat.mul_div_cancel_left _ h]
  omega

theorem pairwise_five_consec {total k : Nat} (hk : k ≤ total) :
    (5 :: consecProg total 0 k).Pairwise (fun a b => a ≤ b) := by
  rw [List.pairwise_cons]
  refine ⟨fun b hb => (consecProg_mem_bounds (by omega) hb).1, consecProg_pairwise total 0 k⟩

theorem pairwise_five_consec_hundred {total k : Nat} (hk : k ≤ total) :
    (5 :: consecProg total 0 k ++ [100]).Pairwise (fun a b => a ≤ b) := by
  rw [List.pairwise_append]
  refine ⟨pairwise_five_consec hk, List.pairwise_singleton _ _, ?_⟩
  intro a ha b hb
  simp only [List.mem_cons, List.not_mem_nil, or_false] at hb
  subst hb
  rcases List.mem_cons.mp ha with rfl | ha
  · omega
  · have := (consecProg_mem_bounds (by omega) ha).2
    omega

theorem getLast_five_consec_hundred (total k : Nat) :
    (5 :: consecProg total 0 k ++ [100]).getLast? = some 100 :=
  List.getLast?_concat _

/-- C5: progress accounting.  (i) Per slide: whenever the slide processor
returns normally the wrapper bumps the shared counter and writes progress
5 + 90 * completed / total.  (ii) Per run (fresh store, no external
writes): the written progress sequence is exactly 5 followed by the
per-slide values for completions 1..k (k at most the slide count),
followed by 100 when the run completes; it is monotonically
non-decreasing; a terminal status is written exactly once; and on
completion the progress sequence ends at exactly 100, which is also the
final progress field. -/
theorem c5_progress_accounting :
    (∀ (env : Env) (lec deck total : Nat) (slide : SlideRow) (pc : Nat) (st st1 : Store),
      processSlideAlignment env slide lec deck MATCH_COUNT MAX_CARDS_PER_AI_CALL st =
        SlideOutcome.done st1 →
      processSlideWrapped env lec deck total slide pc st =
        BatchResult.ok (updateProgress st1 (5 + (pc + 1) * 90 / total)) (pc + 1)) ∧
    (∀ (env : Env) (lec deck user : Nat) (st : Store),
      (∀ b2, env.externalWrite b2 = none) →
      st.job.status = JobStatus.processing →
      st.events = [] →
      0 < (lectureSlides st lec).length →
      (∃ k, k ≤ (lectureSlides st lec).length ∧
        (progressWrites (generateAlignmentsInBackgroundV2 env lec deck user st).events =
            5 :: consecProg (lectureSlides st lec).length 0 k ++ [100] ∨
         progressWrites (generateAlignmentsInBackgroundV2 env lec deck user st).events =
            5 :: consecProg (lectureSlides st lec).length 0 k)) ∧
      (progressWrites (generateAlignmentsInBackgroundV2 env lec deck user st).events).Pairwise
        (fun a b => a ≤ b) ∧
      (generateAlignmentsInBackgroundV2 env lec deck user st).events.countP isTerminalWrite = 1 ∧
      ((generateAlignmentsInBackgroundV2 env lec deck user st).job.status = JobStatus.completed →
        (generateAlignmentsInBackgroundV2 env lec deck user st).job.progress = 100 ∧
        (progressWrites (generateAlignmentsInBackgroundV2 env lec deck user st).events).getLast? =
          some 100)) := by
  constructor
  · intro env lec deck total slide pc st st1 h
    simp only [processSlideWrapped, h]
  · intro env lec deck user st hext hstat hev0 hpos
    obtain ⟨es, k, hev, hterm, hprog, hk⟩ :=
      runBatches_master env lec deck (lectureSlides st lec).length
        (lectureSlides st lec).length (lectureSlides st lec) 0 0 (clearedStore st lec)
    have hces : es.countP isTerminalWrite = 0 :=
      List.countP_eq_zero.mpr (fun e he => by simp [hterm e he])
    rcases hR : runBatchesV2 env lec deck (lectureSlides st lec).length
        (lectureSlides st lec).length 0 0 (lectureSlides st lec) (clearedStore st lec) with
      st4 | st4 | ⟨e, st4⟩
    · -- finished
      rw [hR] at hev
      simp only [RunOutcome.store] at hev
      have hst4ev : st4.events =
          [Event.clearAlignments lec, Event.clearGaps lec, Event.progressUpdate 5] ++ es := by
        rw [hev, clearedStore_events, hev0, List.nil_append]
      have hgen : generateAlignmentsInBackgroundV2 env lec deck user st = markCompleted st4 := by
        simp only [generateAlignmentsInBackgroundV2, lectureSlides_clearedStore]
        rw [if_neg (by omega), hR]
      have hPW : progressWrites (generateAlignmentsInBackgroundV2 env lec deck user st).events =
          5 :: consecProg (lectureSlides st lec).length 0 k ++ [100] := by
        rw [hgen, markCompleted_events, hst4ev, progressWrites_append, progressWrites_append,
          hprog]
        rfl
      refine ⟨⟨k, hk, Or.inl hPW⟩, ?_, ?_, ?_⟩
      · rw [hPW]
        exact pairwise_five_consec_hundred hk
      · rw [hgen, markCompleted_events, hst4ev, List.countP_append, List.countP_append, hces]
        rfl
      · intro _
        refine ⟨by rw [hgen]; rfl, ?_⟩
        rw [hPW]
        exact getLast_five_consec_hundred _ _
    · -- cancelled: impossible without external writes
      exact absurd hR (runBatches_not_cancelled env lec deck (lectureSlides st lec).length hext
        (lectureSlides st lec).length (lectureSlides st lec) 0 0 (clearedStore st lec)
        (by rw [clearedStore_status]; exact hstat) st4)
    · -- fatal
      rw [hR] at hev
      simp only [RunOutcome.store] at hev
      have hst4ev : st4.events =
          [Event.clearAlignments lec, Event.clearGaps lec, Event.progressUpdate 5] ++ es := by
        rw [hev, clearedStore_events, hev0, List.nil_append]
      have hgen : generateAlignmentsInBackgroundV2 env lec deck user st =
          markFailed st4 (e.message.getD "Unknown error") := by
        simp only [generateAlignmentsInBackgroundV2, lectureSlides_clearedStore]
        rw [if_neg (by omega), hR]
      have hPW : progressWrites (generateAlignmentsInBackgroundV2 env lec deck user st).events =
          5 :: consecProg (lectureSlides st lec).length 0 k := by
        rw [hgen, markFailed_events, hst4ev, progressWrites_append, progressWrites_append,
          hprog]
        simp [progressWrites, progressOf]
      refine ⟨⟨k, hk, Or.inr hPW⟩, ?_, ?_, ?_⟩
      · rw [hPW]
        exact pairwise_five_consec hk
      · rw [hgen, markFailed_events, hst4ev, List.countP_append, List.countP_append, hces]
        rfl
      · intro hc
        rw [hgen, markFailed_status] at hc
        exact absurd hc (by decide)

/-- The store returned by the first slide of the C5 witness run. -/
def doneStoreC5 : Store :=
  match processSlideAlignment envC3 slideA 1 2 MATCH_COUNT MAX_CARDS_PER_AI_CALL storeTwoSlides with
  | SlideOutcome.done s => s
  | SlideOutcome.fatal _ s => s

/-- Witness for C5 at a concrete completed run of two slides. -/
theorem c5_progress_accounting_witness :
    (processSlideWrapped envC3 1 2 2 slideA 0 storeTwoSlides =
      BatchResult.ok (updateProgress doneStoreC5 (5 + (0 + 1) * 90 / 2)) (0 + 1)) ∧
    ((∃ k, k ≤ (lectureSlides storeTwoSlides 1).length ∧
        (progressWrites (generateAlignmentsInBackgroundV2 envC3 1 2 0 storeTwoSlides).events =
            5 :: consecProg (lectureSlides storeTwoSlides 1).length 0 k ++ [100] ∨
         progressWrites (generateAlignmentsInBackgroundV2 envC3 1 2 0 storeTwoSlides).events =
            5 :: consecProg (lectureSlides storeTwoSlides 1).length 0 k)) ∧
      (progressWrites (generateAlignmentsInBackgroundV2 envC3 1 2 0 storeTwoSlides).events).Pairwise
        (fun a b => a ≤ b) ∧
      (generateAlignmentsInBackgroundV2 envC3 1 2 0 storeTwoSlides).events.countP isTerminalWrite = 1 ∧
      ((generateAlignmentsInBackgroundV2 envC3 1 2 0 storeTwoSlides).job.status = JobStatus.completed →
        (generateAlignmentsInBackgroundV2 envC3 1 2 0 storeTwoSlides).job.progress = 100 ∧
        (progressWrites (generateAlignmentsInBackgroundV2 envC3 1 2 0 storeTwoSlides).events).getLast? =
          some 100)) :=
  ⟨c5_progress_accounting.1 envC3 1 2 2 slideA 0 storeTwoSlides doneStoreC5 rfl,
    c5_progress_accounting.2 envC3 1 2 0 storeTwoSlides (fun _ => rfl) rfl rfl (by decide)⟩

/-- Event classifier: a gap-analysis call for a given slide. -/
def isGapCallFor (sid : Nat) : Event → Bool
  | Event.gapCall s => s == sid
  | _ => false

/-- A classifier match whose card id is not among the analyzed
candidates. -/
def matchGhost : CardMatch :=
  { card_id := 999, alignment_type := AlignmentType.directly_aligned,
    reasoning := "rG", relevance_score := 85 }

/-- C9 counterexample: a classification result with one match whose card
id does not occur among the analyzed candidates produces no alignment
tuple at all in either revision (and the match is excluded from the
directly-aligned count), so the processor does not build one tuple per
match. -/
theorem c9_counterexample :
    [matchGhost].length = 1 ∧
    (buildPendingV1 1 slideA [candA] [matchGhost]).1 = [] ∧
    (buildPendingV1 1 slideA [candA] [matchGhost]).2 = [] ∧
    (buildAlignmentsV2 1 2 slideA [candA] [matchGhost] storeOneSlide).1 = [] ∧
    (buildAlignmentsV2 1 2 slideA [candA] [matchGhost] storeOneSlide).2.1 = [] :=
  ⟨rfl, rfl, rfl, rfl, rfl⟩

theorem buildPendingV1_map (lec : Nat) (slide : SlideRow) (cta : List Candidate) :
    ∀ (ms : List CardMatch), (∀ m ∈ ms, ∃ c ∈ cta, c.card_id = m.card_id) →
      ((buildPendingV1 lec slide cta ms).1.map
          (fun p => (p.card_id, p.alignment_type, p.similarity_score, p.llm_reasoning)) =
        ms.map (fun m => (m.card_id, m.alignment_type, m.relevance_score / 100, m.reasoning))) ∧
      (buildPendingV1 lec slide cta ms).2.length =
        ms.countP (fun m => m.alignment_type == AlignmentType.directly_aligned) := by
  intro ms
  induction ms with
  | nil => intro _; exact ⟨rfl, rfl⟩
  | cons m ms ih =>
    intro hmem
    obtain ⟨hmap, hcnt⟩ := ih (fun m2 h2 => hmem m2 (List.mem_cons_of_mem m h2))
    rcases hfind : cta.find? (fun c => c.card_id == m.card_id) with _ | rc
    · exfalso
      obtain ⟨c, hcin, hceq⟩ := hmem m (List.mem_cons_self m ms)
      have hnone := List.find?_eq_none.mp hfind c hcin
      simp [hceq] at hnone
    · constructor
      · simp only [buildPendingV1, hfind, List.map_cons]
        rw [hmap]
      · cases hdir : m.alignment_type == AlignmentType.directly_aligned with
        | false => simp [buildPendingV1, hfind, List.countP_cons, hdir, hcnt]
        | true => simp [buildPendingV1, hfind, List.countP_cons, hdir, hcnt]

theorem buildAlignmentsV2_map (lec deck : Nat) (slide : SlideRow) (cta : List Candidate) :
    ∀ (ms : List CardMatch) (st : Store), (∀ m ∈ ms, ∃ c ∈ cta, c.card_id = m.card_id) →
      ((buildAlignmentsV2 lec deck slide cta ms st).1.map
          (fun a => (a.alignment_type, a.similarity_score, a.llm_reasoning)) =
        ms.map (fun m => (m.alignment_type, m.relevance_score / 100, m.reasoning))) ∧
      (buildAlignmentsV2 lec deck slide cta ms st).2.1.length =
        ms.countP (fun m => m.alignment_type == AlignmentType.directly_aligned) := by
  intro ms
  induction ms with
  | nil => intro st _; exact ⟨rfl, rfl⟩
  | cons m ms ih =>
    intro st hmem
    rcases hfind : cta.find? (fun c => c.card_id == m.card_id) with _ | rc
    · exfalso
      obtain ⟨c, hcin, hceq⟩ := hmem m (List.mem_cons_self m ms)
      have hnone := List.find?_eq_none.mp hfind c hcin
      simp [hceq] at hnone
    · have h2 := fun m2 hm2 => hmem m2 (List.mem_cons_of_mem m hm2)
      rcases hcc : st.card_concepts.find?
          (fun c => c.deck_id == deck && c.card_id == m.card_id) with _ | c
      all_goals {
        constructor
        · simp only [buildAlignmentsV2, hfind, Store.log, hcc, List.map_cons]
          rw [(ih _ h2).1]
        · simp only [buildAlignmentsV2, hfind, Store.log, hcc]
          cases hdir : m.alignment_type == AlignmentType.directly_aligned with
          | false =>
            simp [hdir, List.countP_cons]
            exact (ih _ h2).2
          | true =>
            simp [hdir, List.countP_cons]
            exact (ih _ h2).2 }

theorem buildAlignmentsV2_trace_no_gap (lec deck : Nat) (slide : SlideRow)
    (cta : List Candidate) :
    ∀ (ms : List CardMatch) (st : Store), ∃ es,
      (buildAlignmentsV2 lec deck slide cta ms st).2.2.events = st.events ++ es ∧
      ∀ sid, ∀ e ∈ es, isGapCallFor sid e = false := by
  intro ms
  induction ms with
  | nil =>
    intro st
    exact ⟨[], by simp [buildAlignmentsV2], fun sid e he => absurd he (List.not_mem_nil e)⟩
  | cons m ms ih =>
    intro st
    rcases hfind : cta.find? (fun c => c.card_id == m.card_id) with _ | rc
    · obtain ⟨es, hev, hes⟩ := ih st
      exact ⟨es, by simp only [buildAlignmentsV2, hfind]; exact hev, hes⟩
    · rcases hcc : st.card_concepts.find?
          (fun c => c.deck_id == deck && c.card_id == m.card_id) with _ | c
      · obtain ⟨es, hev, hes⟩ := ih
          { (st.log (Event.conceptRead m.card_id)) with
            card_concepts := (st.log (Event.conceptRead m.card_id)).card_concepts ++
              [{ id := (st.log (Event.conceptRead m.card_id)).nextConceptId, deck_id := deck,
                 card_id := m.card_id }],
            nextConceptId := (st.log (Event.conceptRead m.card_id)).nextConceptId + 1,
            events := (st.log (Event.conceptRead m.card_id)).events ++
              [Event.conceptWrite m.card_id] }
        refine ⟨[Event.conceptRead m.card_id, Event.conceptWrite m.card_id] ++ es, ?_, ?_⟩
        · simp only [buildAlignmentsV2, hfind, Store.log, hcc] at hev ⊢
          rw [hev]
          simp [Store.log, List.append_assoc]
        · intro sid e he
          rcases List.mem_append.mp he with he | he
          · simp only [List.mem_cons, List.not_mem_nil, or_false] at he
            rcases he with rfl | rfl <;> rfl
          · exact hes sid e he
      · obtain ⟨es, hev, hes⟩ := ih (st.log (Event.conceptRead m.card_id))
        refine ⟨[Event.conceptRead m.card_id] ++ es, ?_, ?_⟩
        · simp only [buildAlignmentsV2, hfind, Store.log, hcc] at hev ⊢
          rw [hev]
          simp [Store.log, List.append_assoc]
        · intro sid e he
          rcases List.mem_append.mp he with he | he
          · simp only [List.mem_cons, List.not_mem_nil, or_false] at he
            subst he
            rfl
          · exact hes sid e he

theorem finishSlideV2_gapcall (env : Env) (lec deck : Nat) (slide : SlideRow)
    (cta : List Candidate) (ms : List CardMatch) (st : Store)
    (hne : ¬ ms.length = 0)
    (hnotin : ∀ e ∈ st.events, isGapCallFor slide.id e = false) :
    (∃ e ∈ (finishSlideV2 env lec deck slide cta ms st).events,
        isGapCallFor slide.id e = true) ↔
      ((buildAlignmentsV2 lec deck slide cta ms st).2.1.length = 1 ∨
       (buildAlignmentsV2 lec deck slide cta ms st).2.1.length = 2) := by
  obtain ⟨es, hev, hes⟩ := buildAlignmentsV2_trace_no_gap lec deck slide cta ms st
  simp only [finishSlideV2, if_neg hne]
  by_cases hd : (decide ((buildAlignmentsV2 lec deck slide cta ms st).2.1.length > 0) &&
      decide ((buildAlignmentsV2 lec deck slide cta ms st).2.1.length < 3)) = true
  · rw [if_pos hd]
    have hlen : (buildAlignmentsV2 lec deck slide cta ms st).2.1.length = 1 ∨
        (buildAlignmentsV2 lec deck slide cta ms st).2.1.length = 2 := by
      simp only [Bool.and_eq_true, decide_eq_true_eq] at hd
      omega
    refine iff_of_true ?_ hlen
    refine ⟨Event.gapCall slide.id, ?_, by simp [isGapCallFor]⟩
    cases hg : env.gapAnalyze slide.id with
    | ok og =>
      cases og with
      | some g => simp [Store.log, Store.insertGap]
      | none => simp [Store.log]
    | err => simp [Store.log]
  · rw [if_neg hd]
    have hlen : ¬ ((buildAlignmentsV2 lec deck slide cta ms st).2.1.length = 1 ∨
        (buildAlignmentsV2 lec deck slide cta ms st).2.1.length = 2) := by
      intro hcon
      apply hd
      rcases hcon with h | h <;> rw [h] <;> decide
    refine iff_of_false ?_ hlen
    rintro ⟨e, he, hgc⟩
    by_cases ha : 0 < (buildAlignmentsV2 lec deck slide cta ms st).1.length
    · simp only [if_pos ha, List.mem_append] at he
      rcases he with he | he
      · rw [hev] at he
        rcases List.mem_append.mp he with he | he
        · rw [hnotin e he] at hgc; cases hgc
        · rw [hes slide.id e he] at hgc; cases hgc
      · simp only [List.mem_cons, List.not_mem_nil, or_false] at he
        subst he
        cases hgc
    · simp only [if_neg ha] at he
      rw [hev] at he
      rcases List.mem_append.mp he with he | he
      · rw [hnotin e he] at hgc; cases hgc
      · rw [hes slide.id e he] at hgc; cases hgc

theorem slideResultV1_match_branch (env : Env) (lec deck : Nat) (hasCards : Bool)
    (slide : SlideRow) (st : Store) (cs : List Candidate) (ms : List CardMatch)
    (hr : env.retrieve slide.id = RetrieveResult.ok cs) (hcs : ¬ cs.length = 0)
    (hc : env.classify slide.id 0 = ClassifyResult.ok ms) (hms : ¬ ms.length = 0) :
    ((slideResultV1 env lec deck hasCards slide st).1.events =
        st.events ++ [Event.retrieveCall slide.id, Event.classifyCall slide.id 0,
          Event.gapCall slide.id] ↔
      ((buildPendingV1 lec slide (cs.take MAX_CARDS_PER_AI_CALL) ms).2.length = 1 ∨
       (buildPendingV1 lec slide (cs.take MAX_CARDS_PER_AI_CALL) ms).2.length = 2)) ∧
    (slideResultV1 env lec deck hasCards slide st).2.alignments =
      (buildPendingV1 lec slide (cs.take MAX_CARDS_PER_AI_CALL) ms).1 := by
  simp only [slideResultV1, hr, hc, if_neg hcs, if_neg hms]
  by_cases hd : (decide ((buildPendingV1 lec slide (cs.take MAX_CARDS_PER_AI_CALL) ms).2.length > 0) &&
      decide ((buildPendingV1 lec slide (cs.take MAX_CARDS_PER_AI_CALL) ms).2.length < 3)) = true
  · rw [if_pos hd]
    refine ⟨?_, rfl⟩
    have hlen : (buildPendingV1 lec slide (cs.take MAX_CARDS_PER_AI_CALL) ms).2.length = 1 ∨
        (buildPendingV1 lec slide (cs.take MAX_CARDS_PER_AI_CALL) ms).2.length = 2 := by
      simp only [Bool.and_eq_true, decide_eq_true_eq] at hd
      omega
    exact iff_of_true (by simp [Store.log]) hlen
  · rw [if_neg hd]
    refine ⟨?_, rfl⟩
    have hlen : ¬ ((buildPendingV1 lec slide (cs.take MAX_CARDS_PER_AI_CALL) ms).2.length = 1 ∨
        (buildPendingV1 lec slide (cs.take MAX_CARDS_PER_AI_CALL) ms).2.length = 2) := by
      intro hcon
      apply hd
      rcases hcon with h | h <;> rw [h] <;> decide
    refine iff_of_false ?_ hlen
    intro h
    simp only [Store.log, List.append_assoc] at h
    have h2 := List.append_cancel_left h
    have h3 := congrArg List.length h2
    simp at h3

/-- C9 (amended): the match branch builds one alignment tuple per match
WHOSE CARD ID OCCURS AMONG THE ANALYZED CANDIDATES.  (i) Revision 1: under
that proviso the pending tuples map one-to-one onto the matches, carrying
the external card id, the alignment category, relevanceScore / 100 and the
reasoning string, and the directly-aligned count equals the count of
directly-aligned matches; (ii) in the match branch of the revision-1 slide
lambda the gap-analysis call happens iff that count is 1 or 2; (iii) and
(iv) the same tuple mapping, count, and gap-call criterion hold in the
batched revision. -/
theorem c9_match_branch_amended :
    (∀ (lec : Nat) (slide : SlideRow) (cta : List Candidate) (ms : List CardMatch),
      (∀ m ∈ ms, ∃ c ∈ cta, c.card_id = m.card_id) →
      ((buildPendingV1 lec slide cta ms).1.map
          (fun p => (p.card_id, p.alignment_type, p.similarity_score, p.llm_reasoning)) =
        ms.map (fun m => (m.card_id, m.alignment_type, m.relevance_score / 100, m.reasoning))) ∧
      (buildPendingV1 lec slide cta ms).2.length =
        ms.countP (fun m => m.alignment_type == AlignmentType.directly_aligned)) ∧
    (∀ (env : Env) (lec deck : Nat) (hasCards : Bool) (slide : SlideRow) (st : Store)
       (cs : List Candidate) (ms : List CardMatch),
      env.retrieve slide.id = RetrieveResult.ok cs → ¬ cs.length = 0 →
      env.classify slide.id 0 = ClassifyResult.ok ms → ¬ ms.length = 0 →
      ((slideResultV1 env lec deck hasCards slide st).1.events =
          st.events ++ [Event.retrieveCall slide.id, Event.classifyCall slide.id 0,
            Event.gapCall slide.id] ↔
        ((buildPendingV1 lec slide (cs.take MAX_CARDS_PER_AI_CALL) ms).2.length = 1 ∨
         (buildPendingV1 lec slide (cs.take MAX_CARDS_PER_AI_CALL) ms).2.length = 2)) ∧
      (slideResultV1 env lec deck hasCards slide st).2.alignments =
        (buildPendingV1 lec slide (cs.take MAX_CARDS_PER_AI_CALL) ms).1) ∧
    (∀ (lec deck : Nat) (slide : SlideRow) (cta : List Candidate) (ms : List CardMatch)
       (st : Store),
      (∀ m ∈ ms, ∃ c ∈ cta, c.card_id = m.card_id) →
      ((buildAlignmentsV2 lec deck slide cta ms st).1.map
          (fun a => (a.alignment_type, a.similarity_score, a.llm_reasoning)) =
        ms.map (fun m => (m.alignment_type, m.relevance_score / 100, m.reasoning))) ∧
      (buildAlignmentsV2 lec deck slide cta ms st).2.1.length =
        ms.countP (fun m => m.alignment_type == AlignmentType.directly_aligned)) ∧
    (∀ (env : Env) (lec deck : Nat) (slide : SlideRow) (cta : List Candidate)
       (ms : List CardMatch) (st : Store),
      ¬ ms.length = 0 →
      (∀ e ∈ st.events, isGapCallFor slide.id e = false) →
      ((∃ e ∈ (finishSlideV2 env lec deck slide cta ms st).events,
          isGapCallFor slide.id e = true) ↔
        ((buildAlignmentsV2 lec deck slide cta ms st).2.1.length = 1 ∨
         (buildAlignmentsV2 lec deck slide cta ms st).2.1.length = 2))) :=
  ⟨fun lec slide cta ms h => buildPendingV1_map lec slide cta ms h,
   fun env lec deck hasCards slide st cs ms hr hcs hc hms =>
     slideResultV1_match_branch env lec deck hasCards slide st cs ms hr hcs hc hms,
   fun lec deck slide cta ms st h => buildAlignmentsV2_map lec deck slide cta ms st h,
   fun env lec deck slide cta ms st hne hnotin =>
     finishSlideV2_gapcall env lec deck slide cta ms st hne hnotin⟩

/-- A directly-aligned classifier match for card 102 with score 85. -/
def matchB85 : CardMatch :=
  { card_id := 102, alignment_type := AlignmentType.directly_aligned,
    reasoning := "rB85", relevance_score := 85 }

/-- Environment for the C9 witness: both cards retrieved, the classifier
matches card 101 (not aligned, 50) and card 102 (directly aligned, 85). -/
def envC9 : Env :=
  { retrieve := fun _ => RetrieveResult.ok [candA, candB],
    classify := fun _ _ => ClassifyResult.ok [matchA, matchB85],
    gapAnalyze := fun _ => GapResult.ok (some "gap"),
    externalWrite := fun _ => none }

/-- Witness for C9 at concrete inputs: two matches, one directly aligned
with score 85 (persisted as 85/100), and the gap analyzer is invoked. -/
theorem c9_match_branch_amended_witness :
    (((buildPendingV1 1 slideA [candA, candB] [matchA, matchB85]).1.map
        (fun p => (p.card_id, p.alignment_type, p.similarity_score, p.llm_reasoning)) =
      [matchA, matchB85].map
        (fun m => (m.card_id, m.alignment_type, m.relevance_score / 100, m.reasoning))) ∧
     (buildPendingV1 1 slideA [candA, candB] [matchA, matchB85]).2.length =
       [matchA, matchB85].countP
         (fun m => m.alignment_type == AlignmentType.directly_aligned)) ∧
    (((slideResultV1 envC9 1 2 true slideA storeTwoSlides).1.events =
        storeTwoSlides.events ++ [Event.retrieveCall slideA.id,
          Event.classifyCall slideA.id 0, Event.gapCall slideA.id] ↔
      ((buildPendingV1 1 slideA ([candA, candB].take MAX_CARDS_PER_AI_CALL)
          [matchA, matchB85]).2.length = 1 ∨
       (buildPendingV1 1 slideA ([candA, candB].take MAX_CARDS_PER_AI_CALL)
          [matchA, matchB85]).2.length = 2)) ∧
     (slideResultV1 envC9 1 2 true slideA storeTwoSlides).2.alignments =
       (buildPendingV1 1 slideA ([candA, candB].take MAX_CARDS_PER_AI_CALL)
         [matchA, matchB85]).1) ∧
    (((buildAlignmentsV2 1 2 slideA [candA, candB] [matchA, matchB85] storeTwoSlides).1.map
        (fun a => (a.alignment_type, a.similarity_score, a.llm_reasoning)) =
      [matchA, matchB85].map
        (fun m => (m.alignment_type, m.relevance_score / 100, m.reasoning))) ∧
     (buildAlignmentsV2 1 2 slideA [candA, candB] [matchA, matchB85] storeTwoSlides).2.1.length =
       [matchA, matchB85].countP
         (fun m => m.alignment_type == AlignmentType.directly_aligned)) ∧
    ((∃ e ∈ (finishSlideV2 envC9 1 2 slideA [candA, candB] [matchA, matchB85]
          storeTwoSlides).events, isGapCallFor slideA.id e = true) ↔
      ((buildAlignmentsV2 1 2 slideA [candA, candB] [matchA, matchB85]
          storeTwoSlides).2.1.length = 1 ∨
       (buildAlignmentsV2 1 2 slideA [candA, candB] [matchA, matchB85]
          storeTwoSlides).2.1.length = 2)) :=
  ⟨c9_match_branch_amended.1 1 slideA [candA, candB] [matchA, matchB85] (by decide),
   c9_match_branch_amended.2.1 envC9 1 2 true slideA storeTwoSlides [candA, candB]
     [matchA, matchB85] rfl (by decide) rfl (by decide),
   c9_match_branch_amended.2.2.1 1 2 slideA [candA, candB] [matchA, matchB85] storeTwoSlides
     (by decide),
   c9_match_branch_amended.2.2.2 envC9 1 2 slideA [candA, candB] [matchA, matchB85]
     storeTwoSlides (by decide) (by simp [storeTwoSlides])⟩

/-- The external card ids of the raw cards of one deck. -/
def deckCardIds (st : Store) (deck : Nat) : List Nat :=
  (st.raw_cards.filter (fun r => r.deck_id == deck)).map (fun r => r.card_id)

/-- Every card_concepts row of the deck references a raw card of the deck
(its external id is in D). -/
def ConceptsOkD (D : List Nat) (deck : Nat) (st : Store) : Prop :=
  ∀ c ∈ st.card_concepts, c.deck_id = deck → c.card_id ∈ D

/-- Every card_alignments row of the lecture references a stored concept
of the target deck whose external id is in D. -/
def AlignsOkD (D : List Nat) (lec deck : Nat) (st : Store) : Prop :=
  ∀ a ∈ st.card_alignments, a.lecture_id = lec →
    ∃ c ∈ st.card_concepts, c.id = a.card_concept_id ∧ c.deck_id = deck ∧ c.card_id ∈ D

/-- The store carried by a slide outcome. -/
def SlideOutcome.store : SlideOutcome → Store
  | SlideOutcome.done st => st
  | SlideOutcome.fatal _ st => st

theorem buildAlignmentsV2_deckinv (D : List Nat) (lec deck : Nat) (slide : SlideRow)
    (cta : List Candidate) (hcta : ∀ c ∈ cta, c.card_id ∈ D) :
    ∀ (ms : List CardMatch) (st : Store),
      ConceptsOkD D deck st →
      (buildAlignmentsV2 lec deck slide cta ms st).2.2.raw_cards = st.raw_cards ∧
      (buildAlignmentsV2 lec deck slide cta ms st).2.2.card_alignments = st.card_alignments ∧
      (buildAlignmentsV2 lec deck slide cta ms st).2.2.coverage_gaps = st.coverage_gaps ∧
      (∃ pre, (buildAlignmentsV2 lec deck slide cta ms st).2.2.card_concepts =
        st.card_concepts ++ pre) ∧
      ConceptsOkD D deck (buildAlignmentsV2 lec deck slide cta ms st).2.2 ∧
      ∀ a ∈ (buildAlignmentsV2 lec deck slide cta ms st).1,
        a.lecture_id = lec ∧
        ∃ c ∈ (buildAlignmentsV2 lec deck slide cta ms st).2.2.card_concepts,
          c.id = a.card_concept_id ∧ c.deck_id = deck ∧ c.card_id ∈ D := by
  intro ms
  induction ms with
  | nil =>
    intro st hco
    exact ⟨rfl, rfl, rfl, ⟨[], (List.append_nil _).symm⟩, hco,
      fun a ha => absurd ha (List.not_mem_nil a)⟩
  | cons m ms ih =>
    intro st hco
    rcases hfind : cta.find? (fun c => c.card_id == m.card_id) with _ | rc
    · simpa only [buildAlignmentsV2, hfind] using ih st hco
    · have hmId : m.card_id ∈ D := by
        have hrc := List.find?_some hfind
        have hmem := List.mem_of_find?_eq_some hfind
        have : rc.card_id = m.card_id := by simpa using hrc
        rw [← this]
        exact hcta rc hmem
      rcases hcc : st.card_concepts.find?
          (fun c => c.deck_id == deck && c.card_id == m.card_id) with _ | c
      · -- concept missing: a new row is created
        have hco1 : ConceptsOkD D deck
            { (st.log (Event.conceptRead m.card_id)) with
              card_concepts := st.card_concepts ++
                [{ id := st.nextConceptId, deck_id := deck, card_id := m.card_id }],
              nextConceptId := st.nextConceptId + 1,
              events := st.events ++ [Event.conceptRead m.card_id]
                ++ [Event.conceptWrite m.card_id] } := by
          intro c2 hc2 hdeck
          rcases List.mem_append.mp hc2 with h2 | h2
          · exact hco c2 h2 hdeck
          · simp only [List.mem_cons, List.not_mem_nil, or_false] at h2
            subst h2
            exact hmId
        obtain ⟨hraw, hal, hgaps, ⟨pre, hpre⟩, hco2, hrows⟩ := ih _ hco1
        simp only [buildAlignmentsV2, hfind, Store.log, hcc]
        simp only [Store.log] at hraw hal hgaps hpre hco2 hrows ⊢
        refine ⟨hraw, hal, hgaps,
          ⟨[{ id := st.nextConceptId, deck_id := deck, card_id := m.card_id }] ++ pre, by
            rw [hpre, List.append_assoc]⟩, hco2, ?_⟩
        intro a ha
        rcases List.mem_cons.mp ha with rfl | ha
        · refine ⟨rfl, { id := st.nextConceptId, deck_id := deck, card_id := m.card_id }, ?_, rfl,
            rfl, hmId⟩
          rw [hpre]
          exact List.mem_append.mpr (Or.inl (List.mem_append.mpr (Or.inr (by simp))))
        · exact hrows a ha
      · -- concept already stored
        have hcprops := List.find?_some hcc
        have hcmem := List.mem_of_find?_eq_some hcc
        simp only [Bool.and_eq_true, beq_iff_eq] at hcprops
        have hco1 : ConceptsOkD D deck (st.log (Event.conceptRead m.card_id)) := hco
        obtain ⟨hraw, hal, hgaps, ⟨pre, hpre⟩, hco2, hrows⟩ := ih _ hco1
        simp only [buildAlignmentsV2, hfind, Store.log, hcc]
        simp only [Store.log] at hraw hal hgaps hpre hco2 hrows ⊢
        refine ⟨hraw, hal, hgaps, ⟨pre, hpre⟩, hco2, ?_⟩
        intro a ha
        rcases List.mem_cons.mp ha with rfl | ha
        · refine ⟨rfl, c, ?_, rfl, hcprops.1, ?_⟩
          · rw [hpre]
            exact List.mem_append.mpr (Or.inl hcmem)
          · rw [hcprops.2]
            exact hmId
        · exact hrows a ha

theorem rateLimitRetry_fields (env : Env) (lec : Nat) (slide : SlideRow) (maxr : Nat) :
    ∀ (fuel retries : Nat) (st : Store),
      (rateLimitRetry env lec slide maxr retries fuel st).1.raw_cards = st.raw_cards ∧
      (rateLimitRetry env lec slide maxr retries fuel st).1.card_concepts = st.card_concepts ∧
      (rateLimitRetry env lec slide maxr retries fuel st).1.card_alignments =
        st.card_alignments := by
  intro fuel
  induction fuel with
  | zero => intro retries st; exact ⟨rfl, rfl, rfl⟩
  | succ fuel ih =>
    intro retries st
    simp only [rateLimitRetry]
    split
    · exact ⟨rfl, rfl, rfl⟩
    · split
      · exact ⟨rfl, rfl, rfl⟩
      · exact ih (retries + 1) _

theorem finishSlideV2_deckinv (D : List Nat) (env : Env) (lec deck : Nat) (slide : SlideRow)
    (cta : List Candidate) (ms : List CardMatch) (st : Store)
    (hcta : ∀ c ∈ cta, c.card_id ∈ D)
    (hco : ConceptsOkD D deck st) (hal : AlignsOkD D lec deck st) :
    (finishSlideV2 env lec deck slide cta ms st).raw_cards = st.raw_cards ∧
    ConceptsOkD D deck (finishSlideV2 env lec deck slide cta ms st) ∧
    AlignsOkD D lec deck (finishSlideV2 env lec deck slide cta ms st) := by
  by_cases hne : ms.length = 0
  · simp only [finishSlideV2, if_pos hne]
    exact ⟨rfl, hco, fun a ha hl => by
      obtain ⟨c, hc, hp⟩ := hal a ha hl
      exact ⟨c, hc, hp⟩⟩
  · obtain ⟨hraw, halb, hgaps, ⟨pre, hpre⟩, hco2, hrows⟩ :=
      buildAlignmentsV2_deckinv D lec deck slide cta hcta ms st hco
    have key : ∀ st2 : Store,
        st2.raw_cards = (buildAlignmentsV2 lec deck slide cta ms st).2.2.raw_cards →
        st2.card_concepts = (buildAlignmentsV2 lec deck slide cta ms st).2.2.card_concepts →
        st2.card_alignments = (buildAlignmentsV2 lec deck slide cta ms st).2.2.card_alignments
          ++ (buildAlignmentsV2 lec deck slide cta ms st).1 ∨
        st2.card_alignments = (buildAlignmentsV2 lec deck slide cta ms st).2.2.card_alignments →
        st2.raw_cards = st.raw_cards ∧ ConceptsOkD D deck st2 ∧ AlignsOkD D lec deck st2 := by
      intro st2 h1 h2 h3
      refine ⟨by rw [h1, hraw], fun c hc hd => hco2 c (by rwa [← h2]) hd, ?_⟩
      intro a ha hl
      rcases h3 with h3 | h3
      · rw [h3] at ha
        rcases List.mem_append.mp ha with ha | ha
        · rw [halb] at ha
          obtain ⟨c, hc, hp⟩ := hal a ha hl
          refine ⟨c, ?_, hp⟩
          rw [h2, hpre]
          exact List.mem_append.mpr (Or.inl hc)
        · obtain ⟨-, c, hc, hp⟩ := hrows a ha
          exact ⟨c, by rwa [← h2] at hc, hp⟩
      · rw [h3, halb] at ha
        obtain ⟨c, hc, hp⟩ := hal a ha hl
        refine ⟨c, ?_, hp⟩
        rw [h2, hpre]
        exact List.mem_append.mpr (Or.inl hc)
    simp only [finishSlideV2, if_neg hne]
    by_cases hlen : (buildAlignmentsV2 lec deck slide cta ms st).1.length > 0
    · simp only [if_pos hlen]
      by_cases hd : (decide ((buildAlignmentsV2 lec deck slide cta ms st).2.1.length > 0) &&
          decide ((buildAlignmentsV2 lec deck slide cta ms st).2.1.length < 3)) = true
      · rw [if_pos hd]
        rcases env.gapAnalyze slide.id with og | _
        · rcases og with g | _
          · exact key _ rfl rfl (Or.inl rfl)
          · exact key _ rfl rfl (Or.inl rfl)
        · exact key _ rfl rfl (Or.inl rfl)
      · rw [if_neg hd]
        exact key _ rfl rfl (Or.inl rfl)
    · simp only [if_neg hlen]
      by_cases hd : (decide ((buildAlignmentsV2 lec deck slide cta ms st).2.1.length > 0) &&
          decide ((buildAlignmentsV2 lec deck slide cta ms st).2.1.length < 3)) = true
      · rw [if_pos hd]
        rcases env.gapAnalyze slide.id with og | _
        · rcases og with g | _
          · exact key _ rfl rfl (Or.inr rfl)
          · exact key _ rfl rfl (Or.inr rfl)
        · exact key _ rfl rfl (Or.inr rfl)
      · rw [if_neg hd]
        exact key _ rfl rfl (Or.inr rfl)

theorem processSlide_deckinv (D : List Nat) (env : Env) (slide : SlideRow)
    (lec deck mc maxc : Nat) (st : Store)
    (hretr : ∀ cs, env.retrieve slide.id = RetrieveResult.ok cs → ∀ c ∈ cs, c.card_id ∈ D)
    (hco : ConceptsOkD D deck st) (hal : AlignsOkD D lec deck st) :
    (processSlideAlignment env slide lec deck mc maxc st).store.raw_cards = st.raw_cards ∧
    ConceptsOkD D deck (processSlideAlignment env slide lec deck mc maxc st).store ∧
    AlignsOkD D lec deck (processSlideAlignment env slide lec deck mc maxc st).store := by
  simp only [processSlideAlignment]
  rcases hr : env.retrieve slide.id with cs | m
  case err => exact ⟨rfl, hco, hal⟩
  · have hcs : ∀ c ∈ cs, c.card_id ∈ D := hretr cs hr
    have hcta : ∀ c ∈ cs.take maxc, c.card_id ∈ D :=
      fun c hc => hcs c (List.mem_of_mem_take hc)
    by_cases hz : cs.length = 0
    · simp only [if_pos hz]
      exact ⟨rfl, hco, hal⟩
    · simp only [if_neg hz]
      rcases hc : env.classify slide.id 0 with ms | e
      · have := finishSlideV2_deckinv D env lec deck slide (cs.take maxc) ms
          ((st.log (Event.retrieveCall slide.id)).log (Event.classifyCall slide.id 0))
          hcta hco hal
        simpa only [SlideOutcome.store, Store.log] using this
      · by_cases hq : isQuotaError e = true
        · simp only [hq, if_true]
          exact ⟨rfl, hco, hal⟩
        · simp only [hq, Bool.false_eq_true, if_false]
          by_cases hrl : isRateLimit e = true
          · simp only [hrl, if_true]
            rcases hretry : rateLimitRetry env lec slide 3 0 3
                ((st.log (Event.retrieveCall slide.id)).log (Event.classifyCall slide.id 0)) with
              ⟨st2, oms⟩
            obtain ⟨hf1, hf2, hf3⟩ := rateLimitRetry_fields env lec slide 3 3 0
              ((st.log (Event.retrieveCall slide.id)).log (Event.classifyCall slide.id 0))
            rw [hretry] at hf1 hf2 hf3
            have hco2 : ConceptsOkD D deck st2 := fun c hc hd => hco c (by rwa [hf2] at hc) hd
            have hal2 : AlignsOkD D lec deck st2 := by
              intro a ha hl
              rw [hf3] at ha
              obtain ⟨c, hcm, hp⟩ := hal a ha hl
              exact ⟨c, by rwa [hf2], hp⟩
            rcases oms with _ | ms
            · exact ⟨hf1, hco2, hal2⟩
            · have := finishSlideV2_deckinv D env lec deck slide (cs.take maxc) ms st2
                hcta hco2 hal2
              simp only [SlideOutcome.store]
              exact ⟨this.1.trans hf1, this.2.1, this.2.2⟩
          · simp only [hrl, Bool.false_eq_true, if_false]
            exact ⟨rfl, hco, hal⟩

theorem slideResultV1_fields (env : Env) (lec deck : Nat) (hasCards : Bool)
    (slide : SlideRow) (st : Store) :
    (slideResultV1 env lec deck hasCards slide st).1.raw_cards = st.raw_cards ∧
    (slideResultV1 env lec deck hasCards slide st).1.card_concepts = st.card_concepts ∧
    (slideResultV1 env lec deck hasCards slide st).1.card_alignments = st.card_alignments ∧
    (slideResultV1 env lec deck hasCards slide st).1.coverage_gaps = st.coverage_gaps := by
  simp only [slideResultV1]
  split
  · exact ⟨rfl, rfl, rfl, rfl⟩
  · split
    · exact ⟨rfl, rfl, rfl, rfl⟩
    · split
      · exact ⟨rfl, rfl, rfl, rfl⟩
      · split
        · exact ⟨rfl, rfl, rfl, rfl⟩
        · split
          · exact ⟨rfl, rfl, rfl, rfl⟩
          · exact ⟨rfl, rfl, rfl, rfl⟩

theorem processAllSlidesV1_fields (env : Env) (lec deck : Nat) (hasCards : Bool) :
    ∀ (slides : List SlideRow) (st : Store),
      (processAllSlidesV1 env lec deck hasCards slides st).1.raw_cards = st.raw_cards ∧
      (processAllSlidesV1 env lec deck hasCards slides st).1.card_concepts = st.card_concepts ∧
      (processAllSlidesV1 env lec deck hasCards slides st).1.card_alignments =
        st.card_alignments ∧
      (processAllSlidesV1 env lec deck hasCards slides st).1.coverage_gaps =
        st.coverage_gaps := by
  intro slides
  induction slides with
  | nil => intro st; exact ⟨rfl, rfl, rfl, rfl⟩
  | cons slide rest ih =>
    intro st
    obtain ⟨h1, h2, h3, h4⟩ := slideResultV1_fields env lec deck hasCards slide st
    obtain ⟨g1, g2, g3, g4⟩ := ih (slideResultV1 env lec deck hasCards slide st).1
    exact ⟨g1.trans h1, g2.trans h2, g3.trans h3, g4.trans h4⟩

theorem find?_filter_ne (m : List (Nat × Nat)) (k k2 : Nat) (h : ¬ k2 = k) :
    (m.filter (fun p => !(p.1 == k))).find? (fun p => p.1 == k2) =
      m.find? (fun p => p.1 == k2) := by
  induction m with
  | nil => rfl
  | cons p m ih =>
    by_cases h1 : p.1 = k
    · have hfilter : (p :: m).filter (fun q => !(q.1 == k)) = m.filter (fun q => !(q.1 == k)) := by
        simp [List.filter_cons, h1]
      have hfind : (p :: m).find? (fun q => q.1 == k2) = m.find? (fun q => q.1 == k2) := by
        rw [List.find?_cons_of_neg]
        simp only [beq_iff_eq]
        omega
      rw [hfilter, hfind, ih]
    · have hfilter : (p :: m).filter (fun q => !(q.1 == k)) =
          p :: m.filter (fun q => !(q.1 == k)) := by
        simp [List.filter_cons, h1]
      rw [hfilter]
      by_cases h2 : p.1 = k2
      · rw [List.find?_cons_of_pos _ (by simp [h2]), List.find?_cons_of_pos _ (by simp [h2])]
      · rw [List.find?_cons_of_neg _ (by simp [h2]), List.find?_cons_of_neg _ (by simp [h2]), ih]

theorem mapGet_mapSet (m : List (Nat × Nat)) (k v k2 : Nat) :
    mapGet (mapSet m k v) k2 = if k2 = k then some v else mapGet m k2 := by
  by_cases h : k2 = k
  · subst h
    rw [if_pos rfl]
    simp only [mapSet, mapGet]
    rw [List.find?_cons_of_pos _ (by simp)]
    rfl
  · rw [if_neg h]
    simp only [mapSet, mapGet]
    rw [List.find?_cons_of_neg _ (by simp; omega), find?_filter_ne m k k2 h]

theorem mapGet_foldl_concepts :
    ∀ (cs : List ConceptRow) (m0 : List (Nat × Nat)) (k v : Nat),
      mapGet (cs.foldl (fun m c => mapSet m c.card_id c.id) m0) k = some v →
      (∃ c ∈ cs, c.card_id = k ∧ c.id = v) ∨ mapGet m0 k = some v := by
  intro cs
  induction cs with
  | nil => intro m0 k v h; exact Or.inr h
  | cons c cs ih =>
    intro m0 k v h
    simp only [List.foldl_cons] at h
    rcases ih _ k v h with ⟨c2, hc2, he⟩ | h2
    · exact Or.inl ⟨c2, List.mem_cons_of_mem c hc2, he⟩
    · rw [mapGet_mapSet] at h2
      by_cases hk : k = c.card_id
      · rw [if_pos hk] at h2
        exact Or.inl ⟨c, List.mem_cons_self c cs, hk.symm, Option.some.inj h2⟩
      · rw [if_neg hk] at h2
        exact Or.inr h2

theorem resolveConceptsV1_spec (deck : Nat) (cardIds : List Nat) (st : Store)
    (hco : ConceptsOkD (deckCardIds st deck) deck st) :
    (resolveConceptsV1 deck cardIds st).2.raw_cards = st.raw_cards ∧
    (resolveConceptsV1 deck cardIds st).2.card_alignments = st.card_alignments ∧
    (resolveConceptsV1 deck cardIds st).2.coverage_gaps = st.coverage_gaps ∧
    (∃ pre, (resolveConceptsV1 deck cardIds st).2.card_concepts = st.card_concepts ++ pre) ∧
    (∀ k v, mapGet (resolveConceptsV1 deck cardIds st).1 k = some v →
      ∃ c ∈ (resolveConceptsV1 deck cardIds st).2.card_concepts,
        c.id = v ∧ c.deck_id = deck ∧ c.card_id ∈ deckCardIds st deck) := by
  simp only [resolveConceptsV1, Store.log]
  split
  · -- cardsToCreate nonempty: a bulk write happens
    refine ⟨rfl, rfl, rfl, ⟨_, rfl⟩, ?_⟩
    intro k v h
    rcases mapGet_foldl_concepts _ _ k v h with ⟨c, hc, hck, hcv⟩ | h2
    · -- a newly created concept
      obtain ⟨p, hp, hpe⟩ := List.mem_map.mp hc
      obtain ⟨i, r⟩ := p
      have hraw := (List.of_mem_zip hp).2
      have hmem := List.mem_filter.mp hraw
      simp only [Bool.and_eq_true, beq_iff_eq] at hmem
      refine ⟨c, ?_, hcv, ?_, ?_⟩
      · apply List.mem_append.mpr
        apply Or.inr
        exact hc
      · rw [← hpe]
      · rw [← hpe]
        apply List.mem_map.mpr
        refine ⟨r, ?_, rfl⟩
        apply List.mem_filter.mpr
        refine ⟨hmem.1, by simp [hmem.2.1]⟩
    · -- an existing concept of the deck
      rcases mapGet_foldl_concepts _ _ k v h2 with ⟨c, hc, hck, hcv⟩ | h3
      · have hcf := List.mem_filter.mp hc
        simp only [Bool.and_eq_true, beq_iff_eq] at hcf
        refine ⟨c, List.mem_append.mpr (Or.inl hcf.1), hcv, hcf.2.1, hco c hcf.1 hcf.2.1⟩
      · simp [mapGet] at h3
  · -- nothing to create
    refine ⟨rfl, rfl, rfl, ⟨[], (List.append_nil _).symm⟩, ?_⟩
    intro k v h
    rcases mapGet_foldl_concepts _ _ k v h with ⟨c, hc, hck, hcv⟩ | h3
    · have hcf := List.mem_filter.mp hc
      simp only [Bool.and_eq_true, beq_iff_eq] at hcf
      exact ⟨c, hcf.1, hcv, hcf.2.1, hco c hcf.1 hcf.2.1⟩
    · simp [mapGet] at h3

@[simp] theorem clearedStore_card_concepts (st : Store) (lec : Nat) :
    (clearedStore st lec).card_concepts = st.card_concepts := rfl

theorem clearedStore_card_alignments (st : Store) (lec : Nat) :
    (clearedStore st lec).card_alignments =
      st.card_alignments.filter (fun a => !(a.lecture_id == lec)) := rfl

@[simp] theorem markCompleted_raw_cards (st : Store) :
    (markCompleted st).raw_cards = st.raw_cards := rfl

@[simp] theorem markCompleted_card_concepts (st : Store) :
    (markCompleted st).card_concepts = st.card_concepts := rfl

@[simp] theorem markCompleted_card_alignments (st : Store) :
    (markCompleted st).card_alignments = st.card_alignments := rfl

@[simp] theorem markFailed_raw_cards (st : Store) (m : String) :
    (markFailed st m).raw_cards = st.raw_cards := rfl

@[simp] theorem markFailed_card_concepts (st : Store) (m : String) :
    (markFailed st m).card_concepts = st.card_concepts := rfl

@[simp] theorem markFailed_card_alignments (st : Store) (m : String) :
    (markFailed st m).card_alignments = st.card_alignments := rfl

theorem finalAlignmentsV1_ref (cm : List (Nat × Nat)) (ps : List PendingAlignment)
    (f : AlignmentRow) (hf : f ∈ finalAlignmentsV1 cm ps) :
    ∃ k, mapGet cm k = some f.card_concept_id := by
  obtain ⟨a, ha, hg⟩ := List.mem_filterMap.mp hf
  rcases hm : mapGet cm a.card_id with _ | v
  · rw [hm] at hg
    exact absurd hg (by simp)
  · rw [hm] at hg
    refine ⟨a.card_id, ?_⟩
    rw [hm, ← Option.some.inj hg]

theorem genV1_deck (env : Env) (lec deck user : Nat) (st : Store)
    (hco : ConceptsOkD (deckCardIds st deck) deck st) :
    (generateAlignmentsInBackgroundV1 env lec deck user st).raw_cards = st.raw_cards ∧
    AlignsOkD (deckCardIds st deck) lec deck
      (generateAlignmentsInBackgroundV1 env lec deck user st) := by
  have hclears : ∀ a ∈ (clearedStore st lec).card_alignments, ¬ a.lecture_id = lec := by
    intro a ha hl
    rw [clearedStore_card_alignments] at ha
    have := (List.mem_filter.mp ha).2
    simp [hl] at this
  simp only [generateAlignmentsInBackgroundV1]
  split
  · refine ⟨rfl, ?_⟩
    intro a ha hl
    exact absurd hl (hclears a ha)
  · obtain ⟨w1, w2, w3, w4⟩ := processAllSlidesV1_fields env lec deck
      (decide (((clearedStore st lec).raw_cards.filter (fun r => r.deck_id == deck)).length > 0))
      (lectureSlides (clearedStore st lec) lec) (clearedStore st lec)
    set wave := processAllSlidesV1 env lec deck
      (decide (((clearedStore st lec).raw_cards.filter (fun r => r.deck_id == deck)).length > 0))
      (lectureSlides (clearedStore st lec) lec) (clearedStore st lec) with hwave
    have hrawD : (updateProgress wave.1 80).raw_cards = st.raw_cards := by
      rw [updateProgress_raw_cards, w1, clearedStore_raw_cards]
    have hDeq : deckCardIds (updateProgress wave.1 80) deck = deckCardIds st deck := by
      unfold deckCardIds
      rw [hrawD]
    have hcoD : ConceptsOkD (deckCardIds (updateProgress wave.1 80) deck) deck
        (updateProgress wave.1 80) := by
      intro c hc hd
      rw [hDeq]
      rw [updateProgress_card_concepts, w2, clearedStore_card_concepts] at hc
      exact hco c hc hd
    obtain ⟨r1, r2, r3, ⟨pre, rpre⟩, rmap⟩ := resolveConceptsV1_spec deck
      (collectCardIds wave.2) (updateProgress wave.1 80) hcoD
    rw [hDeq] at rmap
    have halE : ∀ a ∈ (resolveConceptsV1 deck (collectCardIds wave.2)
        (updateProgress wave.1 80)).2.card_alignments, ¬ a.lecture_id = lec := by
      intro a ha
      rw [r2, updateProgress_card_alignments, w3] at ha
      exact hclears a ha
    have hrawE : (resolveConceptsV1 deck (collectCardIds wave.2)
        (updateProgress wave.1 80)).2.raw_cards = st.raw_cards := by
      rw [r1, hrawD]
    have hfin : ∀ f ∈ finalAlignmentsV1
        (resolveConceptsV1 deck (collectCardIds wave.2) (updateProgress wave.1 80)).1
        (wave.2.foldl (fun acc r => acc ++ r.alignments) []),
        ∃ c ∈ (resolveConceptsV1 deck (collectCardIds wave.2)
            (updateProgress wave.1 80)).2.card_concepts,
          c.id = f.card_concept_id ∧ c.deck_id = deck ∧ c.card_id ∈ deckCardIds st deck := by
      intro f hf
      obtain ⟨k, hk⟩ := finalAlignmentsV1_ref _ _ f hf
      exact rmap k f.card_concept_id hk
    split
    · -- gap bulk insert happens (coverage_gaps only)
      split
      · -- alignment bulk insert happens
        refine ⟨by simp only [markCompleted_raw_cards]; exact hrawE, ?_⟩
        intro a ha hl
        simp only [markCompleted_card_alignments] at ha
        rcases List.mem_append.mp ha with ha | ha
        · exact absurd hl (halE a ha)
        · obtain ⟨c, hc, hp⟩ := hfin a ha
          exact ⟨c, hc, hp⟩
      · refine ⟨by simp only [markCompleted_raw_cards]; exact hrawE, ?_⟩
        intro a ha hl
        simp only [markCompleted_card_alignments] at ha
        exact absurd hl (halE a ha)
    · split
      · refine ⟨by simp only [markCompleted_raw_cards]; exact hrawE, ?_⟩
        intro a ha hl
        simp only [markCompleted_card_alignments] at ha
        rcases List.mem_append.mp ha with ha | ha
        · exact absurd hl (halE a ha)
        · obtain ⟨c, hc, hp⟩ := hfin a ha
          exact ⟨c, hc, hp⟩
      · refine ⟨by simp only [markCompleted_raw_cards]; exact hrawE, ?_⟩
        intro a ha hl
        simp only [markCompleted_card_alignments] at ha
        exact absurd hl (halE a ha)

/-- C8: deck scoping.  (i) Run level (collect-then-flush revision): if
every stored concept of the target deck references a raw card of that
deck, then after a full run every alignment row of the lecture references
a stored CardConcept of the target deck whose external card id is that of
a raw card of the deck (and the raw card table is untouched); no
assumption on the retrieval service is needed because central resolution
reads raw cards of the target deck only.  (ii) Step level (batched
revision): one slide step preserves the same invariant, provided every
candidate the retrieval service returns for the slide is a card of the
deck (the engine builds alignments only for matches found among those
candidates and resolves or creates concepts only against the deck id). -/
theorem c8_deck_scoping :
    (∀ (env : Env) (lec deck user : Nat) (st : Store),
      ConceptsOkD (deckCardIds st deck) deck st →
      (generateAlignmentsInBackgroundV1 env lec deck user st).raw_cards = st.raw_cards ∧
      AlignsOkD (deckCardIds st deck) lec deck
        (generateAlignmentsInBackgroundV1 env lec deck user st)) ∧
    (∀ (D : List Nat) (env : Env) (slide : SlideRow) (lec deck mc maxc : Nat) (st : Store),
      (∀ cs, env.retrieve slide.id = RetrieveResult.ok cs → ∀ c ∈ cs, c.card_id ∈ D) →
      ConceptsOkD D deck st →
      AlignsOkD D lec deck st →
      (processSlideAlignment env slide lec deck mc maxc st).store.raw_cards = st.raw_cards ∧
      ConceptsOkD D deck (processSlideAlignment env slide lec deck mc maxc st).store ∧
      AlignsOkD D lec deck (processSlideAlignment env slide lec deck mc maxc st).store) :=
  ⟨fun env lec deck user st hco => genV1_deck env lec deck user st hco,
   fun D env slide lec deck mc maxc st hretr hco hal =>
     processSlide_deckinv D env slide lec deck mc maxc st hretr hco hal⟩

/-- Witness for C8 at a concrete two-slide, two-card run of each kind. -/
theorem c8_deck_scoping_witness :
    ((generateAlignmentsInBackgroundV1 envC3 1 2 0 storeTwoSlides).raw_cards =
        storeTwoSlides.raw_cards ∧
      AlignsOkD (deckCardIds storeTwoSlides 2) 1 2
        (generateAlignmentsInBackgroundV1 envC3 1 2 0 storeTwoSlides)) ∧
    ((processSlideAlignment envC3 slideA 1 2 MATCH_COUNT MAX_CARDS_PER_AI_CALL
        storeTwoSlides).store.raw_cards = storeTwoSlides.raw_cards ∧
      ConceptsOkD [101, 102] 2
        (processSlideAlignment envC3 slideA 1 2 MATCH_COUNT MAX_CARDS_PER_AI_CALL
          storeTwoSlides).store ∧
      AlignsOkD [101, 102] 1 2
        (processSlideAlignment envC3 slideA 1 2 MATCH_COUNT MAX_CARDS_PER_AI_CALL
          storeTwoSlides).store) :=
  ⟨c8_deck_scoping.1 envC3 1 2 0 storeTwoSlides
      (fun c hc _ => absurd hc (List.not_mem_nil c)),
   c8_deck_scoping.2 [101, 102] envC3 slideA 1 2 MATCH_COUNT MAX_CARDS_PER_AI_CALL
      storeTwoSlides
      (fun cs hcs c hc => by
        injection hcs with h
        subst h
        simp only [List.mem_cons, List.not_mem_nil, or_false] at hc
        rcases hc with rfl | rfl <;> decide)
      (fun c hc _ => absurd hc (List.not_mem_nil c))
      (fun a ha _ => absurd ha (List.not_mem_nil a))⟩

/-- Event classifier: a bulk coverage_gaps insert (revision 1). -/
def isGapBulkEvent : Event → Bool
  | Event.gapBulkInsert _ => true
  | _ => false

/-- Event classifier: an external-service call of the revision-1 slide
lambda (retrieval, classification, or gap analysis). -/
def isCallEvent : Event → Bool
  | Event.retrieveCall _ => true
  | Event.classifyCall _ _ => true
  | Event.gapCall _ => true
  | _ => false

/-- Event classifier: a bulk operation of the revision-1 Concept
Resolver. -/
def isResolveBulkEvent : Event → Bool
  | Event.conceptBulkRead _ => true
  | Event.rawBulkRead _ => true
  | Event.conceptBulkWrite _ => true
  | _ => false

theorem slideResultV1_trace (env : Env) (lec deck : Nat) (hasCards : Bool)
    (slide : SlideRow) (st : Store) :
    ∃ es, (slideResultV1 env lec deck hasCards slide st).1.events = st.events ++ es ∧
      ∀ e ∈ es, isCallEvent e = true := by
  simp only [slideResultV1]
  split
  · refine ⟨[Event.retrieveCall slide.id], by simp [Store.log], ?_⟩
    intro e he
    simp only [List.mem_cons, List.not_mem_nil, or_false] at he
    subst he
    rfl
  · split
    · refine ⟨[Event.retrieveCall slide.id], by simp [Store.log], ?_⟩
      intro e he
      simp only [List.mem_cons, List.not_mem_nil, or_false] at he
      subst he
      rfl
    · split
      · refine ⟨[Event.retrieveCall slide.id, Event.classifyCall slide.id 0],
          by simp [Store.log], ?_⟩
        intro e he
        simp only [List.mem_cons, List.not_mem_nil, or_false] at he
        rcases he with rfl | rfl <;> rfl
      · split
        · refine ⟨[Event.retrieveCall slide.id, Event.classifyCall slide.id 0],
            by simp [Store.log], ?_⟩
          intro e he
          simp only [List.mem_cons, List.not_mem_nil, or_false] at he
          rcases he with rfl | rfl <;> rfl
        · split
          · refine ⟨[Event.retrieveCall slide.id, Event.classifyCall slide.id 0,
              Event.gapCall slide.id], by simp [Store.log], ?_⟩
            intro e he
            simp only [List.mem_cons, List.not_mem_nil, or_false] at he
            rcases he with rfl | rfl | rfl <;> rfl
          · refine ⟨[Event.retrieveCall slide.id, Event.classifyCall slide.id 0],
              by simp [Store.log], ?_⟩
            intro e he
            simp only [List.mem_cons, List.not_mem_nil, or_false] at he
            rcases he with rfl | rfl <;> rfl

theorem processAllSlidesV1_trace (env : Env) (lec deck : Nat) (hasCards : Bool) :
    ∀ (slides : List SlideRow) (st : Store),
      ∃ es, (processAllSlidesV1 env lec deck hasCards slides st).1.events =
          st.events ++ es ∧
        ∀ e ∈ es, isCallEvent e = true := by
  intro slides
  induction slides with
  | nil => intro st; exact ⟨[], (List.append_nil _).symm, fun e he => absurd he (List.not_mem_nil e)⟩
  | cons slide rest ih =>
    intro st
    obtain ⟨es1, h1, hp1⟩ := slideResultV1_trace env lec deck hasCards slide st
    obtain ⟨es2, h2, hp2⟩ := ih (slideResultV1 env lec deck hasCards slide st).1
    refine ⟨es1 ++ es2, ?_, ?_⟩
    · show (processAllSlidesV1 env lec deck hasCards rest
        (slideResultV1 env lec deck hasCards slide st).1).1.events = _
      rw [h2, h1, List.append_assoc]
    · intro e he
      rcases List.mem_append.mp he with he | he
      · exact hp1 e he
      · exact hp2 e he

theorem resolveConceptsV1_trace (deck : Nat) (cardIds : List Nat) (st : Store) :
    ∃ es, (resolveConceptsV1 deck cardIds st).2.events = st.events ++ es ∧
      (∀ e ∈ es, isResolveBulkEvent e = true) ∧
      es.countP isConceptBulkReadEvent = 1 ∧
      es.countP isRawBulkReadEvent ≤ 1 ∧
      es.countP isConceptBulkWriteEvent ≤ 1 := by
  simp only [resolveConceptsV1, Store.log]
  split
  · set c2c := List.filter (fun k => !(mapGet (List.foldl (fun m c => mapSet m c.card_id c.id) []
        (List.filter (fun c => c.deck_id == deck && decide (c.card_id ∈ cardIds))
          st.card_concepts)) k).isSome) cardIds with hc2c
    set rcd := List.filter (fun r => r.deck_id == deck && decide (r.card_id ∈ c2c))
      st.raw_cards with hrcd
    set nc := List.map (fun p => ConceptRow.mk (st.nextConceptId + p.1) deck p.2.card_id) ((List.range rcd.length).zip rcd) with hnc
    refine ⟨[Event.conceptBulkRead cardIds, Event.rawBulkRead c2c,
        Event.conceptBulkWrite (nc.map (fun c => c.card_id))],
      by simp [List.append_assoc, hc2c], ?_, rfl, Nat.le.refl, Nat.le.refl⟩
    intro e he
    simp only [List.mem_cons, List.not_mem_nil, or_false] at he
    rcases he with rfl | rfl | rfl <;> rfl
  · refine ⟨[Event.conceptBulkRead cardIds], by simp, ?_, rfl, Nat.zero_le 1, Nat.zero_le 1⟩
    intro e he
    simp only [List.mem_cons, List.not_mem_nil, or_false] at he
    subst he
    rfl

theorem genV1_trace (env : Env) (lec deck user : Nat) (st : Store)
    (hpos : 0 < (lectureSlides st lec).length) :
    ∃ waveEs resEs abEs gbEs,
      (generateAlignmentsInBackgroundV1 env lec deck user st).events =
        st.events ++ [Event.clearAlignments lec, Event.clearGaps lec, Event.progressUpdate 5]
          ++ waveEs ++ [Event.progressUpdate 80] ++ resEs ++ abEs ++ gbEs
          ++ [Event.statusUpdate JobStatus.completed (some 100)] ∧
      (∀ e ∈ waveEs, isCallEvent e = true) ∧
      (∀ e ∈ resEs, isResolveBulkEvent e = true) ∧
      resEs.countP isConceptBulkReadEvent = 1 ∧
      resEs.countP isRawBulkReadEvent ≤ 1 ∧
      resEs.countP isConceptBulkWriteEvent ≤ 1 ∧
      (abEs = [] ∨ ∃ n, abEs = [Event.alignBulkInsert n]) ∧
      (gbEs = [] ∨ ∃ m2, gbEs = [Event.gapBulkInsert m2]) := by
  simp only [generateAlignmentsInBackgroundV1]
  split
  · next h =>
    rw [lectureSlides_clearedStore] at h
    omega
  · obtain ⟨waveEs, hw, hwp⟩ := processAllSlidesV1_trace env lec deck
      (decide (((clearedStore st lec).raw_cards.filter (fun r => r.deck_id == deck)).length > 0))
      (lectureSlides (clearedStore st lec) lec) (clearedStore st lec)
    set wave := processAllSlidesV1 env lec deck
      (decide (((clearedStore st lec).raw_cards.filter (fun r => r.deck_id == deck)).length > 0))
      (lectureSlides (clearedStore st lec) lec) (clearedStore st lec) with hwave
    obtain ⟨resEs, hr, hrp, hr1, hr2, hr3⟩ := resolveConceptsV1_trace deck
      (collectCardIds wave.2) (updateProgress wave.1 80)
    have hE : (resolveConceptsV1 deck (collectCardIds wave.2) (updateProgress wave.1 80)).2.events
        = st.events ++ [Event.clearAlignments lec, Event.clearGaps lec, Event.progressUpdate 5]
          ++ waveEs ++ [Event.progressUpdate 80] ++ resEs := by
      rw [hr, updateProgress_events, hw, clearedStore_events]
    split
    · -- gap bulk insert happens (outer split)
      split
      · refine ⟨waveEs, resEs, [Event.alignBulkInsert (finalAlignmentsV1
            (resolveConceptsV1 deck (collectCardIds wave.2) (updateProgress wave.1 80)).1
            (List.foldl (fun acc r => acc ++ r.alignments) [] wave.2)).length],
          [Event.gapBulkInsert (List.filterMap (fun r => r.gap) wave.2).length],
          ?_, hwp, hrp, hr1, hr2, hr3, Or.inr ⟨_, rfl⟩, Or.inr ⟨_, rfl⟩⟩
        simp [markCompleted_events, hE, List.append_assoc]
      · refine ⟨waveEs, resEs, [],
          [Event.gapBulkInsert (List.filterMap (fun r => r.gap) wave.2).length],
          ?_, hwp, hrp, hr1, hr2, hr3, Or.inl rfl, Or.inr ⟨_, rfl⟩⟩
        simp [markCompleted_events, hE, List.append_assoc]
    · split
      · refine ⟨waveEs, resEs, [Event.alignBulkInsert (finalAlignmentsV1
            (resolveConceptsV1 deck (collectCardIds wave.2) (updateProgress wave.1 80)).1
            (List.foldl (fun acc r => acc ++ r.alignments) [] wave.2)).length],
          [], ?_, hwp, hrp, hr1, hr2, hr3, Or.inr ⟨_, rfl⟩, Or.inl rfl⟩
        simp [markCompleted_events, hE, List.append_assoc]
      · refine ⟨waveEs, resEs, [], [], ?_, hwp, hrp, hr1, hr2, hr3, Or.inl rfl, Or.inl rfl⟩
        simp [markCompleted_events, hE, List.append_assoc]

theorem callEvent_props {e : Event} (h : isCallEvent e = true) :
    isAlignInsertEvent e = false ∧ isAlignBulkEvent e = false ∧ isGapBulkEvent e = false := by
  cases e <;> simp_all [isCallEvent, isAlignInsertEvent, isAlignBulkEvent, isGapBulkEvent]

theorem resolveEvent_props {e : Event} (h : isResolveBulkEvent e = true) :
    isAlignInsertEvent e = false ∧ isAlignBulkEvent e = false ∧ isGapBulkEvent e = false ∧
    isClassifyEvent e = false ∧ isRetrieveEvent e = false := by
  cases e <;> simp_all [isResolveBulkEvent, isAlignInsertEvent, isAlignBulkEvent,
    isGapBulkEvent, isClassifyEvent, isRetrieveEvent]

theorem dropWhile_append_all {α : Type} {p : α → Bool} :
    ∀ {l1 l2 : List α}, (∀ x ∈ l1, p x = true) →
      (l1 ++ l2).dropWhile p = l2.dropWhile p := by
  intro l1
  induction l1 with
  | nil => intro l2 _; rfl
  | cons x l ih =>
    intro l2 h
    rw [List.cons_append, List.dropWhile_cons_of_pos (h x (List.mem_cons_self x l))]
    exact ih (fun y hy => h y (List.mem_cons_of_mem x hy))

/-- C1 (amended): all-or-nothing persistence holds in the collect-then-flush
revision: a fresh run emits no per-slide alignment insert at all, at most
one bulk alignment insert and at most one bulk gap insert, no
classification or retrieval call ever happens at or after the bulk
alignment insert, and while the slide wave runs (before central resolution
and the bulk flush) the store holds no alignment row of the lecture. -/
theorem c1_allornothing_amended :
    ∀ (env : Env) (lec deck user : Nat) (st : Store),
      st.events = [] →
      0 < (lectureSlides st lec).length →
      (generateAlignmentsInBackgroundV1 env lec deck user st).events.countP
        isAlignInsertEvent = 0 ∧
      (generateAlignmentsInBackgroundV1 env lec deck user st).events.countP
        isAlignBulkEvent ≤ 1 ∧
      (generateAlignmentsInBackgroundV1 env lec deck user st).events.countP
        isGapBulkEvent ≤ 1 ∧
      ((generateAlignmentsInBackgroundV1 env lec deck user st).events.dropWhile
          (fun e => !(isAlignBulkEvent e))).any
        (fun e => isClassifyEvent e || isRetrieveEvent e) = false ∧
      (∀ a ∈ (processAllSlidesV1 env lec deck
          (decide (((clearedStore st lec).raw_cards.filter
            (fun r => r.deck_id == deck)).length > 0))
          (lectureSlides (clearedStore st lec) lec) (clearedStore st lec)).1.card_alignments,
        ¬ a.lecture_id = lec) := by
  intro env lec deck user st hev0 hpos
  obtain ⟨waveEs, resEs, abEs, gbEs, hE, hwp, hrp, hr1, hr2, hr3, hab, hgb⟩ :=
    genV1_trace env lec deck user st hpos
  rw [hev0, List.nil_append] at hE
  have hwa : waveEs.countP isAlignInsertEvent = 0 :=
    List.countP_eq_zero.mpr (fun e he => by simp [(callEvent_props (hwp e he)).1])
  have hwb : waveEs.countP isAlignBulkEvent = 0 :=
    List.countP_eq_zero.mpr (fun e he => by simp [(callEvent_props (hwp e he)).2.1])
  have hwg : waveEs.countP isGapBulkEvent = 0 :=
    List.countP_eq_zero.mpr (fun e he => by simp [(callEvent_props (hwp e he)).2.2])
  have hra : resEs.countP isAlignInsertEvent = 0 :=
    List.countP_eq_zero.mpr (fun e he => by simp [(resolveEvent_props (hrp e he)).1])
  have hrb : resEs.countP isAlignBulkEvent = 0 :=
    List.countP_eq_zero.mpr (fun e he => by simp [(resolveEvent_props (hrp e he)).2.1])
  have hrg : resEs.countP isGapBulkEvent = 0 :=
    List.countP_eq_zero.mpr (fun e he => by simp [(resolveEvent_props (hrp e he)).2.2.1])
  have h1 : ∀ x ∈ [Event.clearAlignments lec, Event.clearGaps lec, Event.progressUpdate 5],
      (!(isAlignBulkEvent x)) = true := by
    intro x hx
    simp only [List.mem_cons, List.not_mem_nil, or_false] at hx
    rcases hx with rfl | rfl | rfl <;> rfl
  have h2 : ∀ x ∈ waveEs, (!(isAlignBulkEvent x)) = true :=
    fun x hx => by simp [(callEvent_props (hwp x hx)).2.1]
  have h3 : ∀ x ∈ [Event.progressUpdate 80], (!(isAlignBulkEvent x)) = true := by
    intro x hx
    simp only [List.mem_cons, List.not_mem_nil, or_false] at hx
    subst hx
    rfl
  have h4 : ∀ x ∈ resEs, (!(isAlignBulkEvent x)) = true :=
    fun x hx => by simp [(resolveEvent_props (hrp x hx)).2.1]
  refine ⟨?_, ?_, ?_, ?_, ?_⟩
  · rw [hE]
    simp only [List.countP_append, hwa, hra]
    rcases hab with rfl | ⟨n, rfl⟩ <;> rcases hgb with rfl | ⟨m2, rfl⟩ <;>
      simp [List.countP_cons, List.countP_nil, isAlignInsertEvent]
  · rw [hE]
    simp only [List.countP_append, hwb, hrb]
    rcases hab with rfl | ⟨n, rfl⟩ <;> rcases hgb with rfl | ⟨m2, rfl⟩ <;>
      simp [List.countP_cons, List.countP_nil, isAlignBulkEvent]
  · rw [hE]
    simp only [List.countP_append, hwg, hrg]
    rcases hab with rfl | ⟨n, rfl⟩ <;> rcases hgb with rfl | ⟨m2, rfl⟩ <;>
      simp [List.countP_cons, List.countP_nil, isGapBulkEvent]
  · rw [hE]
    simp only [List.append_assoc]
    rw [dropWhile_append_all h1, dropWhile_append_all h2, dropWhile_append_all h3,
      dropWhile_append_all h4]
    rcases hab with rfl | ⟨n, rfl⟩ <;> rcases hgb with rfl | ⟨m2, rfl⟩ <;> rfl
  · intro a ha
    obtain ⟨-, -, w3, -⟩ := processAllSlidesV1_fields env lec deck
      (decide (((clearedStore st lec).raw_cards.filter
        (fun r => r.deck_id == deck)).length > 0))
      (lectureSlides (clearedStore st lec) lec) (clearedStore st lec)
    rw [w3, clearedStore_card_alignments] at ha
    intro hl
    have := (List.mem_filter.mp ha).2
    simp [hl] at this

/-- Witness for the amended C1 at a concrete two-slide run of the
collect-then-flush revision. -/
theorem c1_allornothing_amended_witness :
    (generateAlignmentsInBackgroundV1 envC3 1 2 0 storeTwoSlides).events.countP
      isAlignInsertEvent = 0 ∧
    (generateAlignmentsInBackgroundV1 envC3 1 2 0 storeTwoSlides).events.countP
      isAlignBulkEvent ≤ 1 ∧
    (generateAlignmentsInBackgroundV1 envC3 1 2 0 storeTwoSlides).events.countP
      isGapBulkEvent ≤ 1 ∧
    ((generateAlignmentsInBackgroundV1 envC3 1 2 0 storeTwoSlides).events.dropWhile
        (fun e => !(isAlignBulkEvent e))).any
      (fun e => isClassifyEvent e || isRetrieveEvent e) = false ∧
    (∀ a ∈ (processAllSlidesV1 envC3 1 2
        (decide (((clearedStore storeTwoSlides 1).raw_cards.filter
          (fun r => r.deck_id == 2)).length > 0))
        (lectureSlides (clearedStore storeTwoSlides 1) 1)
        (clearedStore storeTwoSlides 1)).1.card_alignments,
      ¬ a.lecture_id = 1) :=
  c1_allornothing_amended envC3 1 2 0 storeTwoSlides rfl (by decide)

theorem callEvent_concept_props {e : Event} (h : isCallEvent e = true) :
    isConceptReadEvent e = false ∧ isConceptWriteEvent e = false ∧
    isConceptBulkReadEvent e = false ∧ isRawBulkReadEvent e = false ∧
    isConceptBulkWriteEvent e = false := by
  cases e <;> simp_all [isCallEvent, isConceptReadEvent, isConceptWriteEvent,
    isConceptBulkReadEvent, isRawBulkReadEvent, isConceptBulkWriteEvent]

theorem mapGet_foldl_isSome :
    ∀ (cs : List ConceptRow) (m0 : List (Nat × Nat)) (k : Nat),
      ((∃ c ∈ cs, c.card_id = k) ∨ (mapGet m0 k).isSome = true) →
      (mapGet (cs.foldl (fun m c => mapSet m c.card_id c.id) m0) k).isSome = true := by
  intro cs
  induction cs with
  | nil =>
    intro m0 k h
    rcases h with ⟨c, hc, -⟩ | h
    · exact absurd hc (List.not_mem_nil c)
    · exact h
  | cons c cs ih =>
    intro m0 k h
    simp only [List.foldl_cons]
    apply ih
    by_cases hk : k = c.card_id
    · refine Or.inr ?_
      rw [mapGet_mapSet, if_pos hk]
      rfl
    · rcases h with ⟨c2, hc2, hk2⟩ | h
      · rcases List.mem_cons.mp hc2 with rfl | hc2
        · exact absurd hk2.symm hk
        · exact Or.inl ⟨c2, hc2, hk2⟩
      · refine Or.inr ?_
        rw [mapGet_mapSet, if_neg hk]
        exact h

theorem resolveConceptsV1_dedup (deck : Nat) (cardIds : List Nat) (st : Store)
    (hconc : ((st.card_concepts.filter (fun c => c.deck_id == deck)).map
        (fun c => c.card_id)).Nodup)
    (hraw : ((st.raw_cards.filter (fun r => r.deck_id == deck)).map
        (fun r => r.card_id)).Nodup) :
    (((resolveConceptsV1 deck cardIds st).2.card_concepts.filter
        (fun c => c.deck_id == deck)).map (fun c => c.card_id)).Nodup ∧
    (∀ k v, mapGet (resolveConceptsV1 deck cardIds st).1 k = some v →
      ∃ c ∈ (resolveConceptsV1 deck cardIds st).2.card_concepts,
        c.id = v ∧ c.deck_id = deck ∧ c.card_id = k) := by
  simp only [resolveConceptsV1, Store.log]
  split
  · set c2c := List.filter (fun k => !(mapGet (List.foldl (fun m c => mapSet m c.card_id c.id) []
        (List.filter (fun c => c.deck_id == deck && decide (c.card_id ∈ cardIds))
          st.card_concepts)) k).isSome) cardIds with hc2c
    set rcd := List.filter (fun r => r.deck_id == deck && decide (r.card_id ∈ c2c))
      st.raw_cards with hrcd
    set nc := List.map (fun p => ConceptRow.mk (st.nextConceptId + p.1) deck p.2.card_id) ((List.range rcd.length).zip rcd) with hnc
    have hncid : ∀ c ∈ nc, c.deck_id = deck ∧ ∃ r ∈ rcd, c.card_id = r.card_id := by
      intro c hc
      rw [hnc] at hc
      obtain ⟨p, hp, hpe⟩ := List.mem_map.mp hc
      obtain ⟨i, r⟩ := p
      refine ⟨by rw [← hpe], r, (List.of_mem_zip hp).2, by rw [← hpe]⟩
    have hncD : ∀ c ∈ nc, c.card_id ∈ c2c := by
      intro c hc
      obtain ⟨-, r, hr, hcr⟩ := hncid c hc
      rw [hrcd] at hr
      have := (List.mem_filter.mp hr).2
      simp only [Bool.and_eq_true, beq_iff_eq, decide_eq_true_eq] at this
      rw [hcr]
      exact this.2
    constructor
    · rw [List.filter_append, List.map_append]
      apply List.Nodup.append hconc
      · -- the new concepts have pairwise distinct card ids
        have hkeep : nc.filter (fun c => c.deck_id == deck) = nc := by
          apply List.filter_eq_self.mpr
          intro c hc
          simp [(hncid c hc).1]
        rw [hkeep]
        have hmapeq : nc.map (fun c => c.card_id) = rcd.map (fun r => r.card_id) := by
          rw [hnc, List.map_map]
          have hzip : List.map ((fun c => c.card_id) ∘
              (fun p => ConceptRow.mk (st.nextConceptId + p.1) deck p.2.card_id))
              ((List.range rcd.length).zip rcd) =
            List.map (fun p => p.2.card_id) ((List.range rcd.length).zip rcd) := rfl
          rw [hzip]
          have : List.map (fun p => p.2.card_id) ((List.range rcd.length).zip rcd) =
              List.map (fun r => r.card_id) (List.map Prod.snd ((List.range rcd.length).zip rcd)) := by
            rw [List.map_map]
            rfl
          rw [this, List.map_snd_zip]
          simp
        rw [hmapeq]
        have hsub : rcd.Sublist (st.raw_cards.filter (fun r => r.deck_id == deck)) := by
          rw [hrcd]
          have hcongr : List.filter (fun r => r.deck_id == deck && decide (r.card_id ∈ c2c))
              st.raw_cards = List.filter (fun r => decide (r.card_id ∈ c2c))
                (List.filter (fun r => r.deck_id == deck) st.raw_cards) := by
            rw [List.filter_filter]
            apply List.filter_congr
            intro r _
            rw [Bool.and_comm]
          rw [hcongr]
          exact List.filter_sublist _
        exact hraw.sublist (hsub.map (fun r => r.card_id))
      · -- disjointness with the existing deck concepts
        intro k hk1 hk2
        obtain ⟨c0, hc0, hc0k⟩ := List.mem_map.mp hk1
        obtain ⟨cn, hcn, hcnk⟩ := List.mem_map.mp hk2
        have hc0f := List.mem_filter.mp hc0
        simp only [beq_iff_eq] at hc0f
        have hcnkc2c := hncD cn (List.mem_of_mem_filter hcn)
        rw [hcnk] at hcnkc2c
        rw [hc2c] at hcnkc2c
        have hkprop := (List.mem_filter.mp hcnkc2c).2
        have hkmem := (List.mem_filter.mp hcnkc2c).1
        have hsome : (mapGet (List.foldl (fun m c => mapSet m c.card_id c.id) []
            (List.filter (fun c => c.deck_id == deck && decide (c.card_id ∈ cardIds))
              st.card_concepts)) k).isSome = true := by
          apply mapGet_foldl_isSome
          refine Or.inl ⟨c0, ?_, by rw [hc0k]⟩
          apply List.mem_filter.mpr
          refine ⟨hc0f.1, ?_⟩
          simp only [Bool.and_eq_true, beq_iff_eq, decide_eq_true_eq]
          exact ⟨hc0f.2, by rw [hc0k]; exact hkmem⟩
        rw [hsome] at hkprop
        cases hkprop
    · intro k v h
      rcases mapGet_foldl_concepts _ _ k v h with ⟨c, hc, hck, hcv⟩ | h2
      · obtain ⟨hcd, r, hr, hcr⟩ := hncid c hc
        exact ⟨c, List.mem_append.mpr (Or.inr hc), hcv, hcd, hck⟩
      · rcases mapGet_foldl_concepts _ _ k v h2 with ⟨c, hc, hck, hcv⟩ | h3
        · have hcf := List.mem_filter.mp hc
          simp only [Bool.and_eq_true, beq_iff_eq] at hcf
          exact ⟨c, List.mem_append.mpr (Or.inl hcf.1), hcv, hcf.2.1, hck⟩
        · simp [mapGet] at h3
  · constructor
    · exact hconc
    · intro k v h
      rcases mapGet_foldl_concepts _ _ k v h with ⟨c, hc, hck, hcv⟩ | h3
      · have hcf := List.mem_filter.mp hc
        simp only [Bool.and_eq_true, beq_iff_eq] at hcf
        exact ⟨c, hcf.1, hcv, hcf.2.1, hck⟩
      · simp [mapGet] at h3

theorem finalAlignmentsV1_shared (cm : List (Nat × Nat)) (p1 p2 : PendingAlignment)
    (h : p1.card_id = p2.card_id) :
    (finalAlignmentsV1 cm [p1]).map (fun r => r.card_concept_id) =
      (finalAlignmentsV1 cm [p2]).map (fun r => r.card_concept_id) := by
  simp only [finalAlignmentsV1, List.filterMap_cons, List.filterMap_nil]
  rw [h]
  rcases hm : mapGet cm p2.card_id with _ | v
  · rfl
  · rfl

theorem resolveEvent_concept_props {e : Event} (h : isResolveBulkEvent e = true) :
    isConceptReadEvent e = false ∧ isConceptWriteEvent e = false := by
  cases e <;> simp_all [isResolveBulkEvent, isConceptReadEvent, isConceptWriteEvent]

/-- C3 (amended): bulk central concept resolution holds in the
collect-then-flush revision.  (i) A fresh run performs exactly one bulk
read of existing concepts, at most one bulk read of missing raw cards and
at most one bulk write of new concepts, no single-card concept read or
write at all, and no classification or retrieval call happens at or after
the bulk concept read (resolution is central, after all classification).
(ii) The Concept Resolver preserves uniqueness of the deck
concepts per external card id (so a card id shared by two slides yields
exactly one CardConcept), and every resolved map entry names a stored
concept of the deck carrying exactly that card id.  (iii) Two pending
alignments with the same external card id resolve to the same
card_concept_id. -/
theorem c3_bulk_resolution_amended :
    (∀ (env : Env) (lec deck user : Nat) (st : Store),
      st.events = [] →
      0 < (lectureSlides st lec).length →
      (generateAlignmentsInBackgroundV1 env lec deck user st).events.countP
        isConceptBulkReadEvent = 1 ∧
      (generateAlignmentsInBackgroundV1 env lec deck user st).events.countP
        isRawBulkReadEvent ≤ 1 ∧
      (generateAlignmentsInBackgroundV1 env lec deck user st).events.countP
        isConceptBulkWriteEvent ≤ 1 ∧
      (generateAlignmentsInBackgroundV1 env lec deck user st).events.countP
        isConceptReadEvent = 0 ∧
      (generateAlignmentsInBackgroundV1 env lec deck user st).events.countP
        isConceptWriteEvent = 0 ∧
      ((generateAlignmentsInBackgroundV1 env lec deck user st).events.dropWhile
          (fun e => !(isConceptBulkReadEvent e))).any
        (fun e => isClassifyEvent e || isRetrieveEvent e) = false) ∧
    (∀ (deck : Nat) (cardIds : List Nat) (st : Store),
      ((st.card_concepts.filter (fun c => c.deck_id == deck)).map
        (fun c => c.card_id)).Nodup →
      ((st.raw_cards.filter (fun r => r.deck_id == deck)).map
        (fun r => r.card_id)).Nodup →
      (((resolveConceptsV1 deck cardIds st).2.card_concepts.filter
          (fun c => c.deck_id == deck)).map (fun c => c.card_id)).Nodup ∧
      (∀ k v, mapGet (resolveConceptsV1 deck cardIds st).1 k = some v →
        ∃ c ∈ (resolveConceptsV1 deck cardIds st).2.card_concepts,
          c.id = v ∧ c.deck_id = deck ∧ c.card_id = k)) ∧
    (∀ (cm : List (Nat × Nat)) (p1 p2 : PendingAlignment),
      p1.card_id = p2.card_id →
      (finalAlignmentsV1 cm [p1]).map (fun r => r.card_concept_id) =
        (finalAlignmentsV1 cm [p2]).map (fun r => r.card_concept_id)) := by
  refine ⟨?_, fun deck cardIds st hc hr => resolveConceptsV1_dedup deck cardIds st hc hr,
    fun cm p1 p2 h => finalAlignmentsV1_shared cm p1 p2 h⟩
  intro env lec deck user st hev0 hpos
  obtain ⟨waveEs, resEs, abEs, gbEs, hE, hwp, hrp, hr1, hr2, hr3, hab, hgb⟩ :=
    genV1_trace env lec deck user st hpos
  rw [hev0, List.nil_append] at hE
  have hw1 : waveEs.countP isConceptBulkReadEvent = 0 :=
    List.countP_eq_zero.mpr (fun e he => by simp [(callEvent_concept_props (hwp e he)).2.2.1])
  have hw2 : waveEs.countP isRawBulkReadEvent = 0 :=
    List.countP_eq_zero.mpr (fun e he => by simp [(callEvent_concept_props (hwp e he)).2.2.2.1])
  have hw3 : waveEs.countP isConceptBulkWriteEvent = 0 :=
    List.countP_eq_zero.mpr (fun e he => by simp [(callEvent_concept_props (hwp e he)).2.2.2.2])
  have hw4 : waveEs.countP isConceptReadEvent = 0 :=
    List.countP_eq_zero.mpr (fun e he => by simp [(callEvent_concept_props (hwp e he)).1])
  have hw5 : waveEs.countP isConceptWriteEvent = 0 :=
    List.countP_eq_zero.mpr (fun e he => by simp [(callEvent_concept_props (hwp e he)).2.1])
  have hr4 : resEs.countP isConceptReadEvent = 0 :=
    List.countP_eq_zero.mpr (fun e he => by simp [(resolveEvent_concept_props (hrp e he)).1])
  have hr5 : resEs.countP isConceptWriteEvent = 0 :=
    List.countP_eq_zero.mpr (fun e he => by simp [(resolveEvent_concept_props (hrp e he)).2])
  refine ⟨?_, ?_, ?_, ?_, ?_, ?_⟩
  · rw [hE]
    simp only [List.countP_append, hw1, hr1]
    rcases hab with rfl | ⟨n, rfl⟩ <;> rcases hgb with rfl | ⟨m2, rfl⟩ <;>
      simp [List.countP_cons, List.countP_nil, isConceptBulkReadEvent]
  · rw [hE]
    simp only [List.countP_append, hw2]
    rcases hab with rfl | ⟨n, rfl⟩ <;> rcases hgb with rfl | ⟨m2, rfl⟩ <;>
      simp [List.countP_cons, List.countP_nil, isRawBulkReadEvent] <;> omega
  · rw [hE]
    simp only [List.countP_append, hw3]
    rcases hab with rfl | ⟨n, rfl⟩ <;> rcases hgb with rfl | ⟨m2, rfl⟩ <;>
      simp [List.countP_cons, List.countP_nil, isConceptBulkWriteEvent] <;> omega
  · rw [hE]
    simp only [List.countP_append, hw4, hr4]
    rcases hab with rfl | ⟨n, rfl⟩ <;> rcases hgb with rfl | ⟨m2, rfl⟩ <;>
      simp [List.countP_cons, List.countP_nil, isConceptReadEvent]
  · rw [hE]
    simp only [List.countP_append, hw5, hr5]
    rcases hab with rfl | ⟨n, rfl⟩ <;> rcases hgb with rfl | ⟨m2, rfl⟩ <;>
      simp [List.countP_cons, List.countP_nil, isConceptWriteEvent]
  · -- no classification or retrieval call at or after the bulk concept read
    rw [hE]
    have h1 : ∀ x ∈ [Event.clearAlignments lec, Event.clearGaps lec, Event.progressUpdate 5],
        (!(isConceptBulkReadEvent x)) = true := by
      intro x hx
      simp only [List.mem_cons, List.not_mem_nil, or_false] at hx
      rcases hx with rfl | rfl | rfl <;> rfl
    have h2 : ∀ x ∈ waveEs, (!(isConceptBulkReadEvent x)) = true :=
      fun x hx => by simp [(callEvent_concept_props (hwp x hx)).2.2.1]
    have h3 : ∀ x ∈ [Event.progressUpdate 80], (!(isConceptBulkReadEvent x)) = true := by
      intro x hx
      simp only [List.mem_cons, List.not_mem_nil, or_false] at hx
      subst hx
      rfl
    simp only [List.append_assoc]
    rw [dropWhile_append_all h1, dropWhile_append_all h2, dropWhile_append_all h3]
    have hsuffix : ∀ e ∈ resEs ++ (abEs ++ (gbEs ++
        [Event.statusUpdate JobStatus.completed (some 100)])),
        (isClassifyEvent e || isRetrieveEvent e) = false := by
      intro e he
      rcases List.mem_append.mp he with he | he
      · have hp := resolveEvent_props (hrp e he)
        simp [hp.2.2.2.1, hp.2.2.2.2]
      · rcases List.mem_append.mp he with he | he
        · rcases hab with rfl | ⟨n, rfl⟩
          · cases he
          · simp only [List.mem_cons, List.not_mem_nil, or_false] at he
            subst he
            rfl
        · rcases List.mem_append.mp he with he | he
          · rcases hgb with rfl | ⟨m2, rfl⟩
            · cases he
            · simp only [List.mem_cons, List.not_mem_nil, or_false] at he
              subst he
              rfl
          · simp only [List.mem_cons, List.not_mem_nil, or_false] at he
            subst he
            rfl
    rw [List.any_eq_false]
    intro e he
    have hmem : e ∈ resEs ++ (abEs ++ (gbEs ++
        [Event.statusUpdate JobStatus.completed (some 100)])) :=
      (List.dropWhile_sublist _).subset he
    simp [hsuffix e hmem]

/-- A pending alignment of slide 11 for card 101. -/
def pendX : PendingAlignment :=
  { lecture_id := 1, slide_concept_id := 11, card_id := 101,
    alignment_type := AlignmentType.not_aligned, similarity_score := 1/2,
    llm_reasoning := "x", tags := [] }

/-- A pending alignment of slide 12 for the same card 101. -/
def pendY : PendingAlignment :=
  { pendX with slide_concept_id := 12, llm_reasoning := "y" }

/-- Witness for the amended C3 at concrete inputs: a two-slide run of the
collect-then-flush revision, a concrete resolver call, and two pendings
sharing card 101. -/
theorem c3_bulk_resolution_amended_witness :
    ((generateAlignmentsInBackgroundV1 envC3 1 2 0 storeTwoSlides).events.countP
        isConceptBulkReadEvent = 1 ∧
      (generateAlignmentsInBackgroundV1 envC3 1 2 0 storeTwoSlides).events.countP
        isRawBulkReadEvent ≤ 1 ∧
      (generateAlignmentsInBackgroundV1 envC3 1 2 0 storeTwoSlides).events.countP
        isConceptBulkWriteEvent ≤ 1 ∧
      (generateAlignmentsInBackgroundV1 envC3 1 2 0 storeTwoSlides).events.countP
        isConceptReadEvent = 0 ∧
      (generateAlignmentsInBackgroundV1 envC3 1 2 0 storeTwoSlides).events.countP
        isConceptWriteEvent = 0 ∧
      ((generateAlignmentsInBackgroundV1 envC3 1 2 0 storeTwoSlides).events.dropWhile
          (fun e => !(isConceptBulkReadEvent e))).any
        (fun e => isClassifyEvent e || isRetrieveEvent e) = false) ∧
    ((((resolveConceptsV1 2 [101, 102] storeTwoSlides).2.card_concepts.filter
        (fun c => c.deck_id == 2)).map (fun c => c.card_id)).Nodup ∧
      (∀ k v, mapGet (resolveConceptsV1 2 [101, 102] storeTwoSlides).1 k = some v →
        ∃ c ∈ (resolveConceptsV1 2 [101, 102] storeTwoSlides).2.card_concepts,
          c.id = v ∧ c.deck_id = 2 ∧ c.card_id = k)) ∧
    (finalAlignmentsV1 [(101, 500)] [pendX]).map (fun r => r.card_concept_id) =
      (finalAlignmentsV1 [(101, 500)] [pendY]).map (fun r => r.card_concept_id) :=
  ⟨c3_bulk_resolution_amended.1 envC3 1 2 0 storeTwoSlides rfl (by decide),
   c3_bulk_resolution_amended.2.1 2 [101, 102] storeTwoSlides (by decide) (by decide),
   c3_bulk_resolution_amended.2.2 [(101, 500)] pendX pendY rfl⟩
